import Mathlib

set_option maxRecDepth 20000
set_option maxHeartbeats 1000000

/-!
Shallow embedding of degoogle_mbox.py, a script that repairs a Google Takeout
mbox export: it re-derives envelope separator lines, repairs Date headers via
a multi-strategy parsing cascade, purges X-Google- metadata headers and
preserves threading headers.

Machine strings are modeled as List Char; Python exceptions relevant to the
control flow are modeled explicitly, because the script catches only some of
them.  Each definition carries a reference to the Python code it embeds
(either the script itself under src/degoogle_mbox.py, or the CPython standard
library functions the script calls).
-/

/-- Python exception classes that matter for the control flow of the script:
fix_date raises an uncaught TypeError when handed None, and the stdlib date
parser signals failure with ValueError. -/
inductive PyErr where
  | typeError
  | valueError
  deriving DecidableEq, Repr

/-- First element of the list that is a some, in order; models taking the
first strategy that succeeds in an ordered cascade. -/
def firstSome {α : Type} : List (Option α) → Option α
  | [] => none
  | some a :: _ => some a
  | none :: rest => firstSome rest

/-- ASCII lowercase of one character, as Python str.lower acts on ASCII. -/
def lowerChar (c : Char) : Char :=
  if 65 ≤ c.toNat ∧ c.toNat ≤ 90 then Char.ofNat (c.toNat + 32) else c

/-- ASCII uppercase of one character, as Python str.upper acts on ASCII. -/
def upperChar (c : Char) : Char :=
  if 97 ≤ c.toNat ∧ c.toNat ≤ 122 then Char.ofNat (c.toNat - 32) else c

/-- Python str.lower over a string (ASCII model). -/
def lowerStr (l : List Char) : List Char := l.map lowerChar

/-- Python str.upper over a string (ASCII model). -/
def upperStr (l : List Char) : List Char := l.map upperChar

/-- Python str whitespace characters (ASCII model of str.split / str.strip
whitespace classes). -/
def isPyWs (c : Char) : Bool :=
  c = ' ' ∨ c = '\t' ∨ c = '\n' ∨ c = '\r' ∨ c = '\x0b' ∨ c = '\x0c'

/-- Python str.strip with no argument: strip whitespace at both ends. -/
def pystrip (l : List Char) : List Char :=
  ((l.dropWhile (fun c => isPyWs c)).reverse.dropWhile (fun c => isPyWs c)).reverse

/-- Helper for pySplitWs: accumulate the current token (reversed). -/
def splitWsAux : List Char → List Char → List (List Char)
  | [], cur => if cur.isEmpty then [] else [cur.reverse]
  | c :: rest, cur =>
    if isPyWs c then
      if cur.isEmpty then splitWsAux rest [] else cur.reverse :: splitWsAux rest []
    else splitWsAux rest (c :: cur)

/-- Python str.split with no argument: split on runs of whitespace, and drop
empty pieces. -/
def pySplitWs (l : List Char) : List (List Char) := splitWsAux l []

/-- Helper for splitOnChar. -/
def splitOnCharAux (sep : Char) : List Char → List Char → List (List Char)
  | [], cur => [cur.reverse]
  | c :: rest, cur =>
    if c = sep then cur.reverse :: splitOnCharAux sep rest []
    else splitOnCharAux sep rest (c :: cur)

/-- Python str.split with a one-character separator: keeps empty pieces. -/
def splitOnChar (sep : Char) (l : List Char) : List (List Char) :=
  splitOnCharAux sep l []

/-- Numeric value of an ASCII digit character. -/
def digitV (c : Char) : Nat := c.toNat - 48

/-- Value of a string of ASCII digits read in base 10. -/
def digitsToNat (l : List Char) : Nat := l.foldl (fun a c => a * 10 + digitV c) 0

/-- Python int(str): optional sign then one or more digits, with surrounding
whitespace allowed; None models the ValueError raised on anything else.
(Underscore digit grouping and non-ASCII digits are not modeled; no input in
this development uses them.) -/
def pyInt? (l : List Char) : Option Int :=
  match pystrip l with
  | [] => none
  | c :: ds =>
    if c = '+' then
      (if ds ≠ [] ∧ ds.all Char.isDigit then some (digitsToNat ds) else none)
    else if c = '-' then
      (if ds ≠ [] ∧ ds.all Char.isDigit then some (-(digitsToNat ds : Int)) else none)
    else if (c :: ds).all Char.isDigit then some (digitsToNat (c :: ds)) else none

/-- Python str.find for one character: index of first occurrence. -/
def findChar (c : Char) : List Char → Option Nat
  | [] => none
  | x :: rest => if x = c then some 0 else (findChar c rest).map (· + 1)

/-- Python str.rfind for one character: index of last occurrence. -/
def rfindChar (c : Char) (l : List Char) : Option Nat :=
  (findChar c l.reverse).map (fun i => l.length - 1 - i)

/-- ASCII digit character for a value below ten. -/
def digitChar (k : Nat) : Char := Char.ofNat (48 + k)

/-- Two-digit zero-padded decimal rendering, as strftime %d, %m, %H, %M, %S
produce. -/
def pad2 (n : Nat) : List Char := [digitChar (n / 10), digitChar (n % 10)]

/-- Four-digit zero-padded decimal rendering, as strftime %Y produces for the
years considered here. -/
def pad4 (n : Nat) : List Char :=
  [digitChar (n / 1000), digitChar (n / 100 % 10), digitChar (n / 10 % 10), digitChar (n % 10)]

/-- A Python datetime.datetime value: calendar fields plus an optional fixed
offset from UTC in seconds (none models a naive datetime, whose tzinfo is
None). Microseconds are not modeled; nothing in the script produces them. -/
structure PyDateTime where
  year : Nat
  month : Nat
  day : Nat
  hour : Nat
  minute : Nat
  second : Nat
  tzOffset : Option Int
  deriving DecidableEq, Repr

/-- Gregorian leap year test, as datetime uses. -/
def isLeapYear (y : Nat) : Bool := (y % 4 = 0 ∧ y % 100 ≠ 0) ∨ y % 400 = 0

/-- Number of days in a month of a year, as datetime uses. -/
def daysInMonth (y m : Nat) : Nat :=
  if m = 2 then (if isLeapYear y then 29 else 28)
  else if m = 4 ∨ m = 6 ∨ m = 9 ∨ m = 11 then 30
  else 31

/-- Validity of a tzinfo offset: datetime.timezone requires a strict bound of
one day on the magnitude of the offset. -/
def tzOk : Option Int → Bool
  | none => true
  | some o => -86400 < o ∧ o < 86400

/-- The datetime.datetime constructor: validates all fields and raises
ValueError (modeled as none) when any is out of range, including the
day-of-month against the calendar. -/
def mkPyDateTime (y m d h mi s : Int) (tz : Option Int) : Option PyDateTime :=
  if 1 ≤ y ∧ y ≤ 9999 ∧ 1 ≤ m ∧ m ≤ 12 ∧ 1 ≤ d ∧
     d ≤ (daysInMonth y.toNat m.toNat : Int) ∧ 0 ≤ h ∧ h ≤ 23 ∧
     0 ≤ mi ∧ mi ≤ 59 ∧ 0 ≤ s ∧ s ≤ 59 ∧ tzOk tz then
    some ⟨y.toNat, m.toNat, d.toNat, h.toNat, mi.toNat, s.toNat, tz⟩
  else none

/-- Weekday names recognized by the stdlib mail date parser
(email._parseaddr._daynames). -/
def emailDaynames : List (List Char) :=
  [("mon".toList), ("tue".toList), ("wed".toList), ("thu".toList),
   ("fri".toList), ("sat".toList), ("sun".toList)]

/-- Month names recognized by the stdlib mail date parser
(email._parseaddr._monthnames); the abbreviation of a month and its full
name both map to the same month number via index modulo twelve. -/
def emailMonthnames : List (List Char) :=
  [("jan".toList), ("feb".toList), ("mar".toList), ("apr".toList),
   ("may".toList), ("jun".toList), ("jul".toList), ("aug".toList),
   ("sep".toList), ("oct".toList), ("nov".toList), ("dec".toList),
   ("january".toList), ("february".toList), ("march".toList),
   ("april".toList), ("may".toList), ("june".toList), ("july".toList),
   ("august".toList), ("september".toList), ("october".toList),
   ("november".toList), ("december".toList)]

/-- Named zones recognized by the stdlib mail date parser, with their offsets
in the hundreds convention used there (email._parseaddr._timezones). -/
def emailTimezones : List (List Char × Int) :=
  [(("UT".toList), 0), (("UTC".toList), 0), (("GMT".toList), 0), (("Z".toList), 0),
   (("AST".toList), -400), (("ADT".toList), -300),
   (("EST".toList), -500), (("EDT".toList), -400),
   (("CST".toList), -600), (("CDT".toList), -500),
   (("MST".toList), -700), (("MDT".toList), -600),
   (("PST".toList), -800), (("PDT".toList), -700)]

/-- The row produced by the stdlib mail date parser: year, month, day, hour,
minute, second and the optional zone offset in seconds (none when the zone is
absent or unrecognized, producing a naive datetime downstream). -/
structure ParsedTzTuple where
  yy : Int
  mm : Nat
  dd : Int
  thh : Int
  tmm : Int
  tss : Int
  tzoff : Option Int
  deriving DecidableEq, Repr

/-- The zone-token conversion of CPython email._parseaddr._parsedate_tz:
a named zone or a signed numeric HHMM value, converted to seconds with the
sign handling of the stdlib source; None models an unrecognized zone (and
the unknown-zone form -0000). -/
def tzToOffset (tz1 : List Char) : Option Int :=
  let tzU := upperStr tz1
  let raw : Option Int :=
    match emailTimezones.lookup tzU with
    | some v => some v
    | none =>
      match pyInt? tz1 with
      | some n => if n = 0 ∧ tz1.head? = some '-' then none else some n
      | none => none
  match raw with
  | none => none
  | some n =>
    if n = 0 then some 0
    else
      let sign : Int := if n < 0 then -1 else 1
      some (sign * (((n.natAbs : Int) / 100) * 3600 + ((n.natAbs : Int) % 100) * 60))

/-- The main section of CPython email._parseaddr._parsedate_tz (the part
after the token-list adjustments), ported from the stdlib source; None models
every failure return of the stdlib function. -/
def parsedateTzMain (data3 : List (List Char)) : Option ParsedTzTuple :=
  if data3.length < 5 then none
    else
      match data3 with
      | dd0 :: mm0 :: yy0 :: tm0 :: tz0 :: _ =>
        if dd0 = [] ∨ mm0 = [] ∨ yy0 = [] then none
        else
          let mmL := lowerStr mm0
          let pair : Option (List Char × List Char) :=
            if emailMonthnames.contains mmL then some (dd0, mmL)
            else
              let mm2 := lowerStr dd0
              if emailMonthnames.contains mm2 then some (mmL, mm2) else none
          match pair with
          | none => none
          | some (dd1, mmName) =>
            let mmIdx := (emailMonthnames.findIdx? (fun n => n = mmName)).getD 0
            let monthNum := if mmIdx + 1 > 12 then mmIdx + 1 - 12 else mmIdx + 1
            let dd2 := if dd1.getLast? = some ',' then dd1.dropLast else dd1
            let swapYT : Bool :=
              match findChar ':' yy0 with
              | some i => decide (0 < i)
              | none => false
            let yy1 := if swapYT then tm0 else yy0
            let tm1 := if swapYT then yy0 else tm0
            let yy2 := if yy1.getLast? = some ',' then yy1.dropLast else yy1
            match yy2 with
            | [] => none
            | yc :: _ =>
              let yyKeep := yc.isDigit
              let yy3 := if yyKeep then yy2 else tz0
              let tz1 := if yyKeep then tz0 else yy2
              let tm2 := if tm1.getLast? = some ',' then tm1.dropLast else tm1
              let tmParts := splitOnChar ':' tm2
              let hms : Option (List Char × List Char × List Char) :=
                if tmParts.length = 2 then
                  match tmParts with
                  | [a, b] => some (a, b, ['0'])
                  | _ => none
                else if tmParts.length = 3 then
                  match tmParts with
                  | [a, b, c] => some (a, b, c)
                  | _ => none
                else if tmParts.length = 1 ∧ tm2.contains '.' then
                  let dotParts := splitOnChar '.' tm2
                  if dotParts.length = 2 then
                    match dotParts with
                    | [a, b] => some (a, b, ['0'])
                    | _ => none
                  else if dotParts.length = 3 then
                    match dotParts with
                    | [a, b, c] => some (a, b, c)
                    | _ => none
                  else none
                else none
              match hms with
              | none => none
              | some (thhS, tmmS, tssS) =>
                match pyInt? yy3, pyInt? dd2, pyInt? thhS, pyInt? tmmS, pyInt? tssS with
                | some yyV0, some ddV, some thhV, some tmmV, some tssV =>
                  let yyV :=
                    if yyV0 < 100 then (if yyV0 > 68 then yyV0 + 1900 else yyV0 + 2000)
                    else yyV0
                  let tzoff : Option Int := tzToOffset tz1
                  (some ⟨yyV, monthNum, ddV, thhV, tmmV, tssV, tzoff⟩)
                | _, _, _, _, _ => none
      | _ => none

/-- CPython email._parseaddr._parsedate_tz on the whitespace-split token list
of the input, ported from the stdlib source: the token-list adjustments (drop
a weekday token, re-split a dash-joined date, split a trailing signed zone)
followed by the main section. -/
def parsedateTzTokens (data0 : List (List Char)) : Option ParsedTzTuple :=
  match data0 with
  | [] => none
  | d0 :: rest0 =>
    let data1 : List (List Char) :=
      if d0.getLast? = some ',' ∨ emailDaynames.contains (lowerStr d0) then rest0
      else match rfindChar ',' d0 with
        | some i => (d0.drop (i + 1)) :: rest0
        | none => d0 :: rest0
    let data2 : List (List Char) :=
      if data1.length = 3 then
        match data1 with
        | t0 :: trest =>
          let stuff := splitOnChar '-' t0
          if stuff.length = 3 then stuff ++ trest else data1
        | [] => data1
      else data1
    let data3 : List (List Char) :=
      if data2.length = 4 then
        match data2.getLast? with
        | some s =>
          let iFound : Option Nat :=
            match findChar '+' s with
            | some j => some j
            | none => findChar '-' s
          match iFound with
          | some j =>
            if 0 < j then data2.take 3 ++ [s.take j, s.drop j] else data2 ++ [[]]
          | none => data2 ++ [[]]
        | none => data2 ++ [[]]
      else data2
    parsedateTzMain data3

/-- CPython email.utils.parsedate_to_datetime: raises ValueError when the
row is None, builds a naive datetime when the zone offset is None, and an
aware datetime otherwise.  An out-of-range field raises ValueError from the
datetime constructor. -/
def parsedateToDatetime (s : List Char) : Except PyErr PyDateTime :=
  match parsedateTzTokens (pySplitWs s) with
  | none => .error .valueError
  | some t =>
    match mkPyDateTime t.yy (t.mm : Int) t.dd t.thh t.tmm t.tss t.tzoff with
    | some dt => .ok dt
    | none => .error .valueError

/-- Weekday abbreviations matched by the strptime %a directive under the C
locale (the regex alternation mon|tue|wed|thu|fri|sat|sun, IGNORECASE). -/
def strptimeDayAbbrs : List (List Char) :=
  [("mon".toList), ("tue".toList), ("wed".toList), ("thu".toList),
   ("fri".toList), ("sat".toList), ("sun".toList)]

/-- Month abbreviations matched by the strptime %b directive under the C
locale (the regex alternation jan|feb|...|dec, IGNORECASE). -/
def strptimeMonthAbbrs : List (List Char) :=
  [("jan".toList), ("feb".toList), ("mar".toList), ("apr".toList),
   ("may".toList), ("jun".toList), ("jul".toList), ("aug".toList),
   ("sep".toList), ("oct".toList), ("nov".toList), ("dec".toList)]

/-- Case-insensitive match of a lowercase pattern at the head of the input,
as one alternative of an IGNORECASE regex alternation; returns the rest. -/
def matchCI : List Char → List Char → Option (List Char)
  | [], rest => some rest
  | _ :: _, [] => none
  | p :: ps, c :: cs => if lowerChar c = p then matchCI ps cs else none

/-- All alternatives of a regex alternation of fixed names that match at the
head of the input, with their indices, in alternation order. -/
def candsAlt (names : List (List Char)) (input : List Char) : List (Nat × List Char) :=
  names.enum.filterMap (fun p => (matchCI p.2 input).map (fun r => (p.1, r)))

/-- Inclusive character range test, as a regex character class uses. -/
def between (lo hi c : Char) : Bool := lo ≤ c ∧ c ≤ hi

/-- Candidates of the strptime %Y directive, regex \d\d\d\d. -/
def candsY : List Char → List (Nat × List Char)
  | a :: b :: c :: d :: rest =>
    if a.isDigit ∧ b.isDigit ∧ c.isDigit ∧ d.isDigit then
      [(digitsToNat [a, b, c, d], rest)]
    else []
  | _ => []

/-- Candidates of the strptime %m directive, regex 1[0-2]|0[1-9]|[1-9], in
alternation order. -/
def candsM : List Char → List (Nat × List Char)
  | c1 :: c2 :: rest =>
    (if c1 = '1' ∧ between '0' '2' c2 then [(10 + digitV c2, rest)] else []) ++
    (if c1 = '0' ∧ between '1' '9' c2 then [(digitV c2, rest)] else []) ++
    (if between '1' '9' c1 then [(digitV c1, c2 :: rest)] else [])
  | [c1] => if between '1' '9' c1 then [(digitV c1, [])] else []
  | [] => []

/-- Candidates of the strptime %d directive, regex
3[0-1]|[1-2]\d|0[1-9]|[1-9]| [1-9], in alternation order. -/
def candsD : List Char → List (Nat × List Char)
  | c1 :: c2 :: rest =>
    (if c1 = '3' ∧ between '0' '1' c2 then [(30 + digitV c2, rest)] else []) ++
    (if between '1' '2' c1 ∧ c2.isDigit then [(10 * digitV c1 + digitV c2, rest)] else []) ++
    (if c1 = '0' ∧ between '1' '9' c2 then [(digitV c2, rest)] else []) ++
    (if between '1' '9' c1 then [(digitV c1, c2 :: rest)] else []) ++
    (if c1 = ' ' ∧ between '1' '9' c2 then [(digitV c2, rest)] else [])
  | [c1] => if between '1' '9' c1 then [(digitV c1, [])] else []
  | [] => []

/-- Candidates of the strptime %H directive, regex 2[0-3]|[0-1]\d|\d, in
alternation order. -/
def candsH : List Char → List (Nat × List Char)
  | c1 :: c2 :: rest =>
    (if c1 = '2' ∧ between '0' '3' c2 then [(20 + digitV c2, rest)] else []) ++
    (if between '0' '1' c1 ∧ c2.isDigit then [(10 * digitV c1 + digitV c2, rest)] else []) ++
    (if c1.isDigit then [(digitV c1, c2 :: rest)] else [])
  | [c1] => if c1.isDigit then [(digitV c1, [])] else []
  | [] => []

/-- Candidates of the strptime %M directive, regex [0-5]\d|\d, in
alternation order. -/
def candsMin : List Char → List (Nat × List Char)
  | c1 :: c2 :: rest =>
    (if between '0' '5' c1 ∧ c2.isDigit then [(10 * digitV c1 + digitV c2, rest)] else []) ++
    (if c1.isDigit then [(digitV c1, c2 :: rest)] else [])
  | [c1] => if c1.isDigit then [(digitV c1, [])] else []
  | [] => []

/-- Candidates of the strptime %S directive, regex 6[0-1]|[0-5]\d|\d, in
alternation order. -/
def candsS : List Char → List (Nat × List Char)
  | c1 :: c2 :: rest =>
    (if c1 = '6' ∧ between '0' '1' c2 then [(60 + digitV c2, rest)] else []) ++
    (if between '0' '5' c1 ∧ c2.isDigit then [(10 * digitV c1 + digitV c2, rest)] else []) ++
    (if c1.isDigit then [(digitV c1, c2 :: rest)] else [])
  | [c1] => if c1.isDigit then [(digitV c1, [])] else []
  | [] => []

/-- Tails of the input after greedily consuming further whitespace, longest
consumption first; the continuation of regex \s+ after its first character. -/
def wsTails : List Char → List (List Char)
  | [] => [[]]
  | c :: rest => if isPyWs c then wsTails rest ++ [c :: rest] else [c :: rest]

/-- Candidates of the regex fragment \s+ that strptime substitutes for
whitespace in a format: at least one whitespace character, greedy. -/
def candsWs : List Char → List (List Char)
  | c :: rest => if isPyWs c then wsTails rest else []
  | [] => []

/-- Tails after the optional fraction (\.\d{1,6})?: one to six digits after a
dot, greedy, longest first, with the no-fraction alternative last. -/
def fracDigits : List Char → Nat → List (List Char)
  | _, 0 => []
  | [], _ => []
  | c :: rest, k + 1 => if c.isDigit then fracDigits rest k ++ [rest] else []

/-- Tails of the optional fractional-seconds part of the %z regex. -/
def fracTails (l : List Char) : List (List Char) :=
  match l with
  | '.' :: rest => fracDigits rest 6 ++ [l]
  | _ => [l]

/-- Candidates of the strptime %z directive, regex
[+-]\d\d:?[0-5]\d(:?[0-5]\d(\.\d{1,6})?)?|(?-i:Z), in backtracking order;
the value is the signed offset in seconds as _strptime computes it (the
consumed fraction only feeds microseconds, which this model omits). -/
def candsZ (input : List Char) : List (Int × List Char) :=
  (match input with
   | c0 :: h1 :: h2 :: r1 =>
     if (c0 = '+' ∨ c0 = '-') ∧ h1.isDigit ∧ h2.isDigit then
       let sign : Int := if c0 = '-' then -1 else 1
       let hh := 10 * digitV h1 + digitV h2
       let afterColon : List (List Char) :=
         match r1 with
         | ':' :: r2 => [r2, r1]
         | _ => [r1]
       afterColon.flatMap (fun r2 =>
         match r2 with
         | m1 :: m2 :: r3 =>
           if between '0' '5' m1 ∧ m2.isDigit then
             let mm := 10 * digitV m1 + digitV m2
             let withSec : List (Int × List Char) :=
               (match r3 with
                | ':' :: r4 => [r4, r3]
                | _ => [r3]).flatMap (fun r4 =>
                 match r4 with
                 | s1 :: s2 :: r5 =>
                   if between '0' '5' s1 ∧ s2.isDigit then
                     let ss := 10 * digitV s1 + digitV s2
                     (fracTails r5).map (fun r6 =>
                       (sign * (hh * 3600 + mm * 60 + ss), r6))
                   else []
                 | _ => [])
             withSec ++ [(sign * (hh * 3600 + mm * 60), r3)]
           else []
         | _ => [])
     else []
   | _ => []) ++
  (match input with
   | 'Z' :: rest0 => [(0, rest0)]
   | _ => [])

/-- The captured calendar fields accumulated while matching a strptime
format; fields keep the stdlib defaults when their directive is absent. -/
structure StrpAcc where
  y : Option Nat
  mo : Option Nat
  d : Option Nat
  h : Option Nat
  mi : Option Nat
  s : Option Nat
  z : Option Int
  deriving DecidableEq, Repr

/-- One directive of a strptime format, as the script uses them; wsp is the
\s+ that _strptime substitutes for literal whitespace in the format. -/
inductive Dir where
  | lit (c : Char)
  | wsp
  | yr4
  | mon2
  | day2
  | hr2
  | min2
  | sec2
  | wkA
  | monB
  | zOff
  deriving DecidableEq, Repr

/-- Candidate continuations of one directive at the head of the input, in
regex backtracking order. -/
def dirCands : Dir → StrpAcc → List Char → List (StrpAcc × List Char)
  | .lit c, acc, input =>
    (match input with
     | x :: rest => if x = c then [(acc, rest)] else []
     | [] => [])
  | .wsp, acc, input => (candsWs input).map (fun r => (acc, r))
  | .yr4, acc, input => (candsY input).map (fun p => ({ acc with y := some p.1 }, p.2))
  | .mon2, acc, input => (candsM input).map (fun p => ({ acc with mo := some p.1 }, p.2))
  | .day2, acc, input => (candsD input).map (fun p => ({ acc with d := some p.1 }, p.2))
  | .hr2, acc, input => (candsH input).map (fun p => ({ acc with h := some p.1 }, p.2))
  | .min2, acc, input => (candsMin input).map (fun p => ({ acc with mi := some p.1 }, p.2))
  | .sec2, acc, input => (candsS input).map (fun p => ({ acc with s := some p.1 }, p.2))
  | .wkA, acc, input => (candsAlt strptimeDayAbbrs input).map (fun p => (acc, p.2))
  | .monB, acc, input => (candsAlt strptimeMonthAbbrs input).map (fun p => ({ acc with mo := some (p.1 + 1) }, p.2))
  | .zOff, acc, input => (candsZ input).map (fun p => ({ acc with z := some p.1 }, p.2))

/-- Anchored backtracking match of a whole strptime format against the whole
input, as _strptime does (regex match plus the unconverted-data check). -/
def matchDirs : List Dir → StrpAcc → List Char → Option StrpAcc
  | [], acc, [] => some acc
  | [], _, _ :: _ => none
  | dir :: dirs, acc, input =>
    firstSome ((dirCands dir acc input).map (fun p => matchDirs dirs p.1 p.2))

/-- Format "%Y/%m/%d" from the formats list of parse_date. -/
def fmtSlash : List Dir := [.yr4, .lit '/', .mon2, .lit '/', .day2]

/-- Format "%a, %d %b %Y %H:%M:%S %z" from the formats list of parse_date. -/
def fmtWdOff : List Dir :=
  [.wkA, .lit ',', .wsp, .day2, .wsp, .monB, .wsp, .yr4, .wsp,
   .hr2, .lit ':', .min2, .lit ':', .sec2, .wsp, .zOff]

/-- Format "%d %b %Y %H:%M:%S %z" from the formats list of parse_date. -/
def fmtDmyOff : List Dir :=
  [.day2, .wsp, .monB, .wsp, .yr4, .wsp,
   .hr2, .lit ':', .min2, .lit ':', .sec2, .wsp, .zOff]

/-- Format "%a %b %d %H:%M:%S %Y" (ctime style) from the formats list of
parse_date. -/
def fmtCtime : List Dir :=
  [.wkA, .wsp, .monB, .wsp, .day2, .wsp,
   .hr2, .lit ':', .min2, .lit ':', .sec2, .wsp, .yr4]

/-- Format "%Y-%m-%d %H:%M:%S" from the formats list of parse_date. -/
def fmtIsoSec : List Dir :=
  [.yr4, .lit '-', .mon2, .lit '-', .day2, .wsp,
   .hr2, .lit ':', .min2, .lit ':', .sec2]

/-- Format "%Y-%m-%d" from the formats list of parse_date. -/
def fmtIso : List Dir := [.yr4, .lit '-', .mon2, .lit '-', .day2]

/-- The formats list of parse_date (src/degoogle_mbox.py lines 23-30), in
source order. -/
def formatsList : List (List Dir) :=
  [fmtSlash, fmtWdOff, fmtDmyOff, fmtCtime, fmtIsoSec, fmtIso]

/-- datetime.strptime: backtracking match of the whole string, then datetime
construction with the stdlib defaults (year 1900, month 1, day 1, midnight);
a matched %z makes the result aware. ValueError is modeled as none. -/
def pyStrptime (input : List Char) (fmt : List Dir) : Option PyDateTime :=
  match matchDirs fmt ⟨none, none, none, none, none, none, none⟩ input with
  | none => none
  | some acc =>
    mkPyDateTime ((acc.y.getD 1900 : Nat) : Int) ((acc.mo.getD 1 : Nat) : Int)
      ((acc.d.getD 1 : Nat) : Int) ((acc.h.getD 0 : Nat) : Int)
      ((acc.mi.getD 0 : Nat) : Int) ((acc.s.getD 0 : Nat) : Int) acc.z

/-- One iteration of the formats loop of parse_date (src lines 32-39):
datetime.strptime on the stripped string, then UTC assigned whenever the
result is naive. -/
def strptimeUTC (s : List Char) (fmt : List Dir) : Option PyDateTime :=
  match pyStrptime (pystrip s) fmt with
  | some dt => some (if dt.tzOffset = none then { dt with tzOffset := some 0 } else dt)
  | none => none

/-- parse_date from src/degoogle_mbox.py (lines 11-41): a None or empty
input returns None; then email.utils.parsedate_to_datetime with TypeError
and ValueError caught; then the six explicit formats tried in order, first
success returned. -/
def parse_date (ds : Option (List Char)) : Option PyDateTime :=
  match ds with
  | none => none
  | some s =>
    if s = [] then none
    else
      match parsedateToDatetime s with
      | .ok dt => some dt
      | .error _ => firstSome (formatsList.map (fun f => strptimeUTC s f))

/-- Candidates of the regex fragment \d{1,2}: greedy, two digits first. -/
def cands12 : List Char → List (List Char × List Char)
  | c1 :: c2 :: rest =>
    (if c1.isDigit ∧ c2.isDigit then [([c1, c2], rest)] else []) ++
    (if c1.isDigit then [([c1], c2 :: rest)] else [])
  | [c1] => if c1.isDigit then [([c1], [])] else []
  | [] => []

/-- Candidate of the regex fragment (\d{4}): exactly four digits. -/
def cands4d : List Char → List (List Char × List Char)
  | a :: b :: c :: d :: rest =>
    if a.isDigit ∧ b.isDigit ∧ c.isDigit ∧ d.isDigit then [([a, b, c, d], rest)] else []
  | _ => []

/-- Candidate of the regex class of a slash or a dash separator. -/
def candsSep : List Char → List (List Char)
  | c :: rest => if c = '/' ∨ c = '-' then [rest] else []
  | [] => []

/-- Maximal run of regex word characters at the head of the input. -/
def wordRun : List Char → List Char × List Char
  | [] => ([], [])
  | c :: rest =>
    if c.isAlphanum ∨ c = '_' then
      let p := wordRun rest
      (c :: p.1, p.2)
    else ([], c :: rest)

/-- Candidates of the regex fragment (\w+): nonempty, greedy, longest
first (ASCII word characters; no input here uses other word characters). -/
def candsW (l : List Char) : List (List Char × List Char) :=
  let p := wordRun l
  (List.range p.1.length).map (fun i =>
    (p.1.take (p.1.length - i), p.1.drop (p.1.length - i) ++ p.2))

/-- Candidates of the regex fragment ,? : greedy, comma consumed first. -/
def candsComma : List Char → List (List Char)
  | ',' :: rest => [rest, ',' :: rest]
  | l => [l]

/-- Anchored attempt of the first recovery pattern of fix_date (src line
51): four year digits, a separator, one or two digits, a separator, one or
two digits, each group captured, with regex backtracking. -/
def tryPat1At (l : List Char) : Option (List Char × List Char × List Char) :=
  firstSome ((cands4d l).map (fun p1 =>
    firstSome ((candsSep p1.2).map (fun r2 =>
      firstSome ((cands12 r2).map (fun p2 =>
        firstSome ((candsSep p2.2).map (fun r4 =>
          firstSome ((cands12 r4).map (fun p3 =>
            some (p1.1, p2.1, p3.1)))))))))))

/-- Anchored attempt of the second recovery pattern of fix_date (src line
52): one or two digits, a separator, one or two digits, a separator, four
year digits, each group captured, with regex backtracking. -/
def tryPat2At (l : List Char) : Option (List Char × List Char × List Char) :=
  firstSome ((cands12 l).map (fun p1 =>
    firstSome ((candsSep p1.2).map (fun r2 =>
      firstSome ((cands12 r2).map (fun p2 =>
        firstSome ((candsSep p2.2).map (fun r4 =>
          firstSome ((cands4d r4).map (fun p3 =>
            some (p1.1, p2.1, p3.1)))))))))))

/-- Anchored attempt of the third recovery pattern of fix_date (src line
53): a word, whitespace, one or two digits, an optional comma, whitespace,
four year digits, with regex backtracking. -/
def tryPat3At (l : List Char) : Option (List Char × List Char × List Char) :=
  firstSome ((candsW l).map (fun p1 =>
    firstSome ((candsWs p1.2).map (fun r2 =>
      firstSome ((cands12 r2).map (fun p2 =>
        firstSome ((candsComma p2.2).map (fun r4 =>
          firstSome ((candsWs r4).map (fun r5 =>
            firstSome ((cands4d r5).map (fun p3 =>
              some (p1.1, p2.1, p3.1)))))))))))))

/-- re.search: try an anchored attempt at every position, leftmost first. -/
def searchAt {α : Type} (tryAt : List Char → Option α) : List Char → Option α
  | [] => none
  | c :: rest =>
    match tryAt (c :: rest) with
    | some g => some g
    | none => searchAt tryAt rest

/-- re.search of the first recovery pattern of fix_date. -/
def searchPat1 (l : List Char) : Option (List Char × List Char × List Char) :=
  searchAt tryPat1At l

/-- re.search of the second recovery pattern of fix_date. -/
def searchPat2 (l : List Char) : Option (List Char × List Char × List Char) :=
  searchAt tryPat2At l

/-- re.search of the third recovery pattern of fix_date. -/
def searchPat3 (l : List Char) : Option (List Char × List Char × List Char) :=
  searchAt tryPat3At l

/-- The loop body of fix_date (src lines 59-67) applied to the captured
groups of a matched pattern: when the first group has four characters the
three groups are read as year, month, day; otherwise only the third group is
read, as a year, with January first substituted; the result becomes aware in
UTC; int() or datetime() ValueError is modeled as none (the loop then moves
to the next pattern). -/
def constructFromMatch (g : List Char × List Char × List Char) : Option PyDateTime :=
  if g.1.length = 4 then
    match pyInt? g.1, pyInt? g.2.1, pyInt? g.2.2 with
    | some y, some m, some d => mkPyDateTime y m d 0 0 0 (some 0)
    | _, _, _ => none
  else
    match pyInt? g.2.2 with
    | some y => mkPyDateTime y 1 1 0 0 0 (some 0)
    | none => none

/-- The regex recovery loop of fix_date (src lines 50-67): the three
patterns searched in order; a matched pattern whose construction fails falls
through to the next pattern. -/
def recoverRegex (s : List Char) : Option PyDateTime :=
  firstSome ([searchPat1, searchPat2, searchPat3].map (fun p =>
    (p s).bind constructFromMatch))

/-- fix_date from src/degoogle_mbox.py (lines 43-69): parse_date first; when
it returns None the regex recovery runs on the raw date string.  When the
date string is None itself, re.search(pattern, None) raises an uncaught
TypeError; parse_date merely returned None for that input, so the loop is
reached and the call raises. -/
def fix_date (ds : Option (List Char)) : Except PyErr (Option PyDateTime) :=
  match parse_date ds with
  | some dt => .ok (some dt)
  | none =>
    match ds with
    | none => .error .typeError
    | some s => .ok (recoverRegex s)

/-- Days from civil epoch 1970-01-01 (negative before it), the standard
civil-from-days algorithm datetime agrees with; fields are a valid date. -/
def daysFromCivil (y m d : Nat) : Int :=
  let y2 := if m ≤ 2 then y - 1 else y
  let era := y2 / 400
  let yoe := y2 % 400
  let mp := if 2 < m then m - 3 else m + 9
  let doy := (153 * mp + 2) / 5 + d - 1
  let doe := yoe * 365 + yoe / 4 - yoe / 100 + doy
  (era * 146097 + doe : Int) - 719468

/-- Weekday index of a date, zero for Monday, as datetime.weekday orders
them (1970-01-01 is a Thursday, index three). -/
def weekdayIdx (y m d : Nat) : Nat := ((daysFromCivil y m d + 3).emod 7).toNat

/-- Civil date from days since 1970-01-01, inverse of daysFromCivil. -/
def civilFromDays (z0 : Int) : Nat × Nat × Nat :=
  let z := z0 + 719468
  let era := (if 0 ≤ z then z else z - 146096) / 146097
  let doe := (z - era * 146097).toNat
  let yoe := (doe - doe / 1460 + doe / 36524 - doe / 146096) / 365
  let doy := doe - (365 * yoe + yoe / 4 - yoe / 100)
  let mp := (5 * doy + 2) / 153
  let d := doy - (153 * mp + 2) / 5 + 1
  let m := if mp < 10 then mp + 3 else mp - 9
  let y := (era * 400 + yoe + (if 10 ≤ mp then 1 else 0)).toNat
  (y, m, d)

/-- datetime.timestamp truncated to an integer second count, as the script
computes int(fixed_date.timestamp()) on line 132.  An aware datetime
subtracts its offset; a naive datetime is interpreted in the local timezone
of the process, which this model fixes to UTC (no claim depends on the local
timezone of the reference environment). -/
def pyTimestamp (dt : PyDateTime) : Int :=
  daysFromCivil dt.year dt.month dt.day * 86400 +
    dt.hour * 3600 + dt.minute * 60 + dt.second - dt.tzOffset.getD 0

/-- Capitalized weekday abbreviations, as strftime %a and formatdate use. -/
def dayAbbrsCap : List (List Char) :=
  [("Mon".toList), ("Tue".toList), ("Wed".toList), ("Thu".toList),
   ("Fri".toList), ("Sat".toList), ("Sun".toList)]

/-- Capitalized month abbreviations, as strftime %b and formatdate use. -/
def monthAbbrsCap : List (List Char) :=
  [("Jan".toList), ("Feb".toList), ("Mar".toList), ("Apr".toList),
   ("May".toList), ("Jun".toList), ("Jul".toList), ("Aug".toList),
   ("Sep".toList), ("Oct".toList), ("Nov".toList), ("Dec".toList)]

/-- datetime.strftime with format "%a %b %d %H:%M:%S %Y", the envelope date
rendering of the first pass (src line 105). -/
def strftimeCtime (dt : PyDateTime) : List Char :=
  dayAbbrsCap.getD (weekdayIdx dt.year dt.month dt.day) [] ++ [' '] ++
  monthAbbrsCap.getD (dt.month - 1) [] ++ [' '] ++ pad2 dt.day ++ [' '] ++
  pad2 dt.hour ++ [':'] ++ pad2 dt.minute ++ [':'] ++ pad2 dt.second ++
  [' '] ++ pad4 dt.year

/-- email.utils.formatdate(ts, usegmt=True): the RFC 2822 GMT date string
the second pass writes into the Date header (src line 133). -/
def formatdateGmt (ts : Int) : List Char :=
  let days := ts.ediv 86400
  let sod := (ts.emod 86400).toNat
  let ymd := civilFromDays days
  let wd := ((days + 3).emod 7).toNat
  dayAbbrsCap.getD wd [] ++ (", ".toList) ++ pad2 ymd.2.2 ++ [' '] ++
  monthAbbrsCap.getD (ymd.2.1 - 1) [] ++ [' '] ++ pad4 ymd.1 ++ [' '] ++
  pad2 (sod / 3600) ++ [':'] ++ pad2 (sod / 60 % 60) ++ [':'] ++
  pad2 (sod % 60) ++ (" GMT".toList)

/-- A parsed mail message as email.message.Message exposes it: the ordered
header list with duplicates kept positionally, and the body.  Header names
compare case-insensitively on access but are stored verbatim. -/
structure PyMessage where
  headers : List (List Char × List Char)
  body : List Char
  deriving DecidableEq, Repr

/-- Case-insensitive header name comparison, as Message access methods
lowercase both sides. -/
def hdrEq (a b : List Char) : Bool := lowerStr a = lowerStr b

/-- Message.get: the value of the first header whose name matches, else
None. -/
def msgGet (m : PyMessage) (name : List Char) : Option (List Char) :=
  (m.headers.find? (fun kv => hdrEq kv.1 name)).map Prod.snd

/-- The in operator on a Message: case-insensitive name membership. -/
def msgContains (m : PyMessage) (name : List Char) : Bool :=
  (msgGet m name).isSome

/-- Message.replace_header: rewrite the value of the first matching header,
keeping its stored name. -/
def replaceHeaderFirst (name v : List Char) :
    List (List Char × List Char) → List (List Char × List Char)
  | [] => []
  | (k, w) :: rest =>
    if hdrEq k name then (k, v) :: rest
    else (k, w) :: replaceHeaderFirst name v rest

/-- Message.__delitem__: remove every header whose name matches
case-insensitively; silent when none does. -/
def delHeader (name : List Char) (hs : List (List Char × List Char)) :
    List (List Char × List Char) :=
  hs.filter (fun kv => !(hdrEq kv.1 name))

/-- Helper of messageFromString: consume header lines, attaching folded
continuation lines to the previous header, until a blank line or a
non-header line starts the body. -/
def parseHeadersAux : List (List Char × List Char) → List (List Char) →
    List (List Char × List Char) × List (List Char)
  | acc, [] => (acc.reverse, [])
  | acc, line :: rest =>
    if line = [] then (acc.reverse, rest)
    else if line.head? = some ' ' ∨ line.head? = some '\t' then
      match acc with
      | (n, v) :: accRest => parseHeadersAux ((n, v ++ '\n' :: line) :: accRest) rest
      | [] => (acc.reverse, line :: rest)
    else
      match findChar ':' line with
      | some i =>
        parseHeadersAux
          ((line.take i, (line.drop (i + 1)).dropWhile (fun c => c = ' ' ∨ c = '\t')) :: acc)
          rest
      | none => (acc.reverse, line :: rest)

/-- Rejoin split lines with newlines, losslessly inverting splitOnChar. -/
def joinLines (ls : List (List Char)) : List Char := (ls.intersperse ['\n']).flatten

/-- email.message_from_string for the simple unfolded messages this archive
format carries: headers until the first blank or non-header line, the rest
is the body; a header value is what follows the first colon, with leading
spaces and tabs stripped (compat32 header_source_parse). -/
def messageFromString (content : List Char) : PyMessage :=
  let p := parseHeadersAux [] (splitOnChar '\n' content)
  ⟨p.1, joinLines p.2⟩

/-- email.utils.parseaddr restricted to the address shapes this archive
carries: the addr-spec inside the last angle-bracket pair when one is
present, otherwise the whole stripped string (the full RFC 822 tokenizer is
not modeled; no claim depends on its corner cases). -/
def parseaddrAddr (s : List Char) : List Char :=
  match rfindChar '<' s with
  | some i =>
    let after := s.drop (i + 1)
    match findChar '>' after with
    | some j => after.take j
    | none => []
  | none => pystrip s

/-- Maximal run of ASCII digits at the head of the input. -/
def digitRun : List Char → List Char × List Char
  | [] => ([], [])
  | c :: rest =>
    if c.isDigit then
      let p := digitRun rest
      (c :: p.1, p.2)
    else ([], c :: rest)

/-- The optional minus sign of the separator regex: consumed when
present. -/
def stripMinus (l : List Char) : List Char :=
  match l with
  | c :: t => if c = '-' then t else c :: t
  | [] => []

/-- Match of the envelope separator: the word From, a space, an optional
minus sign, one or more digits, then a newline; returns the rest after the
newline. -/
def matchFromDigits (l : List Char) : Option (List Char) :=
  if (("From ").toList).isPrefixOf l then
    if (digitRun (stripMinus (l.drop 5))).1 ≠ [] then
      match (digitRun (stripMinus (l.drop 5))).2 with
      | '\n' :: rest => some rest
      | _ => none
    else none
  else none

/-- Variant used by the findall counter (src line 79): the separator may
also end at the end of the input instead of a newline. -/
def matchFromDigitsEnd (l : List Char) : Option (List Char) :=
  if (("From ").toList).isPrefixOf l then
    if (digitRun (stripMinus (l.drop 5))).1 ≠ [] then
      match (digitRun (stripMinus (l.drop 5))).2 with
      | '\n' :: rest => some rest
      | [] => some []
      | _ => none
    else none
  else none

/-- Helper of splitFrom: scan for the next separator match, leftmost first;
the caret alternative applies only at the start of the whole string;
otherwise the separator must begin with a newline.  The fuel is the length
of the remaining input, enough because every step consumes a character. -/
def splitFromAux : Nat → Bool → List Char → List Char → List (List Char)
  | _, _, cur, [] => [cur.reverse]
  | 0, _, cur, l => [cur.reverse ++ l]
  | fuel + 1, atStart, cur, c :: rest =>
    match (if atStart then matchFromDigits (c :: rest) else none) with
    | some r => cur.reverse :: splitFromAux fuel false [] r
    | none =>
      if c = '\n' then
        match matchFromDigits rest with
        | some r => cur.reverse :: splitFromAux fuel false [] r
        | none => splitFromAux fuel false (c :: cur) rest
      else splitFromAux fuel false (c :: cur) rest

/-- re.split on the separator regex of src line 87: the pieces of the
archive between envelope separator lines. -/
def splitFrom (content : List Char) : List (List Char) :=
  splitFromAux content.length true [] content

/-- Helper of countMarkers, scanning like splitFromAux with the
end-accepting matcher of the findall regex (src line 79). -/
def countMarkersAux : Nat → Bool → List Char → Nat
  | _, _, [] => 0
  | 0, _, _ => 0
  | fuel + 1, atStart, c :: rest =>
    match (if atStart then matchFromDigitsEnd (c :: rest) else none) with
    | some r => 1 + countMarkersAux fuel false r
    | none =>
      if c = '\n' then
        match matchFromDigitsEnd rest with
        | some r => 1 + countMarkersAux fuel false r
        | none => countMarkersAux fuel false rest
      else countMarkersAux fuel false rest

/-- len(re.findall(...)) of src line 79: the count of envelope separator
lines in the raw archive. -/
def countMarkers (content : List Char) : Nat :=
  countMarkersAux content.length true content

/-- The threading header names the second pass snapshots and restores
(src lines 136-140), in the insertion order of the dict. -/
def threadingNames : List (List Char) :=
  [("References".toList), ("In-Reply-To".toList), ("Message-ID".toList)]

/-- Counters one message contributes in the second pass. -/
structure NormCounts where
  dateFixed : Bool
  removed : Nat
  preserved : Nat
  deriving DecidableEq, Repr

/-- The per-message body of the second-pass loop of fix_dates_in_mbox
(src lines 123-152): re-fix the Date header in place, snapshot the three
threading headers, delete every header whose stored name starts with the
case-sensitive X-Google- prefix (counting one per matching stored name),
then append each snapshotted threading header whose value is nonempty
(counting one per append). -/
def normalizeMessage (msg : PyMessage) : PyMessage × NormCounts :=
  let dateStep : PyMessage × Bool :=
    if msgContains msg ("Date".toList) then
      let originalDate := (msgGet msg ("Date".toList)).getD []
      match fix_date (some originalDate) with
      | .ok (some fixedDt) =>
        ({ msg with
            headers := replaceHeaderFirst ("Date".toList)
              (formatdateGmt (pyTimestamp fixedDt)) msg.headers },
         true)
      | _ => (msg, false)
    else (msg, false)
  let msg1 := dateStep.1
  let snap : List (List Char × List Char) :=
    threadingNames.map (fun n => (n, (msgGet msg1 n).getD []))
  let googleHeaders :=
    (msg1.headers.map Prod.fst).filter (fun k => ("X-Google-".toList).isPrefixOf k)
  let purgedHeaders := googleHeaders.foldl (fun hs name => delHeader name hs) msg1.headers
  let restored :=
    snap.foldl
      (fun (acc : List (List Char × List Char) × Nat) p =>
        if p.2 ≠ [] then (acc.1 ++ [p], acc.2 + 1) else acc)
      (purgedHeaders, 0)
  (⟨restored.1, msg1.body⟩,
   ⟨dateStep.2, googleHeaders.length, restored.2⟩)

/-- A line beginning a new message in an mbox file. -/
def isFromLine (l : List Char) : Bool := ("From ".toList).isPrefixOf l

/-- Helper of mboxParse: group payload lines of each message, dropping each
From_ line; lines before the first From_ line do not occur in the temp
files the script writes and are ignored. -/
def groupMboxAux : Option (List (List Char)) → List (List Char) → List (List (List Char))
  | cur, [] =>
    (match cur with
     | some g =>
       -- at the end of the file the toc generator excludes one line
       -- separator when the final line is blank (last_was_empty)
       (match g with
        | [] :: [] :: grest => [([] :: grest).reverse]
        | _ => [g.reverse])
     | none => [])
  | cur, line :: rest =>
    if isFromLine line then
      match cur with
      | some g => g.reverse :: groupMboxAux (some []) rest
      | none => groupMboxAux (some []) rest
    else
      match cur with
      | some g => groupMboxAux (some (line :: g)) rest
      | none => groupMboxAux none rest

/-- mailbox.mbox reading model: a new message begins at every line starting
with From and a space; each payload is parsed like message_from_string. -/
def mboxParse (content : List Char) : List PyMessage :=
  (groupMboxAux none (splitOnChar '\n' content)).map
    (fun ls => messageFromString (joinLines ls))

/-- One block of the first pass of fix_dates_in_mbox (src lines 89-113):
parse the block, take the sender address from the From header with the
MAILER-DAEMON fallbacks, run fix_date on the Date header value inside a try
that catches only AttributeError and ValueError (an uncaught TypeError
aborts the run), fall back to the fixed epoch string, and emit the
synthesized envelope line followed by the stripped block and a blank
line. -/
def firstPassBlock (blockContent : List Char) : Except PyErr (List Char) :=
  let msg := messageFromString blockContent
  let fromHeader := (msgGet msg ("From".toList)).getD ("MAILER-DAEMON".toList)
  let dateStr : Option (List Char) := msgGet msg ("Date".toList)
  let fromAddr0 := parseaddrAddr fromHeader
  let fromAddr := if fromAddr0 = [] then ("MAILER-DAEMON".toList) else fromAddr0
  let dateOut : Except PyErr (List Char) :=
    match fix_date dateStr with
    | .error .typeError => .error .typeError
    | .error .valueError => .ok ("Thu Jan 1 00:00:00 1970".toList)
    | .ok (some dt) => .ok (strftimeCtime dt)
    | .ok none => .ok ("Thu Jan 1 00:00:00 1970".toList)
  match dateOut with
  | .error e => .error e
  | .ok ds =>
    .ok (("From ".toList) ++ fromAddr ++ [' '] ++ ds ++ ['\n'] ++
         pystrip blockContent ++ ("\n\n".toList))

/-- Decidable equality for Except values, used to evaluate run outcomes on
concrete inputs. -/
instance instDecEqExcept {e a : Type} [DecidableEq e] [DecidableEq a] :
    DecidableEq (Except e a) := fun x y =>
  match x, y with
  | .ok u, .ok v =>
    if h : u = v then .isTrue (congrArg Except.ok h)
    else .isFalse (fun hh => h (Except.ok.inj hh))
  | .error u, .error v =>
    if h : u = v then .isTrue (congrArg Except.error h)
    else .isFalse (fun hh => h (Except.error.inj hh))
  | .ok _, .error _ => .isFalse (fun hh => Except.noConfusion hh)
  | .error _, .ok _ => .isFalse (fun hh => Except.noConfusion hh)

/-- Everything observable about one run of fix_dates_in_mbox: the outcome
(the written messages, or the uncaught exception), the summary counters,
and the lifecycle of the temporary file of the two-pass transformation. -/
structure RunResult where
  outcome : Except PyErr (List PyMessage)
  total : Nat
  fixedDates : Nat
  removedGoogle : Nat
  preservedThreading : Nat
  fixedFromLines : Nat
  tempCreated : Bool
  tempDeleted : Bool
  deriving DecidableEq, Repr

/-- fix_dates_in_mbox from src/degoogle_mbox.py (lines 71-176) on the text
of the input file: count the separator lines, create the temporary file,
split the archive and write a synthesized chunk per nonblank block (first
pass), then parse the temp file as an mbox and normalize every message
(second pass), write the output, and only then delete the temporary file.
An exception anywhere is logged and re-raised by the outer handler without
deleting the temporary file.  firstPassAll is the first-pass loop writing
one synthesized chunk per block into the temporary file, stopping at the
first uncaught exception. -/
def firstPassAll (blocks : List (List Char)) : Except PyErr (List Char) :=
  blocks.foldl
    (fun acc b =>
      match acc with
      | .error e => .error e
      | .ok written =>
        match firstPassBlock b with
        | .error e => .error e
        | .ok chunk => .ok (written ++ chunk))
    (.ok [])

def fix_dates_in_mbox (content : List Char) : RunResult :=
  let fixedFromLines := countMarkers content
  let blocks := (splitFrom content).filter (fun b => pystrip b ≠ [])
  match firstPassAll blocks with
  | .error e =>
    { outcome := .error e, total := 0, fixedDates := 0, removedGoogle := 0,
      preservedThreading := 0, fixedFromLines := fixedFromLines,
      tempCreated := true, tempDeleted := false }
  | .ok temp =>
    let msgs := mboxParse temp
    let folded :=
      msgs.foldl
        (fun (st : List PyMessage × Nat × Nat × Nat × Nat) m =>
          let p := normalizeMessage m
          (st.1 ++ [p.1], st.2.1 + 1,
           st.2.2.1 + (if p.2.dateFixed then 1 else 0),
           st.2.2.2.1 + p.2.removed, st.2.2.2.2 + p.2.preserved))
        ([], 0, 0, 0, 0)
    { outcome := .ok folded.1, total := folded.2.1, fixedDates := folded.2.2.1,
      removedGoogle := folded.2.2.2.1, preservedThreading := folded.2.2.2.2,
      fixedFromLines := fixedFromLines, tempCreated := true, tempDeleted := true }

/-- One strategy of the date interpretation cascade, as a function of the
raw date string. -/
abbrev DateStrategy := List Char → Option PyDateTime

/-- The standards-based parser as a cascade strategy: success when
email.utils.parsedate_to_datetime returns, failure when it raises one of
the exception classes the script catches. -/
def emailStrategy (s : List Char) : Option PyDateTime :=
  match parsedateToDatetime s with
  | .ok dt => some dt
  | .error _ => none

/-- The ordered strategy list of the date interpreter, written from the
specification: the standards-based mail date parser first, then the six
explicit format templates in their listed sequence. -/
def strategyList : List DateStrategy :=
  emailStrategy :: formatsList.map (fun f s => strptimeUTC s f)

/-- First success of an ordered strategy list on one input; every strategy
receives the same input, so the failure of one cannot affect another. -/
def firstSuccess (fs : List DateStrategy) (s : List Char) : Option PyDateTime :=
  firstSome (fs.map (fun f => f s))

/-- The time-of-day rendering HH:MM:SS that strftime %H:%M:%S produces:
zero-padded two-digit fields separated by colons. -/
def renderTime (h mi s : Nat) : List Char :=
  pad2 h ++ [':'] ++ pad2 mi ++ [':'] ++ pad2 s

/-- The numeric zone rendering of strftime %z: a sign then zero-padded hours
and minutes (±HHMM); true renders the plus sign. -/
def renderTz (sgn : Bool) (oh om : Nat) : List Char :=
  [if sgn then '+' else '-'] ++ pad2 oh ++ pad2 om

/-- The offset in seconds that the rendering renderTz denotes. -/
def tzSec (sgn : Bool) (oh om : Nat) : Int :=
  (if sgn then (1 : Int) else -1) * (oh * 3600 + om * 60)

/-- A well-formed date string of the first template, "%Y/%m/%d". -/
def render1 (y m d : Nat) : List Char :=
  pad4 y ++ ['/'] ++ pad2 m ++ ['/'] ++ pad2 d

/-- A well-formed date string of the second template,
"%a, %d %b %Y %H:%M:%S %z". -/
def render2 (w : Fin 7) (d : Nat) (i : Fin 12) (y h mi s : Nat)
    (sgn : Bool) (oh om : Nat) : List Char :=
  dayAbbrsCap.getD w.val [] ++ [','] ++ [' '] ++ pad2 d ++ [' '] ++
  monthAbbrsCap.getD i.val [] ++ [' '] ++ pad4 y ++ [' '] ++
  renderTime h mi s ++ [' '] ++ renderTz sgn oh om

/-- A well-formed date string of the third template,
"%d %b %Y %H:%M:%S %z". -/
def render3 (d : Nat) (i : Fin 12) (y h mi s : Nat)
    (sgn : Bool) (oh om : Nat) : List Char :=
  pad2 d ++ [' '] ++ monthAbbrsCap.getD i.val [] ++ [' '] ++ pad4 y ++
  [' '] ++ renderTime h mi s ++ [' '] ++ renderTz sgn oh om

/-- A well-formed date string of the fourth template,
"%a %b %d %H:%M:%S %Y" (ctime style). -/
def render4 (w : Fin 7) (i : Fin 12) (d h mi s y : Nat) : List Char :=
  dayAbbrsCap.getD w.val [] ++ [' '] ++ monthAbbrsCap.getD i.val [] ++
  [' '] ++ pad2 d ++ [' '] ++ renderTime h mi s ++ [' '] ++ pad4 y

/-- A well-formed date string of the fifth template, "%Y-%m-%d %H:%M:%S". -/
def render5 (y m d h mi s : Nat) : List Char :=
  pad4 y ++ ['-'] ++ pad2 m ++ ['-'] ++ pad2 d ++ [' '] ++ renderTime h mi s

/-- A well-formed date string of the sixth template, "%Y-%m-%d". -/
def render6 (y m d : Nat) : List Char :=
  pad4 y ++ ['-'] ++ pad2 m ++ ['-'] ++ pad2 d

/-- Well-formed calendar-date fields for the templates: a four-digit year
without a leading zero and a valid calendar day of the month. -/
def WFdate (y m d : Nat) : Prop :=
  1000 ≤ y ∧ y ≤ 9999 ∧ 1 ≤ m ∧ m ≤ 12 ∧ 1 ≤ d ∧ d ≤ daysInMonth y m

/-- Well-formed time-of-day fields for the templates. -/
def WFtime (h mi s : Nat) : Prop := h ≤ 23 ∧ mi ≤ 59 ∧ s ≤ 59

/-- Well-formed numeric-offset fields for the templates: hours and minutes
in range, excluding the unknown-zone form -0000 that RFC 5322 reserves for a
date carrying no usable zone information. -/
def WFoff (sgn : Bool) (oh om : Nat) : Prop :=
  oh ≤ 23 ∧ om ≤ 59 ∧ (sgn = false → ¬(oh = 0 ∧ om = 0))

/-- Tokens joined by single spaces, the shape shared by the rendered
template strings. -/
def joinSp : List (List Char) → List Char
  | [] => []
  | [t] => t
  | t :: ts => t ++ [' '] ++ joinSp ts

/-- C6: the date interpreter applies its strategies in the fixed order
given by strategyList (the standards-based mail date parser, then the six
explicit templates in the listed sequence) and returns the result of the
first strategy that succeeds; the strategies are pure functions of the same
input string, so the failure of one attempt does not affect later
attempts. -/
theorem c6_strategy_order (s : List Char) :
    parse_date (some s) = firstSuccess strategyList s := by
  by_cases hs : s = []
  · subst hs
    decide
  · unfold parse_date firstSuccess strategyList
    simp only [if_neg hs, List.map_cons, List.map_map]
    cases hpd : parsedateToDatetime s with
    | ok dt => simp [firstSome, emailStrategy, hpd]
    | error e =>
      simp only [firstSome, emailStrategy, hpd]
      rfl

/-- C1: a raw message block with a From header but no Date header is fatal
to the whole run.  The sender address a@b.com is extracted as the claim
says, but fix_date(None) reaches re.search(pattern, None) and raises a
TypeError that the surrounding except clause (AttributeError, ValueError)
does not catch, so the end-to-end operation aborts instead of falling back
to the epoch date string. -/
theorem c1_missing_date_aborts_run :
    parseaddrAddr ((msgGet (messageFromString
        (("From: \"A B\" <a@b.com>\n\nhello\n").toList)) (("From").toList)).getD [])
      = ("a@b.com").toList ∧
    fix_date none = .error .typeError ∧
    (fix_dates_in_mbox (("From 12345\nFrom: \"A B\" <a@b.com>\n\nhello\n").toList)).outcome
      = .error .typeError ∧
    (fix_dates_in_mbox (("From 12345\nFrom: \"A B\" <a@b.com>\n\nhello\n").toList)).tempDeleted
      = false := by
  refine ⟨by decide, by decide, by decide, by decide⟩

/-- C2: the date string June 15, 2020 is matched by the textual recovery
pattern and by no earlier strategy, yet the recovery returns absent rather
than 2020-01-01T00:00:00 UTC: the four-character month word June is routed
into the numeric year branch by the len(groups[0]) == 4 test, int(June)
raises ValueError, and the pattern loop is exhausted. -/
theorem c2_textual_pattern_june_absent :
    parse_date (some (("June 15, 2020").toList)) = none ∧
    searchPat1 (("June 15, 2020").toList) = none ∧
    searchPat2 (("June 15, 2020").toList) = none ∧
    searchPat3 (("June 15, 2020").toList)
      = some ((("June").toList), (("15").toList), (("2020").toList)) ∧
    fix_date (some (("June 15, 2020").toList)) = .ok none := by
  refine ⟨by decide, by decide, by decide, by decide, by decide⟩

/-- C8 counterexample: on 2020/13/05 May 1, 2021 the first recovery pattern
matches and its numeric construction fails (month 13), yet fix_date does
not return absent: the loop falls through and the textual pattern yields
2021-01-01, contradicting the claim read as stated. -/
theorem c8_counterexample_fallthrough :
    searchPat1 (("2020/13/05 May 1, 2021").toList)
      = some ((("2020").toList), (("13").toList), (("05").toList)) ∧
    constructFromMatch ((("2020").toList), (("13").toList), (("05").toList)) = none ∧
    fix_date (some (("2020/13/05 May 1, 2021").toList))
      = .ok (some ⟨2021, 1, 1, 0, 0, 0, some 0⟩) := by
  refine ⟨by decide, by decide, by decide⟩

/-- C8 amended: the recovery returns absent exactly when the primary parse
failed and every recovery pattern either fails to match or fails numeric
construction of its captured groups; a construction failure alone is not
enough, because the loop falls through to the remaining patterns. -/
theorem c8_absent_iff_all_patterns_fail (s : List Char) :
    fix_date (some s) = .ok none ↔
      (parse_date (some s) = none ∧
       (searchPat1 s).bind constructFromMatch = none ∧
       (searchPat2 s).bind constructFromMatch = none ∧
       (searchPat3 s).bind constructFromMatch = none) := by
  unfold fix_date recoverRegex
  cases hpd : parse_date (some s) with
  | some dt => simp
  | none =>
    simp only [List.map_cons, List.map_nil, firstSome]
    cases h1 : (searchPat1 s).bind constructFromMatch with
    | some d1 => simp [firstSome, h1]
    | none =>
      cases h2 : (searchPat2 s).bind constructFromMatch with
      | some d2 => simp [firstSome, h2]
      | none =>
        cases h3 : (searchPat3 s).bind constructFromMatch with
        | some d3 => simp [firstSome, h3]
        | none => simp [firstSome, h1, h2, h3]

/-- C9 amended: the temporary file of the two-pass transformation is always
created, and it is deleted exactly when the run succeeds; on the error
paths the outer handler logs and re-raises without reaching os.unlink, so
the temporary file survives. -/
theorem c9_temp_deleted_iff_success (content : List Char) :
    (fix_dates_in_mbox content).tempCreated = true ∧
    (fix_dates_in_mbox content).tempDeleted
      = (match (fix_dates_in_mbox content).outcome with
         | .ok _ => true
         | .error _ => false) := by
  unfold fix_dates_in_mbox
  dsimp only
  generalize firstPassAll ((splitFrom content).filter (fun b => pystrip b ≠ [])) = r
  cases r with
  | ok temp => exact ⟨rfl, rfl⟩
  | error e => exact ⟨rfl, rfl⟩

/-- C9 counterexample: a concrete archive whose only message lacks a Date
header makes the first pass raise after the temporary file exists; the run
errors out and the temporary file is not deleted before the exception
propagates. -/
theorem c9_error_leaks_temp_file :
    (fix_dates_in_mbox (("From 99\nFrom: leak@test.io\n\nbody\n").toList)).tempCreated = true ∧
    (fix_dates_in_mbox (("From 99\nFrom: leak@test.io\n\nbody\n").toList)).outcome
      = .error .typeError ∧
    (fix_dates_in_mbox (("From 99\nFrom: leak@test.io\n\nbody\n").toList)).tempDeleted
      = false := by
  refine ⟨by decide, by decide, by decide⟩

/-- The digit run of an all-digit string followed by a non-digit splits at
the boundary. -/
theorem digitRun_append (ds : List Char) (c : Char) (rest : List Char)
    (hds : ds.all Char.isDigit = true) (hc : c.isDigit = false) :
    digitRun (ds ++ c :: rest) = (ds, c :: rest) := by
  induction ds with
  | nil => simp [digitRun, hc]
  | cons d ds ih =>
    simp only [List.all_cons, Bool.and_eq_true] at hds
    simp [digitRun, hds.1, ih hds.2]

/-- A string is a prefix of itself followed by anything. -/
theorem isPrefixOf_self_append (p x : List Char) : p.isPrefixOf (p ++ x) = true := by
  induction p with
  | nil => simp [List.isPrefixOf]
  | cons a p ih => simp [List.isPrefixOf, ih]

/-- The separator matcher accepts a From line made of any nonempty digit
string, consuming through its newline. -/
theorem matchFromDigits_marker (ds rest : List Char)
    (hne : ds ≠ []) (hds : ds.all Char.isDigit = true) :
    matchFromDigits (("From ").toList ++ ds ++ '\n' :: rest) = some rest := by
  obtain ⟨d, ds2, rfl⟩ : ∃ d ds2, ds = d :: ds2 := by
    cases ds with
    | nil => exact absurd rfl hne
    | cons a b => exact ⟨a, b, rfl⟩
  have hd : d.isDigit = true := by
    simp only [List.all_cons, Bool.and_eq_true] at hds
    exact hds.1
  have hdm : ¬ d = '-' := by
    intro h
    rw [h] at hd
    exact absurd hd (by decide)
  have hdrop : ((("From ").toList ++ (d :: ds2) ++ '\n' :: rest)).drop 5
      = (d :: ds2) ++ '\n' :: rest := by
    rw [show (5 : Nat) = (("From ").toList).length from rfl]
    exact List.drop_left _ _
  have hsm : stripMinus ((d :: ds2) ++ '\n' :: rest) = (d :: ds2) ++ '\n' :: rest := by
    simp [stripMinus, hdm]
  have hdr : digitRun ((d :: ds2) ++ '\n' :: rest) = (d :: ds2, '\n' :: rest) :=
    digitRun_append _ _ _ hds (by decide)
  unfold matchFromDigits
  simp only [isPrefixOf_self_append, if_true, hdrop, hsm, hdr]
  simp

/-- replaceHeaderFirst keeps every pair whose stored name does not match
the replaced name. -/
theorem mem_replaceHeaderFirst (name v k w : List Char)
    (hs : List (List Char × List Char))
    (hmem : (k, w) ∈ hs) (hne : hdrEq k name = false) :
    (k, w) ∈ replaceHeaderFirst name v hs := by
  induction hs with
  | nil => cases hmem
  | cons p rest ih =>
    obtain ⟨pk, pv⟩ := p
    rcases List.mem_cons.mp hmem with h | h
    · injection h with h1 h2
      subst h1
      subst h2
      simp only [replaceHeaderFirst, hne]
      simp
    · simp only [replaceHeaderFirst]
      by_cases hq : hdrEq pk name
      · simp only [hq, if_true]
        exact List.mem_cons_of_mem _ h
      · simp only [hq, if_false, Bool.false_eq_true]
        exact List.mem_cons_of_mem _ (ih h)

/-- replaceHeaderFirst keeps the stored names unchanged. -/
theorem map_fst_replaceHeaderFirst (name v : List Char)
    (hs : List (List Char × List Char)) :
    (replaceHeaderFirst name v hs).map Prod.fst = hs.map Prod.fst := by
  induction hs with
  | nil => rfl
  | cons p rest ih =>
    obtain ⟨pk, pv⟩ := p
    simp only [replaceHeaderFirst]
    by_cases hq : hdrEq pk name
    · simp [hq]
    · simp [hq, ih]

/-- Membership after the delete loop of the purge state: a pair survives
exactly when it was present and its name matches none of the deleted
names. -/
theorem mem_foldl_delHeader (gl : List (List Char))
    (hs : List (List Char × List Char)) (k w : List Char) :
    ((k, w) ∈ gl.foldl (fun acc n => delHeader n acc) hs ↔
      ((k, w) ∈ hs ∧ ∀ g ∈ gl, hdrEq k g = false)) := by
  induction gl generalizing hs with
  | nil => simp
  | cons g gl ih =>
    rw [List.foldl_cons, ih (delHeader g hs)]
    unfold delHeader
    rw [List.mem_filter]
    constructor
    · rintro ⟨⟨hmem, hg⟩, hall⟩
      refine ⟨hmem, ?_⟩
      intro x hx
      rcases List.mem_cons.mp hx with rfl | hx2
      · simpa using hg
      · exact hall x hx2
    · rintro ⟨hmem, hall⟩
      refine ⟨⟨hmem, ?_⟩, fun x hx => hall x (List.mem_cons_of_mem _ hx)⟩
      simpa using hall g (List.mem_cons_self _ _)

/-- The restore loop appends exactly the snapshotted pairs with nonempty
values, in order, and counts them. -/
theorem restore_foldl_spec (snap : List (List Char × List Char))
    (base : List (List Char × List Char)) (n0 : Nat) :
    (snap.foldl
        (fun (acc : List (List Char × List Char) × Nat) p =>
          if p.2 ≠ [] then (acc.1 ++ [p], acc.2 + 1) else acc)
        (base, n0))
      = (base ++ snap.filter (fun p => p.2 ≠ []), n0 + (snap.filter (fun p => p.2 ≠ [])).length) := by
  induction snap generalizing base n0 with
  | nil => simp
  | cons p snap ih =>
    rw [List.foldl_cons, List.filter_cons]
    dsimp only
    by_cases hp : p.2 = []
    · rw [if_neg (fun hq => hq hp), if_neg (by simp [hp]), ih base n0]
    · rw [if_pos hp, if_pos (by simp [hp]), ih (base ++ [p]) (n0 + 1), Prod.mk.injEq]
      refine ⟨by simp, by rw [List.length_cons]; omega⟩


/-- find? is the head of the filtered list. -/
theorem find?_eq_head?_filter {α : Type} (p : α → Bool) (l : List α) :
    l.find? p = (l.filter p).head? := by
  induction l with
  | nil => rfl
  | cons a l ih =>
    by_cases hp : p a = true
    · rw [List.find?_cons_of_pos _ hp, List.filter_cons_of_pos hp, List.head?_cons]
    · have hp2 : p a = false := by simpa using hp
      rw [List.find?_cons_of_neg _ (by simp [hp2]), List.filter_cons_of_neg (by simp [hp2]), ih]

/-- Lowercasing preserves string prefixes. -/
theorem isPrefixOf_lower (p g : List Char) (h : p.isPrefixOf g = true) :
    (lowerStr p).isPrefixOf (lowerStr g) = true := by
  induction p generalizing g with
  | nil => cases g <;> rfl
  | cons a p ih =>
    cases g with
    | nil => exact Bool.noConfusion h
    | cons b g =>
      have h2 : (a == b && p.isPrefixOf g) = true := h
      rw [Bool.and_eq_true, beq_iff_eq] at h2
      have goal2 : ((lowerChar a == lowerChar b) && (lowerStr p).isPrefixOf (lowerStr g)) = true := by
        rw [Bool.and_eq_true, beq_iff_eq]
        exact ⟨by rw [h2.1], ih g h2.2⟩
      exact goal2

/-- A name whose lowercase form is one of the three threading names never
matches a name carrying the metadata prefix. -/
theorem hdrEq_google_false (k g : List Char)
    (hg : (("X-Google-").toList).isPrefixOf g = true)
    (hk : lowerStr k = ("references").toList ∨ lowerStr k = ("in-reply-to").toList ∨
          lowerStr k = ("message-id").toList) :
    hdrEq k g = false := by
  unfold hdrEq
  rw [decide_eq_false_iff_not]
  intro heq
  have h2 := isPrefixOf_lower _ _ hg
  rw [← heq] at h2
  have h3 : lowerStr (("X-Google-").toList) = ("x-google-").toList := by decide
  rw [h3] at h2
  rcases hk with h | h | h <;> rw [h] at h2 <;> exact absurd h2 (by decide)

/-- Characterization of one normalization pass: for some date-step header
list hs1 (the original headers, or the original headers with the first Date
value rewritten), the result appends the nonempty snapshotted threading
pairs to hs1 purged of the metadata names, and the counters are the lengths
of the purged-name list and of the appended list. -/
theorem normalizeMessage_spec (msg : PyMessage) :
    ∃ hs1 : List (List Char × List Char),
      (hs1 = msg.headers ∨
        ∃ w, hs1 = replaceHeaderFirst (("Date").toList) w msg.headers) ∧
      (normalizeMessage msg).1.headers
        = ((hs1.map Prod.fst).filter
              (fun kk => (("X-Google-").toList).isPrefixOf kk)).foldl
            (fun acc n => delHeader n acc) hs1
          ++ (threadingNames.map
                (fun n => (n, (msgGet ⟨hs1, msg.body⟩ n).getD []))).filter
              (fun p => p.2 ≠ []) ∧
      (normalizeMessage msg).2.removed
        = ((hs1.map Prod.fst).filter
            (fun kk => (("X-Google-").toList).isPrefixOf kk)).length ∧
      (normalizeMessage msg).2.preserved
        = ((threadingNames.map
              (fun n => (n, (msgGet ⟨hs1, msg.body⟩ n).getD []))).filter
            (fun p => p.2 ≠ [])).length := by
  unfold normalizeMessage
  dsimp only
  by_cases hc : msgContains msg (("Date").toList)
  · rw [if_pos hc]
    cases hfd : fix_date (some ((msgGet msg (("Date").toList)).getD [])) with
    | error e =>
      refine ⟨msg.headers, Or.inl rfl, ?_⟩
      rw [restore_foldl_spec]
      exact ⟨rfl, rfl, by simp⟩
    | ok od =>
      cases od with
      | none =>
        refine ⟨msg.headers, Or.inl rfl, ?_⟩
        rw [restore_foldl_spec]
        exact ⟨rfl, rfl, by simp⟩
      | some dt =>
        refine ⟨replaceHeaderFirst (("Date").toList)
            (formatdateGmt (pyTimestamp dt)) msg.headers, Or.inr ⟨_, rfl⟩, ?_⟩
        rw [restore_foldl_spec]
        exact ⟨rfl, rfl, by simp⟩
  · rw [if_neg hc]
    refine ⟨msg.headers, Or.inl rfl, ?_⟩
    rw [restore_foldl_spec]
    exact ⟨rfl, rfl, by simp⟩

/-- C3: for each of References, In-Reply-To and Message-ID individually, a
header occurrence present with value v before normalization is still
present with the identical value v after normalization completes: the date
step rewrites only Date values, the purge deletes only names matching a
stored X-Google- name, and the restore step only appends. -/
theorem c3_threading_values_preserved (msg : PyMessage) (k v : List Char)
    (hmem : (k, v) ∈ msg.headers)
    (hname : lowerStr k = ("references").toList ∨
             lowerStr k = ("in-reply-to").toList ∨
             lowerStr k = ("message-id").toList) :
    (k, v) ∈ (normalizeMessage msg).1.headers := by
  obtain ⟨hs1, hstep, hhead, _, _⟩ := normalizeMessage_spec msg
  have hkdate : hdrEq k (("Date").toList) = false := by
    unfold hdrEq
    rw [decide_eq_false_iff_not]
    intro heq
    rcases hname with h | h | h <;> rw [h] at heq <;> exact absurd heq (by decide)
  have hmem1 : (k, v) ∈ hs1 := by
    rcases hstep with rfl | ⟨w, rfl⟩
    · exact hmem
    · exact mem_replaceHeaderFirst _ _ _ _ _ hmem hkdate
  rw [hhead]
  apply List.mem_append_left
  apply (mem_foldl_delHeader _ _ _ _).mpr
  refine ⟨hmem1, ?_⟩
  intro g hg
  have hpre : (("X-Google-").toList).isPrefixOf g = true :=
    (List.mem_filter.mp hg).2
  exact hdrEq_google_false k g hpre hname

/-- C4 amended: after normalization no header whose stored name begins with
the case-sensitive X-Google- prefix remains, and the removed-count counter
equals the number of original header occurrences whose stored name begins
with that exact prefix (a differently-capitalized duplicate of such a name
is deleted by the same pass without being counted separately). -/
theorem c4_google_purge_and_counter (msg : PyMessage) :
    (∀ p ∈ (normalizeMessage msg).1.headers,
        (("X-Google-").toList).isPrefixOf p.1 = false) ∧
    (normalizeMessage msg).2.removed
      = ((msg.headers.map Prod.fst).filter
          (fun kk => (("X-Google-").toList).isPrefixOf kk)).length := by
  obtain ⟨hs1, hstep, hhead, hrem, _⟩ := normalizeMessage_spec msg
  have hkeys : hs1.map Prod.fst = msg.headers.map Prod.fst := by
    rcases hstep with rfl | ⟨w, rfl⟩
    · rfl
    · exact map_fst_replaceHeaderFirst _ _ _
  constructor
  · intro p hp
    rw [hhead] at hp
    rcases List.mem_append.mp hp with hp1 | hp2
    · obtain ⟨pk, pv⟩ := p
      have h2 := (mem_foldl_delHeader _ _ _ _).mp hp1
      by_contra hcon
      have htrue : (("X-Google-").toList).isPrefixOf pk = true := by
        cases hx : (("X-Google-").toList).isPrefixOf pk
        · exact absurd hx hcon
        · rfl
      have hkmem : pk ∈ hs1.map Prod.fst := List.mem_map.mpr ⟨(pk, pv), h2.1, rfl⟩
      have hgl : pk ∈ (hs1.map Prod.fst).filter
          (fun kk => (("X-Google-").toList).isPrefixOf kk) :=
        List.mem_filter.mpr ⟨hkmem, htrue⟩
      have h3 := h2.2 pk hgl
      unfold hdrEq at h3
      rw [decide_eq_false_iff_not] at h3
      exact h3 rfl
    · have hmm : p ∈ threadingNames.map
          (fun n => (n, (msgGet ⟨hs1, msg.body⟩ n).getD [])) :=
        (List.mem_filter.mp hp2).1
      obtain ⟨n, hnn, rfl⟩ := List.mem_map.mp hmm
      simp only [threadingNames, List.mem_cons, List.mem_singleton,
        List.not_mem_nil, or_false] at hnn
      rcases hnn with rfl | rfl | rfl
      · show (("X-Google-").toList).isPrefixOf (("References").toList) = false
        decide
      · show (("X-Google-").toList).isPrefixOf (("In-Reply-To").toList) = false
        decide
      · show (("X-Google-").toList).isPrefixOf (("Message-ID").toList) = false
        decide
  · rw [hrem, hkeys]

/-- C4 counterexample: with headers X-Google-Foo and x-google-foo both
present, the purge deletes both (the delete is case-insensitive) but the
counter, driven by the case-sensitive prefix filter over stored names,
increments only once: two headers removed, counter one. -/
theorem c4_counter_counts_only_exact_case :
    (normalizeMessage ⟨[(("X-Google-Foo").toList, ("1").toList),
        (("x-google-foo").toList, ("2").toList)], []⟩).1.headers = [] ∧
    (normalizeMessage ⟨[(("X-Google-Foo").toList, ("1").toList),
        (("x-google-foo").toList, ("2").toList)], []⟩).2.removed = 1 := by
  refine ⟨by decide, by decide⟩

/-- Rewriting the first Date value does not change the sublist of headers
matching a name with a different lowercase form. -/
theorem filter_replaceHeaderFirst_ne (dn w name : List Char)
    (hs : List (List Char × List Char)) (hnd : lowerStr name ≠ lowerStr dn) :
    (replaceHeaderFirst dn w hs).filter (fun p => hdrEq p.1 name)
      = hs.filter (fun p => hdrEq p.1 name) := by
  induction hs with
  | nil => rfl
  | cons p rest ih =>
    obtain ⟨pk, pv⟩ := p
    simp only [replaceHeaderFirst]
    by_cases hq : hdrEq pk dn = true
    · rw [if_pos hq]
      have hne2 : hdrEq pk name = false := by
        unfold hdrEq at hq ⊢
        rw [decide_eq_true_eq] at hq
        rw [decide_eq_false_iff_not]
        intro h2
        exact hnd (h2.symm.trans hq)
      rw [List.filter_cons_of_neg (by simp [hne2]),
          List.filter_cons_of_neg (by simp [hne2])]
    · rw [if_neg hq]
      simp only [List.filter_cons, ih]

/-- A list with a single element and a known head is that singleton. -/
theorem length_one_head (l : List (List Char × List Char))
    (x : List Char × List Char)
    (hlen : l.length = 1) (hhead : l.head? = some x) : l = [x] := by
  cases l with
  | nil => cases hhead
  | cons a l2 =>
    cases l2 with
    | nil =>
      rw [List.head?_cons, Option.some.injEq] at hhead
      rw [hhead]
    | cons b l3 => simp at hlen

/-- C10: a message carrying a non-empty threading header exactly once and
no X-Google- header still gets an extra copy appended by the restore step
(assignment on a Message appends rather than replaces), so the header
occurs twice with the same value afterwards, and the restored-count counter
increments once per non-empty threading header even though the purge
removed nothing. -/
theorem c10_restore_appends_duplicate (msg : PyMessage) (name v : List Char)
    (hn : name ∈ threadingNames)
    (hv : msgGet msg name = some v) (hvne : v ≠ [])
    (hcount : (msg.headers.filter (fun p => hdrEq p.1 name)).length = 1)
    (hnog : ∀ kk ∈ msg.headers.map Prod.fst,
        (("X-Google-").toList).isPrefixOf kk = false) :
    ((normalizeMessage msg).1.headers.filter (fun p => hdrEq p.1 name)).length = 2 ∧
    (∀ p ∈ (normalizeMessage msg).1.headers.filter (fun p => hdrEq p.1 name),
        p.2 = v) ∧
    (normalizeMessage msg).2.preserved
      = (threadingNames.filter (fun n => (msgGet msg n).getD [] ≠ [])).length := by
  obtain ⟨hs1, hstep, hhead, _, hpres⟩ := normalizeMessage_spec msg
  have hkeys : hs1.map Prod.fst = msg.headers.map Prod.fst := by
    rcases hstep with rfl | ⟨w, rfl⟩
    · rfl
    · exact map_fst_replaceHeaderFirst _ _ _
  have hgl : (hs1.map Prod.fst).filter
      (fun kk => (("X-Google-").toList).isPrefixOf kk) = [] := by
    rw [hkeys, List.filter_eq_nil_iff]
    intro kk hkk hcontra
    have hcontra2 : (("X-Google-").toList).isPrefixOf kk = true := hcontra
    rw [hnog kk hkk] at hcontra2
    exact Bool.noConfusion hcontra2
  have hn3 : name = ("References").toList ∨ name = ("In-Reply-To").toList ∨
      name = ("Message-ID").toList := by
    simpa [threadingNames] using hn
  have hnd : lowerStr name ≠ lowerStr (("Date").toList) := by
    rcases hn3 with rfl | rfl | rfl <;> decide
  have hfil1 : hs1.filter (fun p => hdrEq p.1 name)
      = msg.headers.filter (fun p => hdrEq p.1 name) := by
    rcases hstep with rfl | ⟨w, rfl⟩
    · rfl
    · exact filter_replaceHeaderFirst_ne _ _ _ _ hnd
  have hget : ∀ n, n ∈ threadingNames → msgGet ⟨hs1, msg.body⟩ n = msgGet msg n := by
    intro n hnn
    have hnn3 : n = ("References").toList ∨ n = ("In-Reply-To").toList ∨
        n = ("Message-ID").toList := by simpa [threadingNames] using hnn
    have hndn : lowerStr n ≠ lowerStr (("Date").toList) := by
      rcases hnn3 with rfl | rfl | rfl <;> decide
    unfold msgGet
    dsimp only
    rcases hstep with rfl | ⟨w, rfl⟩
    · rfl
    · rw [find?_eq_head?_filter, find?_eq_head?_filter,
        filter_replaceHeaderFirst_ne _ _ _ _ hndn]
  have hvalname : (msgGet ⟨hs1, msg.body⟩ name).getD [] = v := by
    rw [hget name hn, hv]
    rfl
  obtain ⟨x0, hx0find, hx0v⟩ : ∃ x0,
      msg.headers.find? (fun p => hdrEq p.1 name) = some x0 ∧ x0.2 = v := by
    unfold msgGet at hv
    cases hf : msg.headers.find? (fun kv => hdrEq kv.1 name) with
    | none => rw [hf] at hv; cases hv
    | some x => rw [hf] at hv; exact ⟨x, rfl, by simpa using hv⟩
  have hbase : msg.headers.filter (fun p => hdrEq p.1 name) = [x0] := by
    apply length_one_head _ _ hcount
    rw [← find?_eq_head?_filter]
    exact hx0find
  have hname_filter : (threadingNames.map
      (fun n => (n, (msgGet ⟨hs1, msg.body⟩ n).getD []))).filter
      (fun p => hdrEq p.1 name)
      = [(name, (msgGet ⟨hs1, msg.body⟩ name).getD [])] := by
    rcases hn3 with rfl | rfl | rfl <;>
      simp +decide [threadingNames, List.filter_cons]
  have happ : ((threadingNames.map
      (fun n => (n, (msgGet ⟨hs1, msg.body⟩ n).getD []))).filter
      (fun p => p.2 ≠ [])).filter (fun p => hdrEq p.1 name) = [(name, v)] := by
    rw [List.filter_comm, hname_filter, hvalname]
    simp [List.filter_cons, hvne]
  refine ⟨?_, ?_, ?_⟩
  · rw [hhead, List.filter_append, hgl, List.foldl_nil, hfil1, hbase, happ]
    rfl
  · intro p hp
    rw [hhead, List.filter_append, hgl, List.foldl_nil, hfil1, hbase, happ] at hp
    rcases List.mem_append.mp hp with h1 | h2
    · rw [List.mem_singleton] at h1
      rw [h1]
      exact hx0v
    · rw [List.mem_singleton] at h2
      rw [h2]
  · rw [hpres, List.filter_map, List.length_map]
    apply congrArg List.length
    apply List.filter_congr
    intro n hnn
    simp [Function.comp, hget n hnn]

/-- Witness for C3 at a concrete message: a Message-ID occurrence survives
normalization with its value intact. -/
theorem c3_threading_values_preserved_witness :
    ((("Message-ID").toList, ("<1@x>").toList) ∈
      (normalizeMessage ⟨[(("Message-ID").toList, ("<1@x>").toList),
          (("From").toList, ("a@b.com").toList)], ("b").toList⟩).1.headers) :=
  c3_threading_values_preserved _ _ _ (by decide) (by decide)

/-- Witness for C10 at a concrete message carrying one Message-ID and no
metadata headers: after normalization the header occurs twice with the same
value and the restored counter is one. -/
theorem c10_restore_appends_duplicate_witness :
    (((normalizeMessage ⟨[(("Message-ID").toList, ("<1@x>").toList),
          (("From").toList, ("a@b.com").toList)], ("b").toList⟩).1.headers.filter
        (fun p => hdrEq p.1 (("Message-ID").toList))).length = 2 ∧
      (∀ p ∈ (normalizeMessage ⟨[(("Message-ID").toList, ("<1@x>").toList),
          (("From").toList, ("a@b.com").toList)], ("b").toList⟩).1.headers.filter
          (fun p => hdrEq p.1 (("Message-ID").toList)), p.2 = ("<1@x>").toList) ∧
      (normalizeMessage ⟨[(("Message-ID").toList, ("<1@x>").toList),
          (("From").toList, ("a@b.com").toList)], ("b").toList⟩).2.preserved
        = (threadingNames.filter
            (fun n => (msgGet ⟨[(("Message-ID").toList, ("<1@x>").toList),
                (("From").toList, ("a@b.com").toList)], ("b").toList⟩ n).getD [] ≠ [])).length) :=
  c10_restore_appends_duplicate _ _ _ (by decide) (by decide) (by decide)
    (by decide) (by decide)

/-- C7: splitting the example blob yields exactly the two non-empty blocks
A and B after the whitespace-only filter, neither containing an envelope
marker line; an envelope marker at position zero of the blob is recognized
(the piece before it is empty, hence discarded); and every block the
processing loop keeps is non-whitespace after trimming. -/
theorem c7_split_example_and_discard :
    (splitFrom (("From 12345\nA\n\nFrom -67890\nB\n").toList)).filter
        (fun b => pystrip b ≠ []) = [("A\n").toList, ("B\n").toList] ∧
    (∀ b ∈ (splitFrom (("From 12345\nA\n\nFrom -67890\nB\n").toList)).filter
        (fun b => pystrip b ≠ []), countMarkers b = 0) ∧
    (∀ ds rest, ds ≠ [] → ds.all Char.isDigit = true →
      (splitFrom (("From ").toList ++ ds ++ '\n' :: rest)).head? = some []) ∧
    (∀ content b, b ∈ (splitFrom content).filter (fun x => pystrip x ≠ []) →
      pystrip b ≠ []) := by
  refine ⟨by decide, by decide, ?_, ?_⟩
  · intro ds rest hne hds
    have hm := matchFromDigits_marker ds rest hne hds
    show (splitFromAux (("From ").toList ++ ds ++ '\n' :: rest).length true []
        (("From ").toList ++ ds ++ '\n' :: rest)).head? = some []
    rw [show (("From ").toList ++ ds ++ '\n' :: rest)
        = 'F' :: (("rom ").toList ++ ds ++ '\n' :: rest) from rfl]
    rw [List.length_cons]
    unfold splitFromAux
    rw [show (if true then matchFromDigits
          ('F' :: (("rom ").toList ++ ds ++ '\n' :: rest)) else none)
        = matchFromDigits (("From ").toList ++ ds ++ '\n' :: rest) from rfl]
    rw [hm]
    rfl
  · intro content b hb
    have h2 := (List.mem_filter.mp hb).2
    exact of_decide_eq_true h2

/-- Witness for C7: the marker-at-position-zero and discard clauses applied
at concrete inputs. -/
theorem c7_split_example_and_discard_witness :
    ((("123").toList ≠ [] ∧ (("123").toList).all Char.isDigit = true) ∧
      (splitFrom (("From ").toList ++ ("123").toList ++ '\n' :: ("tail").toList)).head?
        = some []) ∧
    pystrip (("A\n").toList) ≠ [] :=
  ⟨⟨by decide, c7_split_example_and_discard.2.2.1 (("123").toList) (("tail").toList)
      (by decide) (by decide)⟩,
   c7_split_example_and_discard.2.2.2 (("From 12345\nA\n\nFrom -67890\nB\n").toList)
      (("A\n").toList) (by decide)⟩

/-- Facts about ASCII digit characters, proved by bounded decision. -/
theorem digitChar_isDigit (k : Nat) (hk : k < 10) : (digitChar k).isDigit = true := by
  revert hk
  revert k
  decide

/-- The numeric value of a digit character below ten is its argument. -/
theorem digitV_digitChar (k : Nat) (hk : k < 10) : digitV (digitChar k) = k := by
  revert hk
  revert k
  decide

/-- A digit character is not whitespace. -/
theorem digitChar_not_ws (k : Nat) (hk : k < 10) : isPyWs (digitChar k) = false := by
  revert hk
  revert k
  decide

/-- A digit character is none of the punctuation characters the template
renderings use. -/
theorem digitChar_ne_special (k : Nat) (hk : k < 10) :
    digitChar k ≠ '+' ∧ digitChar k ≠ '-' ∧ digitChar k ≠ ',' ∧
    digitChar k ≠ ':' ∧ digitChar k ≠ '/' ∧ digitChar k ≠ '\n' := by
  revert hk
  revert k
  decide

/-- Both characters of a zero-padded two-digit rendering are digits. -/
theorem pad2_all_digit (n : Nat) (hn : n < 100) : (pad2 n).all Char.isDigit = true := by
  show ((digitChar (n / 10)).isDigit && ((digitChar (n % 10)).isDigit && true)) = true
  rw [digitChar_isDigit _ (by omega), digitChar_isDigit _ (by omega)]
  rfl

/-- All four characters of a zero-padded four-digit rendering are digits. -/
theorem pad4_all_digit (n : Nat) (hn : n < 10000) : (pad4 n).all Char.isDigit = true := by
  show ((digitChar (n / 1000)).isDigit &&
      ((digitChar (n / 100 % 10)).isDigit &&
        ((digitChar (n / 10 % 10)).isDigit && ((digitChar (n % 10)).isDigit && true)))) = true
  rw [digitChar_isDigit _ (by omega), digitChar_isDigit _ (by omega),
    digitChar_isDigit _ (by omega), digitChar_isDigit _ (by omega)]
  rfl

/-- Reading back a two-digit rendering gives the rendered value. -/
theorem digitsToNat_pad2 (n : Nat) (hn : n < 100) : digitsToNat (pad2 n) = n := by
  show (0 * 10 + digitV (digitChar (n / 10))) * 10 + digitV (digitChar (n % 10)) = n
  rw [digitV_digitChar _ (by omega), digitV_digitChar _ (by omega)]
  omega

/-- Reading back a four-digit rendering gives the rendered value. -/
theorem digitsToNat_pad4 (n : Nat) (hn : n < 10000) : digitsToNat (pad4 n) = n := by
  show (((0 * 10 + digitV (digitChar (n / 1000))) * 10 + digitV (digitChar (n / 100 % 10))) * 10
      + digitV (digitChar (n / 10 % 10))) * 10 + digitV (digitChar (n % 10)) = n
  rw [digitV_digitChar _ (by omega), digitV_digitChar _ (by omega),
    digitV_digitChar _ (by omega), digitV_digitChar _ (by omega)]
  omega

/-- A digit character is not Python whitespace. -/
theorem isDigit_not_ws (c : Char) (h : c.isDigit = true) : isPyWs c = false := by
  have h1 : c ≠ ' ' := by intro hh; rw [hh] at h; exact absurd h (by decide)
  have h2 : c ≠ '\t' := by intro hh; rw [hh] at h; exact absurd h (by decide)
  have h3 : c ≠ '\n' := by intro hh; rw [hh] at h; exact absurd h (by decide)
  have h4 : c ≠ '\r' := by intro hh; rw [hh] at h; exact absurd h (by decide)
  have h5 : c ≠ '\x0b' := by intro hh; rw [hh] at h; exact absurd h (by decide)
  have h6 : c ≠ '\x0c' := by intro hh; rw [hh] at h; exact absurd h (by decide)
  simp [isPyWs, h1, h2, h3, h4, h5, h6]

/-- Stripping leaves a string whose two ends are not whitespace unchanged. -/
theorem pystrip_of_ends (l : List Char)
    (h1 : ∀ c, l.head? = some c → isPyWs c = false)
    (h2 : ∀ c, l.getLast? = some c → isPyWs c = false) :
    pystrip l = l := by
  unfold pystrip
  cases l with
  | nil => rfl
  | cons a t =>
    have ha := h1 a rfl
    rw [List.dropWhile_cons, if_neg (by simp [ha])]
    cases hr : (a :: t).reverse with
    | nil => exact absurd hr (by simp)
    | cons b r2 =>
      have hb : (a :: t).getLast? = some b := by
        rw [← List.head?_reverse, hr]
        rfl
      have hbw := h2 b hb
      have hd2 : List.dropWhile (fun c => isPyWs c) (b :: r2) = b :: r2 := by
        rw [List.dropWhile_cons, if_neg (by simp [hbw])]
      rw [hd2, ← hr, List.reverse_reverse]

/-- Stripping an all-digit string is the identity. -/
theorem pystrip_all_digit (l : List Char) (hall : l.all Char.isDigit = true) :
    pystrip l = l := by
  rw [List.all_eq_true] at hall
  apply pystrip_of_ends
  · intro c hc
    cases l with
    | nil => cases hc
    | cons a t =>
      rw [List.head?_cons, Option.some.injEq] at hc
      exact isDigit_not_ws c (hall c (by rw [← hc]; exact List.mem_cons_self a t))
  · intro c hc
    have hmem : c ∈ l := by
      rw [← List.head?_reverse] at hc
      have := List.mem_of_mem_head? hc
      exact List.mem_reverse.mp this
    exact isDigit_not_ws c (hall c hmem)

/-- int() on a nonempty all-digit string reads its decimal value. -/
theorem pyInt?_digits (l : List Char) (hne : l ≠ []) (hall : l.all Char.isDigit = true) :
    pyInt? l = some ((digitsToNat l : Int)) := by
  cases l with
  | nil => exact absurd rfl hne
  | cons c ds =>
    have hc : c.isDigit = true := by
      rw [List.all_cons, Bool.and_eq_true] at hall
      exact hall.1
    have hcp : ¬ c = '+' := by intro h; rw [h] at hc; exact absurd hc (by decide)
    have hcm : ¬ c = '-' := by intro h; rw [h] at hc; exact absurd hc (by decide)
    unfold pyInt?
    rw [pystrip_all_digit _ hall]
    dsimp only
    rw [if_neg hcp, if_neg hcm, if_pos hall]

/-- int() on a four-digit rendering. -/
theorem pyInt?_pad4 (n : Nat) (hn : n < 10000) : pyInt? (pad4 n) = some ((n : Int)) := by
  rw [pyInt?_digits _ (by simp [pad4]) (pad4_all_digit n hn), digitsToNat_pad4 n hn]

/-- int() on a two-digit rendering. -/
theorem pyInt?_pad2 (n : Nat) (hn : n < 100) : pyInt? (pad2 n) = some ((n : Int)) := by
  rw [pyInt?_digits _ (by simp [pad2]) (pad2_all_digit n hn), digitsToNat_pad2 n hn]

/-- Appending a two-digit rendering multiplies the prefix value by one
hundred and adds the suffix value. -/
theorem digitsToNat_append_pad2 (l : List Char) (b : Nat) (hb : b < 100) :
    digitsToNat (l ++ pad2 b) = digitsToNat l * 100 + b := by
  show (l ++ pad2 b).foldl (fun a c => a * 10 + digitV c) 0 = digitsToNat l * 100 + b
  rw [List.foldl_append]
  show (digitsToNat l * 10 + digitV (digitChar (b / 10))) * 10 + digitV (digitChar (b % 10))
      = digitsToNat l * 100 + b
  rw [digitV_digitChar _ (by omega), digitV_digitChar _ (by omega)]
  omega

/-- An ASCII digit is unchanged by Python str.lower. -/
theorem lowerChar_digitChar (k : Nat) (hk : k < 10) :
    lowerChar (digitChar k) = digitChar k := by
  revert hk
  revert k
  decide

/-- An ASCII digit is unchanged by Python str.upper. -/
theorem upperChar_digitChar (k : Nat) (hk : k < 10) :
    upperChar (digitChar k) = digitChar k := by
  revert hk
  revert k
  decide

/-- Every character of a two-digit rendering is a digit character with a
value below ten. -/
theorem mem_pad2_lt (n : Nat) (hn : n < 100) (x : Char) (hx : x ∈ pad2 n) :
    ∃ k, k < 10 ∧ x = digitChar k := by
  rcases (by simpa [pad2] using hx : x = digitChar (n / 10) ∨ x = digitChar (n % 10)) with h | h
  · exact ⟨n / 10, by omega, h⟩
  · exact ⟨n % 10, by omega, h⟩

/-- Every character of a four-digit rendering is a digit character with a
value below ten. -/
theorem mem_pad4_lt (n : Nat) (hn : n < 10000) (x : Char) (hx : x ∈ pad4 n) :
    ∃ k, k < 10 ∧ x = digitChar k := by
  rcases (by simpa [pad4] using hx :
      x = digitChar (n / 1000) ∨ x = digitChar (n / 100 % 10) ∨
      x = digitChar (n / 10 % 10) ∨ x = digitChar (n % 10)) with h | h | h | h
  · exact ⟨n / 1000, by omega, h⟩
  · exact ⟨n / 100 % 10, by omega, h⟩
  · exact ⟨n / 10 % 10, by omega, h⟩
  · exact ⟨n % 10, by omega, h⟩

/-- Lowering a two-digit rendering is the identity. -/
theorem lowerStr_pad2 (n : Nat) (hn : n < 100) : lowerStr (pad2 n) = pad2 n := by
  unfold lowerStr pad2
  rw [List.map_cons, List.map_cons, List.map_nil,
    lowerChar_digitChar _ (by omega), lowerChar_digitChar _ (by omega)]

/-- str.find misses a character that occurs nowhere in the string. -/
theorem findChar_eq_none (c : Char) (l : List Char) (h : ∀ x ∈ l, x ≠ c) :
    findChar c l = none := by
  induction l with
  | nil => rfl
  | cons a t ih =>
    unfold findChar
    rw [if_neg (h a (List.mem_cons_self a t)),
      ih (fun x hx => h x (List.mem_cons_of_mem a hx))]
    rfl

/-- str.find locates the first occurrence after an occurrence-free prefix. -/
theorem findChar_append (c : Char) (l r : List Char) (h : ∀ x ∈ l, x ≠ c) :
    findChar c (l ++ c :: r) = some l.length := by
  induction l with
  | nil => simp [findChar]
  | cons a t ih =>
    rw [List.cons_append]
    unfold findChar
    rw [if_neg (h a (List.mem_cons_self a t)),
      ih (fun x hx => h x (List.mem_cons_of_mem a hx))]
    rfl

/-- str.rfind misses a character that occurs nowhere in the string. -/
theorem rfindChar_eq_none (c : Char) (l : List Char) (h : ∀ x ∈ l, x ≠ c) :
    rfindChar c l = none := by
  unfold rfindChar
  rw [findChar_eq_none c l.reverse (fun x hx => h x (List.mem_reverse.mp hx))]
  rfl

/-- Splitting on a separator that occurs nowhere yields one piece. -/
theorem splitOnCharAux_no_sep (sep : Char) (l cur : List Char)
    (h : ∀ x ∈ l, x ≠ sep) :
    splitOnCharAux sep l cur = [cur.reverse ++ l] := by
  induction l generalizing cur with
  | nil => simp [splitOnCharAux]
  | cons a t ih =>
    unfold splitOnCharAux
    rw [if_neg (h a (List.mem_cons_self a t)),
      ih (a :: cur) (fun x hx => h x (List.mem_cons_of_mem a hx))]
    simp

/-- Splitting steps over a separator after an occurrence-free prefix. -/
theorem splitOnCharAux_sep (sep : Char) (l r cur : List Char)
    (h : ∀ x ∈ l, x ≠ sep) :
    splitOnCharAux sep (l ++ sep :: r) cur =
      (cur.reverse ++ l) :: splitOnCharAux sep r [] := by
  induction l generalizing cur with
  | nil =>
    rw [List.nil_append, splitOnCharAux, if_pos rfl, List.append_nil]
  | cons a t ih =>
    rw [List.cons_append, splitOnCharAux,
      if_neg (h a (List.mem_cons_self a t)),
      ih (a :: cur) (fun x hx => h x (List.mem_cons_of_mem a hx))]
    simp

/-- Characters of a two-digit rendering are never whitespace. -/
theorem pad2_no_ws (n : Nat) (hn : n < 100) : ∀ x ∈ pad2 n, isPyWs x = false := by
  intro x hx
  obtain ⟨k, hk, rfl⟩ := mem_pad2_lt n hn x hx
  exact digitChar_not_ws k hk

/-- Characters of a four-digit rendering are never whitespace. -/
theorem pad4_no_ws (n : Nat) (hn : n < 10000) : ∀ x ∈ pad4 n, isPyWs x = false := by
  intro x hx
  obtain ⟨k, hk, rfl⟩ := mem_pad4_lt n hn x hx
  exact digitChar_not_ws k hk

/-- Characters of a two-digit rendering are never the colon. -/
theorem pad2_ne_colon (n : Nat) (hn : n < 100) : ∀ x ∈ pad2 n, x ≠ ':' := by
  intro x hx
  obtain ⟨k, hk, rfl⟩ := mem_pad2_lt n hn x hx
  exact (digitChar_ne_special k hk).2.2.2.1

/-- The colon split of a rendered time is its three two-digit fields. -/
theorem splitOnChar_renderTime (h mi s : Nat)
    (hh : h < 100) (hmi : mi < 100) (hs : s < 100) :
    splitOnChar ':' (renderTime h mi s) = [pad2 h, pad2 mi, pad2 s] := by
  unfold splitOnChar renderTime
  rw [List.append_assoc, List.append_assoc, List.append_assoc,
    List.singleton_append, List.singleton_append,
    splitOnCharAux_sep ':' _ _ _ (pad2_ne_colon h hh),
    splitOnCharAux_sep ':' _ _ _ (pad2_ne_colon mi hmi),
    splitOnCharAux_no_sep ':' _ _ (pad2_ne_colon s hs)]
  simp

/-- A non-empty two-digit rendering. -/
theorem pad2_ne_nil (n : Nat) : pad2 n ≠ [] := by simp [pad2]

/-- A non-empty four-digit rendering. -/
theorem pad4_ne_nil (n : Nat) : pad4 n ≠ [] := by simp [pad4]

/-- The last character of a two-digit rendering. -/
theorem pad2_getLast (n : Nat) : (pad2 n).getLast? = some (digitChar (n % 10)) := rfl

/-- The last character of a four-digit rendering. -/
theorem pad4_getLast (n : Nat) : (pad4 n).getLast? = some (digitChar (n % 10)) := rfl

/-- Consuming a whitespace-free prefix accumulates it into the current
token of the whitespace splitter. -/
theorem splitWsAux_no_ws (tok : List Char) (rest cur : List Char)
    (hn : ∀ c ∈ tok, isPyWs c = false) :
    splitWsAux (tok ++ rest) cur = splitWsAux rest (tok.reverse ++ cur) := by
  induction tok generalizing cur with
  | nil => simp
  | cons a t ih =>
    rw [List.cons_append, splitWsAux,
      if_neg (by simp [hn a (List.mem_cons_self a t)]),
      ih (a :: cur) (fun c hc => hn c (List.mem_cons_of_mem a hc))]
    simp

/-- A space after a non-empty current token emits the token. -/
theorem splitWsAux_space (rest cur : List Char) (hcur : cur ≠ []) :
    splitWsAux (' ' :: rest) cur = cur.reverse :: splitWsAux rest [] := by
  rw [splitWsAux, if_pos (by decide),
    if_neg (by simp [List.isEmpty_iff, hcur])]

/-- The end of input after a non-empty current token emits the token. -/
theorem splitWsAux_last (cur : List Char) (hcur : cur ≠ []) :
    splitWsAux [] cur = [cur.reverse] := by
  rw [splitWsAux, if_neg (by simp [List.isEmpty_iff, hcur])]

/-- Weekday-abbreviation tokens contain no whitespace. -/
theorem dayAbbr_no_ws : ∀ w : Fin 7, ∀ c ∈ dayAbbrsCap.getD w.val [], isPyWs c = false := by
  decide

/-- Month-abbreviation tokens contain no whitespace. -/
theorem monthAbbr_no_ws : ∀ i : Fin 12, ∀ c ∈ monthAbbrsCap.getD i.val [], isPyWs c = false := by
  decide

/-- Weekday-abbreviation tokens are non-empty. -/
theorem dayAbbr_ne_nil : ∀ w : Fin 7, dayAbbrsCap.getD w.val [] ≠ [] := by
  decide

/-- Month-abbreviation tokens are non-empty. -/
theorem monthAbbr_ne_nil : ∀ i : Fin 12, monthAbbrsCap.getD i.val [] ≠ [] := by
  decide

/-- A rendered time contains no whitespace. -/
theorem renderTime_no_ws (h mi s : Nat) (hh : h < 100) (hmi : mi < 100)
    (hs : s < 100) : ∀ c ∈ renderTime h mi s, isPyWs c = false := by
  intro c hc
  unfold renderTime at hc
  simp only [List.mem_append, List.mem_singleton] at hc
  rcases hc with (((hc | hc) | hc) | hc) | hc
  · exact pad2_no_ws h hh c hc
  · rw [hc]; decide
  · exact pad2_no_ws mi hmi c hc
  · rw [hc]; decide
  · exact pad2_no_ws s hs c hc

/-- A rendered zone offset contains no whitespace. -/
theorem renderTz_no_ws (sgn : Bool) (oh om : Nat) (hoh : oh < 100)
    (hom : om < 100) : ∀ c ∈ renderTz sgn oh om, isPyWs c = false := by
  intro c hc
  unfold renderTz at hc
  simp only [List.mem_append, List.mem_singleton] at hc
  rcases hc with (hc | hc) | hc
  · rw [hc]; cases sgn <;> decide
  · exact pad2_no_ws oh hoh c hc
  · exact pad2_no_ws om hom c hc

/-- A rendered time is non-empty. -/
theorem renderTime_ne_nil (h mi s : Nat) : renderTime h mi s ≠ [] := by
  simp [renderTime, pad2]

/-- A rendered zone offset is non-empty. -/
theorem renderTz_ne_nil (sgn : Bool) (oh om : Nat) : renderTz sgn oh om ≠ [] := by
  simp [renderTz]

/-- Whitespace splitting of space-joined whitespace-free non-empty tokens
recovers exactly the tokens. -/
theorem pySplitWs_joinSp (ts : List (List Char)) (hne : ∀ t ∈ ts, t ≠ [])
    (hws : ∀ t ∈ ts, ∀ c ∈ t, isPyWs c = false) :
    pySplitWs (joinSp ts) = ts := by
  induction ts with
  | nil => rfl
  | cons t rest ih =>
    cases rest with
    | nil =>
      show pySplitWs t = [t]
      unfold pySplitWs
      have h0 : splitWsAux (t ++ []) [] = splitWsAux [] (t.reverse ++ []) :=
        splitWsAux_no_ws t [] [] (hws t (List.mem_cons_self t []))
      rw [List.append_nil] at h0
      rw [h0, List.append_nil,
        splitWsAux_last _ (by simp [hne t (List.mem_cons_self t [])]),
        List.reverse_reverse]
    | cons t2 rest2 =>
      rw [show joinSp (t :: t2 :: rest2) = t ++ [' '] ++ joinSp (t2 :: rest2) from rfl]
      unfold pySplitWs
      rw [List.append_assoc, List.singleton_append,
        splitWsAux_no_ws t _ [] (hws t (List.mem_cons_self t (t2 :: rest2))),
        List.append_nil,
        splitWsAux_space _ _ (by simp [hne t (List.mem_cons_self t (t2 :: rest2))]),
        List.reverse_reverse]
      have ih2 := ih (fun x hx => hne x (List.mem_cons_of_mem t hx))
        (fun x hx => hws x (List.mem_cons_of_mem t hx))
      unfold pySplitWs at ih2
      rw [ih2]

/-- The whitespace token split of a rendered second-template string. -/
theorem pySplitWs_render2 (w : Fin 7) (d : Nat) (i : Fin 12)
    (y h mi s : Nat) (sgn : Bool) (oh om : Nat)
    (hd : d < 100) (hy : y < 10000) (hh : h < 100) (hmi : mi < 100)
    (hs : s < 100) (hoh : oh < 100) (hom : om < 100) :
    pySplitWs (render2 w d i y h mi s sgn oh om) =
      [dayAbbrsCap.getD w.val [] ++ [','], pad2 d, monthAbbrsCap.getD i.val [],
       pad4 y, renderTime h mi s, renderTz sgn oh om] := by
  have hjoin : render2 w d i y h mi s sgn oh om =
      joinSp [dayAbbrsCap.getD w.val [] ++ [','], pad2 d,
        monthAbbrsCap.getD i.val [], pad4 y, renderTime h mi s,
        renderTz sgn oh om] := by
    simp [render2, joinSp, List.append_assoc]
  rw [hjoin]
  apply pySplitWs_joinSp
  · intro t ht
    simp only [List.mem_cons, List.not_mem_nil, or_false] at ht
    rcases ht with rfl | rfl | rfl | rfl | rfl | rfl
    · simp
    · exact pad2_ne_nil d
    · exact monthAbbr_ne_nil i
    · exact pad4_ne_nil y
    · exact renderTime_ne_nil h mi s
    · exact renderTz_ne_nil sgn oh om
  · intro t ht
    simp only [List.mem_cons, List.not_mem_nil, or_false] at ht
    rcases ht with rfl | rfl | rfl | rfl | rfl | rfl
    · intro c hc
      rcases List.mem_append.mp hc with hc | hc
      · exact dayAbbr_no_ws w c hc
      · rw [List.mem_singleton.mp hc]; decide
    · exact pad2_no_ws d hd
    · exact monthAbbr_no_ws i
    · exact pad4_no_ws y hy
    · exact renderTime_no_ws h mi s hh hmi hs
    · exact renderTz_no_ws sgn oh om hoh hom

/-- The whitespace token split of a rendered third-template string. -/
theorem pySplitWs_render3 (d : Nat) (i : Fin 12)
    (y h mi s : Nat) (sgn : Bool) (oh om : Nat)
    (hd : d < 100) (hy : y < 10000) (hh : h < 100) (hmi : mi < 100)
    (hs : s < 100) (hoh : oh < 100) (hom : om < 100) :
    pySplitWs (render3 d i y h mi s sgn oh om) =
      [pad2 d, monthAbbrsCap.getD i.val [], pad4 y, renderTime h mi s,
       renderTz sgn oh om] := by
  have hjoin : render3 d i y h mi s sgn oh om =
      joinSp [pad2 d, monthAbbrsCap.getD i.val [], pad4 y,
        renderTime h mi s, renderTz sgn oh om] := by
    simp [render3, joinSp, List.append_assoc]
  rw [hjoin]
  apply pySplitWs_joinSp
  · intro t ht
    simp only [List.mem_cons, List.not_mem_nil, or_false] at ht
    rcases ht with rfl | rfl | rfl | rfl | rfl
    · exact pad2_ne_nil d
    · exact monthAbbr_ne_nil i
    · exact pad4_ne_nil y
    · exact renderTime_ne_nil h mi s
    · exact renderTz_ne_nil sgn oh om
  · intro t ht
    simp only [List.mem_cons, List.not_mem_nil, or_false] at ht
    rcases ht with rfl | rfl | rfl | rfl | rfl
    · exact pad2_no_ws d hd
    · exact monthAbbr_no_ws i
    · exact pad4_no_ws y hy
    · exact renderTime_no_ws h mi s hh hmi hs
    · exact renderTz_no_ws sgn oh om hoh hom

/-- The whitespace token split of a rendered fourth-template string. -/
theorem pySplitWs_render4 (w : Fin 7) (i : Fin 12) (d h mi s y : Nat)
    (hd : d < 100) (hy : y < 10000) (hh : h < 100) (hmi : mi < 100)
    (hs : s < 100) :
    pySplitWs (render4 w i d h mi s y) =
      [dayAbbrsCap.getD w.val [], monthAbbrsCap.getD i.val [], pad2 d,
       renderTime h mi s, pad4 y] := by
  have hjoin : render4 w i d h mi s y =
      joinSp [dayAbbrsCap.getD w.val [], monthAbbrsCap.getD i.val [],
        pad2 d, renderTime h mi s, pad4 y] := by
    simp [render4, joinSp, List.append_assoc]
  rw [hjoin]
  apply pySplitWs_joinSp
  · intro t ht
    simp only [List.mem_cons, List.not_mem_nil, or_false] at ht
    rcases ht with rfl | rfl | rfl | rfl | rfl
    · exact dayAbbr_ne_nil w
    · exact monthAbbr_ne_nil i
    · exact pad2_ne_nil d
    · exact renderTime_ne_nil h mi s
    · exact pad4_ne_nil y
  · intro t ht
    simp only [List.mem_cons, List.not_mem_nil, or_false] at ht
    rcases ht with rfl | rfl | rfl | rfl | rfl
    · exact dayAbbr_no_ws w
    · exact monthAbbr_no_ws i
    · exact pad2_no_ws d hd
    · exact renderTime_no_ws h mi s hh hmi hs
    · exact pad4_no_ws y hy

/-- The whitespace token split of a rendered first-template string: one
token. -/
theorem pySplitWs_render1 (y m d : Nat) (hy : y < 10000) (hm : m < 100)
    (hd : d < 100) :
    pySplitWs (render1 y m d) = [render1 y m d] := by
  have hjoin : render1 y m d = joinSp [render1 y m d] := rfl
  rw [hjoin]
  apply pySplitWs_joinSp
  · intro t ht
    simp only [List.mem_singleton] at ht
    rw [ht]
    simp [render1, pad4]
  · intro t ht
    simp only [List.mem_singleton] at ht
    rw [ht]
    intro c hc
    unfold render1 at hc
    simp only [List.mem_append, List.mem_singleton] at hc
    rcases hc with (((hc | hc) | hc) | hc) | hc
    · exact pad4_no_ws y hy c hc
    · rw [hc]; decide
    · exact pad2_no_ws m hm c hc
    · rw [hc]; decide
    · exact pad2_no_ws d hd c hc

/-- The whitespace token split of a rendered sixth-template string: one
token. -/
theorem pySplitWs_render6 (y m d : Nat) (hy : y < 10000) (hm : m < 100)
    (hd : d < 100) :
    pySplitWs (render6 y m d) = [render6 y m d] := by
  have hjoin : render6 y m d = joinSp [render6 y m d] := rfl
  rw [hjoin]
  apply pySplitWs_joinSp
  · intro t ht
    simp only [List.mem_singleton] at ht
    rw [ht]
    simp [render6, pad4]
  · intro t ht
    simp only [List.mem_singleton] at ht
    rw [ht]
    intro c hc
    unfold render6 at hc
    simp only [List.mem_append, List.mem_singleton] at hc
    rcases hc with (((hc | hc) | hc) | hc) | hc
    · exact pad4_no_ws y hy c hc
    · rw [hc]; decide
    · exact pad2_no_ws m hm c hc
    · rw [hc]; decide
    · exact pad2_no_ws d hd c hc

/-- The whitespace token split of a rendered fifth-template string: the
date token and the time token. -/
theorem pySplitWs_render5 (y m d h mi s : Nat) (hy : y < 10000)
    (hm : m < 100) (hd : d < 100) (hh : h < 100) (hmi : mi < 100)
    (hs : s < 100) :
    pySplitWs (render5 y m d h mi s) = [render6 y m d, renderTime h mi s] := by
  have hjoin : render5 y m d h mi s =
      joinSp [render6 y m d, renderTime h mi s] := by
    simp [render5, render6, joinSp, List.append_assoc]
  rw [hjoin]
  apply pySplitWs_joinSp
  · intro t ht
    simp only [List.mem_cons, List.not_mem_nil, or_false] at ht
    rcases ht with rfl | rfl
    · simp [render6, pad4]
    · exact renderTime_ne_nil h mi s
  · intro t ht
    simp only [List.mem_cons, List.not_mem_nil, or_false] at ht
    rcases ht with rfl | rfl
    · intro c hc
      unfold render6 at hc
      simp only [List.mem_append, List.mem_singleton] at hc
      rcases hc with (((hc | hc) | hc) | hc) | hc
      · exact pad4_no_ws y hy c hc
      · rw [hc]; decide
      · exact pad2_no_ws m hm c hc
      · rw [hc]; decide
      · exact pad2_no_ws d hd c hc
    · exact renderTime_no_ws h mi s hh hmi hs

/-- A leading token ending in a comma is dropped by the mail date parser
before the main section (five remaining tokens). -/
theorem parsedateTzTokens_comma (nm t1 t2 t3 t4 t5 : List Char) :
    parsedateTzTokens ((nm ++ [',']) :: [t1, t2, t3, t4, t5]) =
      parsedateTzMain [t1, t2, t3, t4, t5] := by
  simp [parsedateTzTokens]

/-- A leading token that is a recognized weekday name is dropped by the mail
date parser; with four tokens left, an empty zone token is appended since
the last token holds no sign character. -/
theorem parsedateTzTokens_dayname (wd m0 d0 tm0 y4 : List Char)
    (hwd : emailDaynames.contains (lowerStr wd) = true)
    (hplus : findChar '+' y4 = none) (hminus : findChar '-' y4 = none) :
    parsedateTzTokens (wd :: [m0, d0, tm0, y4]) =
      parsedateTzMain [m0, d0, tm0, y4, []] := by
  have hwd2 : lowerStr wd ∈ emailDaynames := by simpa using hwd
  simp [parsedateTzTokens, hwd2, hplus, hminus]

/-- A comma-free leading token that is no weekday name is kept; five tokens
reach the main section unchanged. -/
theorem parsedateTzTokens_plain (t0 t1 t2 t3 t4 : List Char)
    (hlast : t0.getLast? ≠ some ',')
    (hday : emailDaynames.contains (lowerStr t0) = false)
    (hcomma : rfindChar ',' t0 = none) :
    parsedateTzTokens (t0 :: [t1, t2, t3, t4]) =
      parsedateTzMain (t0 :: [t1, t2, t3, t4]) := by
  have hday2 : lowerStr t0 ∉ emailDaynames := by simpa using hday
  simp [parsedateTzTokens, hlast, hday2, hcomma]

/-- One comma-free non-weekday token is too short for the mail date parser. -/
theorem parsedateTzTokens_one (t0 : List Char)
    (hlast : t0.getLast? ≠ some ',')
    (hday : emailDaynames.contains (lowerStr t0) = false)
    (hcomma : rfindChar ',' t0 = none) :
    parsedateTzTokens [t0] = none := by
  have hday2 : lowerStr t0 ∉ emailDaynames := by simpa using hday
  simp [parsedateTzTokens, hlast, hday2, hcomma, parsedateTzMain]

/-- Two tokens with a comma-free non-weekday head are too short for the mail
date parser. -/
theorem parsedateTzTokens_two (t0 t1 : List Char)
    (hlast : t0.getLast? ≠ some ',')
    (hday : emailDaynames.contains (lowerStr t0) = false)
    (hcomma : rfindChar ',' t0 = none) :
    parsedateTzTokens [t0, t1] = none := by
  have hday2 : lowerStr t0 ∉ emailDaynames := by simpa using hday
  simp [parsedateTzTokens, hlast, hday2, hcomma, parsedateTzMain]

/-- The base-ten fold with an arbitrary accumulator. -/
theorem digitsToNat_foldl (l : List Char) (a : Nat) :
    l.foldl (fun a c => a * 10 + digitV c) a =
      a * 10 ^ l.length + digitsToNat l := by
  induction l generalizing a with
  | nil => simp [digitsToNat]
  | cons c t ih =>
    rw [List.foldl_cons, ih]
    have h2 : digitsToNat (c :: t) = digitV c * 10 ^ t.length + digitsToNat t := by
      unfold digitsToNat
      rw [List.foldl_cons]
      rw [ih (0 * 10 + digitV c)]
      norm_num [digitsToNat]
    rw [h2, List.length_cons]
    ring

/-- Python int on a sign character followed by digits. -/
theorem pyInt?_sign_digits (neg : Bool) (l : List Char) (hne : l ≠ [])
    (hall : l.all Char.isDigit = true) :
    pyInt? ((if neg then '-' else '+') :: l) =
      some (if neg then -(digitsToNat l : Int) else (digitsToNat l : Int)) := by
  have hstrip : pystrip ((if neg then '-' else '+') :: l) =
      (if neg then '-' else '+') :: l := by
    apply pystrip_of_ends
    · intro c hc
      rw [List.head?_cons, Option.some.injEq] at hc
      rw [← hc]
      cases neg <;> decide
    · intro c hc
      obtain ⟨x, xs, rfl⟩ := List.exists_cons_of_ne_nil hne
      rw [List.getLast?_cons_cons] at hc
      have hmem : c ∈ x :: xs := List.mem_of_mem_getLast? (Option.mem_def.mpr hc)
      rw [List.all_eq_true] at hall
      exact isDigit_not_ws c (hall c hmem)
  cases neg with
  | false =>
    unfold pyInt?
    rw [hstrip]
    show (if ('+' : Char) = '+' then _ else _) = _
    rw [if_pos rfl, if_pos ⟨hne, hall⟩]
    simp
  | true =>
    unfold pyInt?
    rw [hstrip]
    show (if ('-' : Char) = '+' then _ else _) = _
    rw [if_neg (by decide)]
    show (if ('-' : Char) = '-' then _ else _) = _
    rw [if_pos rfl, if_pos ⟨hne, hall⟩]
    simp

/-- The zone-name table holds no entry starting with a sign character. -/
theorem emailTimezones_lookup_sign (x : Char) (hx : x = '+' ∨ x = '-')
    (rest : List Char) : emailTimezones.lookup (x :: rest) = none := by
  rcases hx with rfl | rfl <;>
    simp [emailTimezones, List.lookup]

/-- The empty zone token converts to no offset: the datetime stays naive. -/
theorem tzToOffset_nil : tzToOffset [] = none := rfl

/-- A rendered ±HHMM zone token converts to its signed offset in seconds. -/
theorem tzToOffset_renderTz (sgn : Bool) (oh om : Nat) (hoh : oh ≤ 23)
    (hom : om ≤ 59) (hz : sgn = false → ¬(oh = 0 ∧ om = 0)) :
    tzToOffset (renderTz sgn oh om) = some (tzSec sgn oh om) := by
  have hall : (pad2 oh ++ pad2 om).all Char.isDigit = true := by
    rw [List.all_append, pad2_all_digit oh (by omega), pad2_all_digit om (by omega)]
    rfl
  have hne : pad2 oh ++ pad2 om ≠ [] := by simp [pad2]
  have hdig : digitsToNat (pad2 oh ++ pad2 om) = oh * 100 + om := by
    rw [digitsToNat_append_pad2 _ om (by omega), digitsToNat_pad2 oh (by omega)]
  have hrend : renderTz sgn oh om =
      (if sgn then '+' else '-') :: (pad2 oh ++ pad2 om) := by
    simp [renderTz]
  have hupper : upperStr (renderTz sgn oh om) =
      (if sgn then '+' else '-') :: upperStr (pad2 oh ++ pad2 om) := by
    rw [hrend]
    unfold upperStr
    rw [List.map_cons]
    congr 1
    cases sgn <;> decide
  have hlook : emailTimezones.lookup (upperStr (renderTz sgn oh om)) = none := by
    rw [hupper]
    apply emailTimezones_lookup_sign
    cases sgn
    · right; rfl
    · left; rfl
  have hpy : pyInt? (renderTz sgn oh om) =
      some (if sgn then ((oh * 100 + om : Nat) : Int)
        else -((oh * 100 + om : Nat) : Int)) := by
    rw [hrend]
    cases sgn
    · have h1 := pyInt?_sign_digits true (pad2 oh ++ pad2 om) hne hall
      rw [hdig] at h1
      simpa using h1
    · have h1 := pyInt?_sign_digits false (pad2 oh ++ pad2 om) hne hall
      rw [hdig] at h1
      simpa using h1
  have hhead : (renderTz sgn oh om).head? =
      some (if sgn then '+' else '-') := by
    rw [hrend]
    rfl
  simp only [tzToOffset, hlook, hpy, hhead]
  cases sgn with
  | false =>
    have hnz : oh * 100 + om ≠ 0 := by
      have h2 := hz rfl
      omega
    simp only [Bool.false_eq_true, ite_false, tzSec]
    rw [if_neg (by
      simp only [and_true]
      omega)]
    dsimp only
    rw [if_neg (by omega : ¬ (-((oh * 100 + om : Nat) : Int)) = 0)]
    rw [if_pos (by omega : (-((oh * 100 + om : Nat) : Int)) < 0)]
    simp only [Int.natAbs_neg, Int.natAbs_ofNat]
    push_cast
    simp only [Option.some.injEq]
    omega
  | true =>
    simp only [Bool.true_eq_false, ite_true, tzSec]
    rw [if_neg (by simp)]
    dsimp only
    by_cases h0 : oh * 100 + om = 0
    · rw [if_pos (by omega : ((oh * 100 + om : Nat) : Int) = 0)]
      have h4 : oh = 0 ∧ om = 0 := by omega
      rcases h4 with ⟨rfl, rfl⟩
      norm_num
    · rw [if_neg (by omega : ¬ ((oh * 100 + om : Nat) : Int) = 0)]
      rw [if_neg (by omega : ¬ ((oh * 100 + om : Nat) : Int) < 0)]
      simp only [Int.natAbs_ofNat]
      push_cast
      simp only [Option.some.injEq]
      omega

/-- Symbolic walkthrough of the main section without the year-time swap:
day, month-name, colon-free year, time and zone tokens produce the row of
their converted values, with the zone converted by tzToOffset. -/
theorem parsedateTzMain_noswap (dd0 mm0 tm0 tz0 : List Char) (yc : Char)
    (yt : List Char) (iv : Nat) (yv dv av bv cv : Int)
    (a b c : List Char)
    (hdd_ne : dd0 ≠ []) (hmm_ne : mm0 ≠ [])
    (hcon : lowerStr mm0 ∈ emailMonthnames)
    (hidx : (emailMonthnames.findIdx? (fun n => n = lowerStr mm0)).getD 0 = iv)
    (hiv : iv + 1 ≤ 12)
    (hdd_last : dd0.getLast? ≠ some ',')
    (hyy_colon : findChar ':' (yc :: yt) = none)
    (hyy_last : (yc :: yt).getLast? ≠ some ',')
    (hyc : yc.isDigit = true)
    (htm_last : tm0.getLast? ≠ some ',')
    (htm_parts : splitOnChar ':' tm0 = [a, b, c])
    (hyyInt : pyInt? (yc :: yt) = some yv) (hyv : ¬ yv < 100)
    (hddInt : pyInt? dd0 = some dv)
    (haInt : pyInt? a = some av) (hbInt : pyInt? b = some bv)
    (hcInt : pyInt? c = some cv) :
    parsedateTzMain [dd0, mm0, yc :: yt, tm0, tz0] =
      some ⟨yv, iv + 1, dv, av, bv, cv, tzToOffset tz0⟩ := by
  have hconT : (lowerStr mm0 ∈ emailMonthnames) = True := eq_true hcon
  have hddF : (dd0.getLast? = some ',') = False := eq_false hdd_last
  have hyyF : ((yc :: yt).getLast? = some ',') = False := eq_false hyy_last
  have htmF : (tm0.getLast? = some ',') = False := eq_false htm_last
  have hivF : (iv + 1 > 12) = False := eq_false (by omega)
  have hyvF : (yv < 100) = False := eq_false hyv
  have hconC : (emailMonthnames.contains (lowerStr mm0) = true) = True := by
    simp [hcon]
  simp only [parsedateTzMain, List.length_cons, List.length_nil,
    Nat.zero_add, Nat.reduceAdd, Nat.reduceLT, hdd_ne, hmm_ne, hconC,
    hddF, hyyF, htmF, hivF, hyvF, hidx, hyy_colon, hyc, htm_parts, hyyInt,
    hddInt, haInt, hbInt, hcInt, Bool.false_eq_true, Bool.true_eq_false,
    ite_true, ite_false, if_true, if_false]
  norm_num
  rw [haInt, hbInt, hcInt]
  dsimp only
  rw [if_neg hyv]
  exact ⟨by simp, rfl⟩

/-- Symbolic walkthrough of the main section with the year-time swap: the
month name sits in the first slot, digits in the second, a colon-bearing
time in the year slot and the year in the time slot, as a ctime-style string
produces after the weekday drop; the zone token converts via tzToOffset. -/
theorem parsedateTzMain_swap (dd0 mm0 yy0 tz0 : List Char) (yc : Char)
    (yt : List Char) (j iv : Nat) (yv dv av bv cv : Int)
    (a b c : List Char)
    (hdd_ne : dd0 ≠ []) (hmm_ne : mm0 ≠ []) (hyy_ne : yy0 ≠ [])
    (hcon1 : emailMonthnames.contains (lowerStr mm0) = false)
    (hcon2 : lowerStr dd0 ∈ emailMonthnames)
    (hidx : (emailMonthnames.findIdx? (fun n => n = lowerStr dd0)).getD 0 = iv)
    (hiv : iv + 1 ≤ 12)
    (hdd1_last : (lowerStr mm0).getLast? ≠ some ',')
    (hyy_colon : findChar ':' yy0 = some j) (hj : 0 < j)
    (hyr_last : (yc :: yt).getLast? ≠ some ',')
    (hyc : yc.isDigit = true)
    (hym_last : yy0.getLast? ≠ some ',')
    (hparts : splitOnChar ':' yy0 = [a, b, c])
    (hyyInt : pyInt? (yc :: yt) = some yv) (hyv : ¬ yv < 100)
    (hddInt : pyInt? (lowerStr mm0) = some dv)
    (haInt : pyInt? a = some av) (hbInt : pyInt? b = some bv)
    (hcInt : pyInt? c = some cv) :
    parsedateTzMain [dd0, mm0, yy0, yc :: yt, tz0] =
      some ⟨yv, iv + 1, dv, av, bv, cv, tzToOffset tz0⟩ := by
  have hconC1 : (emailMonthnames.contains (lowerStr mm0) = true) = False := by
    rw [hcon1]
    simp
  have hconC2 : (emailMonthnames.contains (lowerStr dd0) = true) = True := by
    simp [hcon2]
  have hjT : decide (0 < j) = true := decide_eq_true hj
  have hdd1F : ((lowerStr mm0).getLast? = some ',') = False := eq_false hdd1_last
  have hyrF : ((yc :: yt).getLast? = some ',') = False := eq_false hyr_last
  have hymF : (yy0.getLast? = some ',') = False := eq_false hym_last
  have hivF : (iv + 1 > 12) = False := eq_false (by omega)
  have hyvF : (yv < 100) = False := eq_false hyv
  simp only [parsedateTzMain, List.length_cons, List.length_nil,
    Nat.zero_add, Nat.reduceAdd, Nat.reduceLT, hdd_ne, hmm_ne, hyy_ne,
    hconC1, hconC2, hdd1F, hyrF, hymF, hivF, hyvF, hidx, hyy_colon, hjT,
    hyc, hparts, hyyInt, hddInt, haInt, hbInt, hcInt, Bool.false_eq_true,
    Bool.true_eq_false, ite_true, ite_false, if_true, if_false]
  norm_num
  rw [haInt, hbInt, hcInt]
  dsimp only
  rw [if_neg hyv]

/-- Each lowered month abbreviation is a recognized month name. -/
theorem monthAbbr_mem : ∀ i : Fin 12,
    lowerStr (monthAbbrsCap.getD i.val []) ∈ emailMonthnames := by
  decide

/-- The index the mail date parser finds for each lowered month
abbreviation is the month index itself. -/
theorem monthAbbr_idx : ∀ i : Fin 12,
    (emailMonthnames.findIdx?
      (fun n => n = lowerStr (monthAbbrsCap.getD i.val []))).getD 0 = i.val := by
  decide

/-- Month abbreviations do not end in a comma. -/
theorem monthAbbr_last_ne : ∀ i : Fin 12,
    (monthAbbrsCap.getD i.val []).getLast? ≠ some ',' := by
  decide

/-- Each lowered weekday abbreviation is a recognized weekday name. -/
theorem dayAbbr_contains : ∀ w : Fin 7,
    emailDaynames.contains (lowerStr (dayAbbrsCap.getD w.val [])) = true := by
  decide

/-- A two-digit rendering does not end in a comma. -/
theorem pad2_last_ne (n : Nat) (hn : n < 100) :
    (pad2 n).getLast? ≠ some ',' := by
  rw [pad2_getLast]
  intro hcc
  rw [Option.some.injEq] at hcc
  exact (digitChar_ne_special (n % 10) (by omega)).2.2.1 hcc

/-- A four-digit rendering does not end in a comma. -/
theorem pad4_last_ne (n : Nat) :
    (pad4 n).getLast? ≠ some ',' := by
  rw [pad4_getLast]
  intro hcc
  rw [Option.some.injEq] at hcc
  exact (digitChar_ne_special (n % 10) (by omega)).2.2.1 hcc

/-- A four-digit rendering holds no colon. -/
theorem pad4_findChar_colon (n : Nat) (hn : n < 10000) :
    findChar ':' (pad4 n) = none := by
  apply findChar_eq_none
  intro x hx
  obtain ⟨k, hk, rfl⟩ := mem_pad4_lt n hn x hx
  exact (digitChar_ne_special k hk).2.2.2.1

/-- The cons shape of a four-digit rendering. -/
theorem pad4_cons (n : Nat) : pad4 n = digitChar (n / 1000) ::
    [digitChar (n / 100 % 10), digitChar (n / 10 % 10), digitChar (n % 10)] := rfl

/-- The two-token split shape of a rendered time around its first colon. -/
theorem renderTime_shape (h mi s : Nat) :
    renderTime h mi s = pad2 h ++ ':' :: (pad2 mi ++ ':' :: pad2 s) := by
  simp [renderTime]

/-- A rendered time ends with the digit closing its seconds field. -/
theorem renderTime_last_ne (h mi s : Nat) (hs : s < 100) :
    (renderTime h mi s).getLast? ≠ some ',' := by
  have hsh : (renderTime h mi s).getLast? = (pad2 s).getLast? := by
    unfold renderTime
    rw [List.getLast?_append, pad2_getLast]
    rfl
  rw [hsh]
  exact pad2_last_ne s hs

/-- The first colon of a rendered time sits at index two. -/
theorem renderTime_findChar (h mi s : Nat) (hh : h < 100) :
    findChar ':' (renderTime h mi s) = some 2 := by
  rw [renderTime_shape]
  have h2 := findChar_append ':' (pad2 h) (pad2 mi ++ ':' :: pad2 s)
    (pad2_ne_colon h hh)
  rw [h2]
  rfl

/-- The weekday table holds only names of length three, so no two-character
string is a member. -/
theorem emailDaynames_two (a b : Char) :
    emailDaynames.contains [a, b] = false := by
  simp [emailDaynames]

/-- The month table holds only names of length at least three, so no
two-character string is a member. -/
theorem emailMonthnames_two (a b : Char) :
    emailMonthnames.contains [a, b] = false := by
  simp [emailMonthnames]

/-- A two-digit rendering is no weekday name. -/
theorem pad2_not_dayname (n : Nat) (hn : n < 100) :
    emailDaynames.contains (lowerStr (pad2 n)) = false := by
  rw [lowerStr_pad2 n hn]
  rw [show pad2 n = [digitChar (n / 10), digitChar (n % 10)] from rfl]
  exact emailDaynames_two _ _

/-- A two-digit rendering holds no comma. -/
theorem pad2_rfind_comma (n : Nat) (hn : n < 100) :
    rfindChar ',' (pad2 n) = none := by
  apply rfindChar_eq_none
  intro x hx
  obtain ⟨k, hk, rfl⟩ := mem_pad2_lt n hn x hx
  exact (digitChar_ne_special k hk).2.2.1

/-- A rendered offset is below one day in magnitude, as timezone requires. -/
theorem tzOk_tzSec (sgn : Bool) (oh om : Nat) (hoh : oh ≤ 23) (hom : om ≤ 59) :
    tzOk (some (tzSec sgn oh om)) = true := by
  cases sgn <;> simp [tzOk, tzSec] <;> omega

/-- The datetime constructor on in-range natural fields. -/
theorem mkPyDateTime_nat (y m d h mi s : Nat) (tz : Option Int)
    (h1 : 1 ≤ y) (h2 : y ≤ 9999) (h3 : 1 ≤ m) (h4 : m ≤ 12) (h5 : 1 ≤ d)
    (h6 : d ≤ daysInMonth y m) (h7 : h ≤ 23) (h8 : mi ≤ 59) (h9 : s ≤ 59)
    (h10 : tzOk tz = true) :
    mkPyDateTime (y : Int) (m : Int) (d : Int) (h : Int) (mi : Int)
      (s : Int) tz = some ⟨y, m, d, h, mi, s, tz⟩ := by
  unfold mkPyDateTime
  rw [if_pos]
  · simp
  · refine ⟨by omega, by omega, by omega, by omega, by omega, ?_, by omega,
      by omega, by omega, by omega, by omega, by omega, h10⟩
    simp only [Int.toNat_natCast]
    exact_mod_cast h6

/-- No month has more than thirty-one days. -/
theorem daysInMonth_le (y m : Nat) : daysInMonth y m ≤ 31 := by
  unfold daysInMonth
  split_ifs <;> omega

/-- The mail date parser reads a well-formed third-template string to its
rendered calendar fields with the rendered offset. -/
theorem parsedate_render3 (d : Nat) (i : Fin 12) (y h mi s : Nat)
    (sgn : Bool) (oh om : Nat)
    (hWd : WFdate y (i.val + 1) d) (hWt : WFtime h mi s)
    (hWo : WFoff sgn oh om) :
    parsedateToDatetime (render3 d i y h mi s sgn oh om) =
      .ok ⟨y, i.val + 1, d, h, mi, s, some (tzSec sgn oh om)⟩ := by
  obtain ⟨hy1, hy2, hm1, hm2, hd1, hd2⟩ := hWd
  obtain ⟨hh, hmi, hs⟩ := hWt
  obtain ⟨hoh, hom, hz⟩ := hWo
  have hd31 : d ≤ 31 := le_trans hd2 (daysInMonth_le y (i.val + 1))
  have h4c := pad4_cons y
  have hcolon : findChar ':' (digitChar (y / 1000) ::
      [digitChar (y / 100 % 10), digitChar (y / 10 % 10), digitChar (y % 10)]) = none := by
    rw [← h4c]
    exact pad4_findChar_colon y (by omega)
  have hlast4 : (digitChar (y / 1000) ::
      [digitChar (y / 100 % 10), digitChar (y / 10 % 10), digitChar (y % 10)]).getLast? ≠ some ',' := by
    rw [← h4c]
    exact pad4_last_ne y
  have hycd : (digitChar (y / 1000)).isDigit = true := digitChar_isDigit _ (by omega)
  have hyint : pyInt? (digitChar (y / 1000) ::
      [digitChar (y / 100 % 10), digitChar (y / 10 % 10), digitChar (y % 10)]) = some ((y : Nat) : Int) := by
    rw [← h4c]
    exact pyInt?_pad4 y (by omega)
  have hsplit := splitOnChar_renderTime h mi s (by omega) (by omega) (by omega)
  unfold parsedateToDatetime
  rw [pySplitWs_render3 d i y h mi s sgn oh om (by omega) (by omega)
    (by omega) (by omega) (by omega) (by omega) (by omega)]
  rw [parsedateTzTokens_plain _ _ _ _ _ (pad2_last_ne d (by omega))
    (pad2_not_dayname d (by omega)) (pad2_rfind_comma d (by omega))]
  rw [h4c]
  rw [parsedateTzMain_noswap (pad2 d) (monthAbbrsCap.getD i.val [])
    (renderTime h mi s) (renderTz sgn oh om) (digitChar (y / 1000))
    [digitChar (y / 100 % 10), digitChar (y / 10 % 10), digitChar (y % 10)]
    i.val ((y : Nat) : Int) ((d : Nat) : Int) ((h : Nat) : Int)
    ((mi : Nat) : Int) ((s : Nat) : Int) (pad2 h) (pad2 mi) (pad2 s)
    (pad2_ne_nil d) (monthAbbr_ne_nil i) (monthAbbr_mem i) (monthAbbr_idx i)
    (by omega) (pad2_last_ne d (by omega)) hcolon hlast4 hycd
    (renderTime_last_ne h mi s (by omega)) hsplit hyint (by omega)
    (pyInt?_pad2 d (by omega)) (pyInt?_pad2 h (by omega))
    (pyInt?_pad2 mi (by omega)) (pyInt?_pad2 s (by omega))]
  rw [tzToOffset_renderTz sgn oh om hoh hom hz]
  simp only [Option.getD_some, Option.getD_none]
  rw [mkPyDateTime_nat y (i.val + 1) d h mi s _ (by omega) hy2 (by omega)
    (by omega) hd1 hd2 hh hmi hs (tzOk_tzSec sgn oh om hoh hom)]

/-- The mail date parser reads a well-formed second-template string to its
rendered calendar fields with the rendered offset; the weekday token is
dropped unexamined. -/
theorem parsedate_render2 (w : Fin 7) (d : Nat) (i : Fin 12) (y h mi s : Nat)
    (sgn : Bool) (oh om : Nat)
    (hWd : WFdate y (i.val + 1) d) (hWt : WFtime h mi s)
    (hWo : WFoff sgn oh om) :
    parsedateToDatetime (render2 w d i y h mi s sgn oh om) =
      .ok ⟨y, i.val + 1, d, h, mi, s, some (tzSec sgn oh om)⟩ := by
  obtain ⟨hy1, hy2, hm1, hm2, hd1, hd2⟩ := hWd
  obtain ⟨hh, hmi, hs⟩ := hWt
  obtain ⟨hoh, hom, hz⟩ := hWo
  have hd31 : d ≤ 31 := le_trans hd2 (daysInMonth_le y (i.val + 1))
  have h4c := pad4_cons y
  have hcolon : findChar ':' (digitChar (y / 1000) ::
      [digitChar (y / 100 % 10), digitChar (y / 10 % 10), digitChar (y % 10)]) = none := by
    rw [← h4c]
    exact pad4_findChar_colon y (by omega)
  have hlast4 : (digitChar (y / 1000) ::
      [digitChar (y / 100 % 10), digitChar (y / 10 % 10), digitChar (y % 10)]).getLast? ≠ some ',' := by
    rw [← h4c]
    exact pad4_last_ne y
  have hycd : (digitChar (y / 1000)).isDigit = true := digitChar_isDigit _ (by omega)
  have hyint : pyInt? (digitChar (y / 1000) ::
      [digitChar (y / 100 % 10), digitChar (y / 10 % 10), digitChar (y % 10)]) = some ((y : Nat) : Int) := by
    rw [← h4c]
    exact pyInt?_pad4 y (by omega)
  have hsplit := splitOnChar_renderTime h mi s (by omega) (by omega) (by omega)
  unfold parsedateToDatetime
  rw [pySplitWs_render2 w d i y h mi s sgn oh om (by omega) (by omega)
    (by omega) (by omega) (by omega) (by omega) (by omega)]
  rw [parsedateTzTokens_comma]
  rw [h4c]
  rw [parsedateTzMain_noswap (pad2 d) (monthAbbrsCap.getD i.val [])
    (renderTime h mi s) (renderTz sgn oh om) (digitChar (y / 1000))
    [digitChar (y / 100 % 10), digitChar (y / 10 % 10), digitChar (y % 10)]
    i.val ((y : Nat) : Int) ((d : Nat) : Int) ((h : Nat) : Int)
    ((mi : Nat) : Int) ((s : Nat) : Int) (pad2 h) (pad2 mi) (pad2 s)
    (pad2_ne_nil d) (monthAbbr_ne_nil i) (monthAbbr_mem i) (monthAbbr_idx i)
    (by omega) (pad2_last_ne d (by omega)) hcolon hlast4 hycd
    (renderTime_last_ne h mi s (by omega)) hsplit hyint (by omega)
    (pyInt?_pad2 d (by omega)) (pyInt?_pad2 h (by omega))
    (pyInt?_pad2 mi (by omega)) (pyInt?_pad2 s (by omega))]
  rw [tzToOffset_renderTz sgn oh om hoh hom hz]
  simp only [Option.getD_some, Option.getD_none]
  rw [mkPyDateTime_nat y (i.val + 1) d h mi s _ (by omega) hy2 (by omega)
    (by omega) hd1 hd2 hh hmi hs (tzOk_tzSec sgn oh om hoh hom)]

/-- A four-digit rendering holds no plus sign. -/
theorem pad4_findChar_plus (n : Nat) (hn : n < 10000) :
    findChar '+' (pad4 n) = none := by
  apply findChar_eq_none
  intro x hx
  obtain ⟨k, hk, rfl⟩ := mem_pad4_lt n hn x hx
  exact (digitChar_ne_special k hk).1

/-- A four-digit rendering holds no minus sign. -/
theorem pad4_findChar_minus (n : Nat) (hn : n < 10000) :
    findChar '-' (pad4 n) = none := by
  apply findChar_eq_none
  intro x hx
  obtain ⟨k, hk, rfl⟩ := mem_pad4_lt n hn x hx
  exact (digitChar_ne_special k hk).2.1

/-- The mail date parser reads a well-formed fourth-template (ctime-style)
string to its rendered calendar fields, but the result stays naive: the
empty zone token yields no offset, so no UTC offset is assigned. -/
theorem parsedate_render4 (w : Fin 7) (i : Fin 12) (d h mi s y : Nat)
    (hWd : WFdate y (i.val + 1) d) (hWt : WFtime h mi s) :
    parsedateToDatetime (render4 w i d h mi s y) =
      .ok ⟨y, i.val + 1, d, h, mi, s, none⟩ := by
  obtain ⟨hy1, hy2, hm1, hm2, hd1, hd2⟩ := hWd
  obtain ⟨hh, hmi, hs⟩ := hWt
  have hd31 : d ≤ 31 := le_trans hd2 (daysInMonth_le y (i.val + 1))
  have h4c := pad4_cons y
  have hlast4 : (digitChar (y / 1000) ::
      [digitChar (y / 100 % 10), digitChar (y / 10 % 10), digitChar (y % 10)]).getLast? ≠ some ',' := by
    rw [← h4c]
    exact pad4_last_ne y
  have hycd : (digitChar (y / 1000)).isDigit = true := digitChar_isDigit _ (by omega)
  have hyint : pyInt? (digitChar (y / 1000) ::
      [digitChar (y / 100 % 10), digitChar (y / 10 % 10), digitChar (y % 10)]) = some ((y : Nat) : Int) := by
    rw [← h4c]
    exact pyInt?_pad4 y (by omega)
  have hsplit := splitOnChar_renderTime h mi s (by omega) (by omega) (by omega)
  have hcon1 : emailMonthnames.contains (lowerStr (pad2 d)) = false := by
    rw [lowerStr_pad2 d (by omega)]
    rw [show pad2 d = [digitChar (d / 10), digitChar (d % 10)] from rfl]
    exact emailMonthnames_two _ _
  have hdd1_last : (lowerStr (pad2 d)).getLast? ≠ some ',' := by
    rw [lowerStr_pad2 d (by omega)]
    exact pad2_last_ne d (by omega)
  have hddInt : pyInt? (lowerStr (pad2 d)) = some ((d : Nat) : Int) := by
    rw [lowerStr_pad2 d (by omega)]
    exact pyInt?_pad2 d (by omega)
  unfold parsedateToDatetime
  rw [pySplitWs_render4 w i d h mi s y (by omega) (by omega) (by omega)
    (by omega) (by omega)]
  rw [parsedateTzTokens_dayname _ _ _ _ _ (dayAbbr_contains w)
    (pad4_findChar_plus y (by omega)) (pad4_findChar_minus y (by omega))]
  rw [h4c]
  rw [parsedateTzMain_swap (monthAbbrsCap.getD i.val []) (pad2 d)
    (renderTime h mi s) [] (digitChar (y / 1000))
    [digitChar (y / 100 % 10), digitChar (y / 10 % 10), digitChar (y % 10)]
    2 i.val ((y : Nat) : Int) ((d : Nat) : Int) ((h : Nat) : Int)
    ((mi : Nat) : Int) ((s : Nat) : Int) (pad2 h) (pad2 mi) (pad2 s)
    (monthAbbr_ne_nil i) (pad2_ne_nil d) (renderTime_ne_nil h mi s)
    hcon1 (monthAbbr_mem i) (monthAbbr_idx i) (by omega) hdd1_last
    (renderTime_findChar h mi s (by omega)) (by omega) hlast4 hycd
    (renderTime_last_ne h mi s (by omega)) hsplit hyint (by omega) hddInt
    (pyInt?_pad2 h (by omega)) (pyInt?_pad2 mi (by omega))
    (pyInt?_pad2 s (by omega))]
  rw [tzToOffset_nil]
  simp only [Option.getD_some, Option.getD_none]
  rw [mkPyDateTime_nat y (i.val + 1) d h mi s none (by omega) hy2 (by omega)
    (by omega) hd1 hd2 hh hmi hs rfl]

/-- No weekday name starts with a digit character. -/
theorem emailDaynames_digit_head (k : Nat) (hk : k < 10) (t : List Char) :
    emailDaynames.contains (digitChar k :: t) = false := by
  have h1 : digitChar k ≠ 'm' ∧ digitChar k ≠ 't' ∧ digitChar k ≠ 'w' ∧
      digitChar k ≠ 'f' ∧ digitChar k ≠ 's' := by
    revert hk
    revert k
    decide
  simp [emailDaynames, h1.1, h1.2.1, h1.2.2.1, h1.2.2.2.1, h1.2.2.2.2]

/-- Lowering keeps a digit head, which no weekday name has. -/
theorem emailDaynames_lower_digit_head (k : Nat) (hk : k < 10) (t : List Char) :
    emailDaynames.contains (lowerStr (digitChar k :: t)) = false := by
  rw [show lowerStr (digitChar k :: t) = lowerChar (digitChar k) :: lowerStr t
    from rfl, lowerChar_digitChar k hk]
  exact emailDaynames_digit_head k hk (lowerStr t)

/-- The digit-headed cons shape of a rendered first-template string. -/
theorem render1_shape (y m d : Nat) : render1 y m d = digitChar (y / 1000) ::
    ([digitChar (y / 100 % 10), digitChar (y / 10 % 10), digitChar (y % 10)] ++
      ['/'] ++ pad2 m ++ ['/'] ++ pad2 d) := by
  simp [render1, pad4, List.append_assoc]

/-- The digit-headed cons shape of a rendered sixth-template string. -/
theorem render6_shape (y m d : Nat) : render6 y m d = digitChar (y / 1000) ::
    ([digitChar (y / 100 % 10), digitChar (y / 10 % 10), digitChar (y % 10)] ++
      ['-'] ++ pad2 m ++ ['-'] ++ pad2 d) := by
  simp [render6, pad4, List.append_assoc]

/-- A rendered first-template string ends in a digit. -/
theorem render1_last_ne (y m d : Nat) (hd : d < 100) :
    (render1 y m d).getLast? ≠ some ',' := by
  have hsh : (render1 y m d).getLast? = (pad2 d).getLast? := by
    unfold render1
    rw [List.getLast?_append, pad2_getLast]
    rfl
  rw [hsh]
  exact pad2_last_ne d hd

/-- A rendered sixth-template string ends in a digit. -/
theorem render6_last_ne (y m d : Nat) (hd : d < 100) :
    (render6 y m d).getLast? ≠ some ',' := by
  have hsh : (render6 y m d).getLast? = (pad2 d).getLast? := by
    unfold render6
    rw [List.getLast?_append, pad2_getLast]
    rfl
  rw [hsh]
  exact pad2_last_ne d hd

/-- Every character of a rendered first-template string is a digit or the
slash. -/
theorem mem_render1 (y m d : Nat) (hy : y < 10000) (hm : m < 100)
    (hd : d < 100) (x : Char) (hx : x ∈ render1 y m d) :
    (∃ k, k < 10 ∧ x = digitChar k) ∨ x = '/' := by
  unfold render1 at hx
  simp only [List.mem_append, List.mem_singleton] at hx
  rcases hx with (((hx | hx) | hx) | hx) | hx
  · exact Or.inl (mem_pad4_lt y hy x hx)
  · exact Or.inr hx
  · exact Or.inl (mem_pad2_lt m hm x hx)
  · exact Or.inr hx
  · exact Or.inl (mem_pad2_lt d hd x hx)

/-- Every character of a rendered sixth-template string is a digit or the
dash. -/
theorem mem_render6 (y m d : Nat) (hy : y < 10000) (hm : m < 100)
    (hd : d < 100) (x : Char) (hx : x ∈ render6 y m d) :
    (∃ k, k < 10 ∧ x = digitChar k) ∨ x = '-' := by
  unfold render6 at hx
  simp only [List.mem_append, List.mem_singleton] at hx
  rcases hx with (((hx | hx) | hx) | hx) | hx
  · exact Or.inl (mem_pad4_lt y hy x hx)
  · exact Or.inr hx
  · exact Or.inl (mem_pad2_lt m hm x hx)
  · exact Or.inr hx
  · exact Or.inl (mem_pad2_lt d hd x hx)

/-- A rendered first-template string holds no comma. -/
theorem render1_rfind_comma (y m d : Nat) (hy : y < 10000) (hm : m < 100)
    (hd : d < 100) : rfindChar ',' (render1 y m d) = none := by
  apply rfindChar_eq_none
  intro x hx
  rcases mem_render1 y m d hy hm hd x hx with ⟨k, hk, rfl⟩ | rfl
  · exact (digitChar_ne_special k hk).2.2.1
  · decide

/-- A rendered sixth-template string holds no comma. -/
theorem render6_rfind_comma (y m d : Nat) (hy : y < 10000) (hm : m < 100)
    (hd : d < 100) : rfindChar ',' (render6 y m d) = none := by
  apply rfindChar_eq_none
  intro x hx
  rcases mem_render6 y m d hy hm hd x hx with ⟨k, hk, rfl⟩ | rfl
  · exact (digitChar_ne_special k hk).2.2.1
  · decide

/-- The mail date parser rejects a rendered first-template string: one
token is too short. -/
theorem parsedate_render1_email (y m d : Nat) (hy : y < 10000) (hm : m < 100)
    (hd : d < 100) :
    parsedateToDatetime (render1 y m d) = .error .valueError := by
  unfold parsedateToDatetime
  rw [pySplitWs_render1 y m d hy hm hd]
  rw [parsedateTzTokens_one _ (render1_last_ne y m d hd)
    (by
      rw [render1_shape]
      exact emailDaynames_lower_digit_head _ (by omega) _)
    (render1_rfind_comma y m d hy hm hd)]

/-- The mail date parser rejects a rendered sixth-template string: one
token is too short. -/
theorem parsedate_render6_email (y m d : Nat) (hy : y < 10000) (hm : m < 100)
    (hd : d < 100) :
    parsedateToDatetime (render6 y m d) = .error .valueError := by
  unfold parsedateToDatetime
  rw [pySplitWs_render6 y m d hy hm hd]
  rw [parsedateTzTokens_one _ (render6_last_ne y m d hd)
    (by
      rw [render6_shape]
      exact emailDaynames_lower_digit_head _ (by omega) _)
    (render6_rfind_comma y m d hy hm hd)]

/-- The mail date parser rejects a rendered fifth-template string: two
tokens are too short. -/
theorem parsedate_render5_email (y m d h mi s : Nat) (hy : y < 10000)
    (hm : m < 100) (hd : d < 100) (hh : h < 100) (hmi : mi < 100)
    (hs : s < 100) :
    parsedateToDatetime (render5 y m d h mi s) = .error .valueError := by
  unfold parsedateToDatetime
  rw [pySplitWs_render5 y m d h mi s hy hm hd hh hmi hs]
  rw [parsedateTzTokens_two _ _ (render6_last_ne y m d hd)
    (by
      rw [render6_shape]
      exact emailDaynames_lower_digit_head _ (by omega) _)
    (render6_rfind_comma y m d hy hm hd)]

/-- firstSome of an all-none list is none. -/
theorem firstSome_all_none {α : Type} (L : List (Option α))
    (h : ∀ x ∈ L, x = none) : firstSome L = none := by
  induction L with
  | nil => rfl
  | cons x t ih =>
    rw [h x (List.mem_cons_self x t)]
    exact ih (fun z hz => h z (List.mem_cons_of_mem x hz))

/-- firstSome of a one-element list is that element. -/
theorem firstSome_singleton {α : Type} (x : Option α) :
    firstSome [x] = x := by
  cases x <;> rfl

/-- A directive whose first candidate continues to a full match produces
that match: regex backtracking takes the first success. -/
theorem matchDirs_head (dir : Dir) (ds : List Dir) (acc : StrpAcc)
    (input : List Char) (p : StrpAcc × List Char) (out : StrpAcc)
    (h1 : (dirCands dir acc input).head? = some p)
    (h2 : matchDirs ds p.1 p.2 = some out) :
    matchDirs (dir :: ds) acc input = some out := by
  rw [matchDirs]
  cases hc : dirCands dir acc input with
  | nil => rw [hc] at h1; cases h1
  | cons q t =>
    rw [hc] at h1
    rw [List.head?_cons, Option.some.injEq] at h1
    rw [List.map_cons]
    rw [← h1] at h2
    rw [h2]
    rfl

/-- A directive with no candidate at the head of the input fails. -/
theorem matchDirs_no_cands (dir : Dir) (ds : List Dir) (acc : StrpAcc)
    (input : List Char) (h : dirCands dir acc input = []) :
    matchDirs (dir :: ds) acc input = none := by
  rw [matchDirs, h]
  rfl

/-- A literal directive fails on a different head character. -/
theorem matchDirs_lit_ne (c x : Char) (ds : List Dir) (acc : StrpAcc)
    (rest : List Char) (h : x ≠ c) :
    matchDirs (.lit c :: ds) acc (x :: rest) = none := by
  apply matchDirs_no_cands
  simp [dirCands, h]

/-- A literal directive fails at the end of input. -/
theorem matchDirs_lit_nil (c : Char) (ds : List Dir) (acc : StrpAcc) :
    matchDirs (.lit c :: ds) acc [] = none := by
  apply matchDirs_no_cands
  simp [dirCands]

/-- The whitespace directive fails where no whitespace stands. -/
theorem matchDirs_wsp_none (ds : List Dir) (acc : StrpAcc)
    (input : List Char) (h : candsWs input = []) :
    matchDirs (.wsp :: ds) acc input = none := by
  apply matchDirs_no_cands
  simp [dirCands, h]

/-- No whitespace run starts at the end of input. -/
theorem candsWs_nil : candsWs [] = [] := rfl

/-- No whitespace run starts at a non-whitespace character. -/
theorem candsWs_not (c : Char) (r : List Char) (h : isPyWs c = false) :
    candsWs (c :: r) = [] := by
  show (if isPyWs c = true then wsTails r else []) = []
  rw [h]
  rfl

/-- A single space followed by non-whitespace matches the whitespace
directive in exactly one way. -/
theorem candsWs_space (c : Char) (r : List Char) (h : isPyWs c = false) :
    candsWs (' ' :: c :: r) = [c :: r] := by
  show (if isPyWs ' ' = true then wsTails (c :: r) else []) = [c :: r]
  rw [if_pos (by decide), wsTails, h]
  rfl

/-- An element of a guarded singleton is its value. -/
theorem mem_ite_singleton {α : Type} {P : Prop} [Decidable P] {v x : α}
    (h : x ∈ if P then [v] else []) : x = v := by
  split at h
  · simpa using h
  · cases h

/-- Every day-directive candidate on a two-digit head resumes at one of the
two digit positions. -/
theorem candsD_rest (x : Nat × List Char) (a b : Char) (l : List Char)
    (hx : x ∈ candsD (a :: b :: l)) : x.2 = l ∨ x.2 = b :: l := by
  unfold candsD at hx
  simp only [List.mem_append] at hx
  rcases hx with (((hx | hx) | hx) | hx) | hx
  · rw [mem_ite_singleton hx]; exact Or.inl rfl
  · rw [mem_ite_singleton hx]; exact Or.inl rfl
  · rw [mem_ite_singleton hx]; exact Or.inl rfl
  · rw [mem_ite_singleton hx]; exact Or.inr rfl
  · rw [mem_ite_singleton hx]; exact Or.inl rfl

/-- The day-then-whitespace prefix of a format fails when two digits lead
and no whitespace can follow either resume position. -/
theorem matchDirs_day2_wsp (ds : List Dir) (acc : StrpAcc) (a b : Char)
    (l : List Char) (ha : a.isDigit = true) (hb : b.isDigit = true)
    (hl : ∀ c, l.head? = some c → isPyWs c = false) :
    matchDirs (.day2 :: .wsp :: ds) acc (a :: b :: l) = none := by
  rw [matchDirs]
  apply firstSome_all_none
  intro x hx
  obtain ⟨p, hp, rfl⟩ := List.mem_map.mp hx
  have hp1 : p ∈ (candsD (a :: b :: l)).map
      (fun q => (({ acc with d := some q.1 } : StrpAcc), q.2)) := by
    simpa [dirCands] using hp
  obtain ⟨q, hq, rfl⟩ := List.mem_map.mp hp1
  have hp2 : q.2 = l ∨ q.2 = b :: l := candsD_rest q a b l hq
  rcases hp2 with h2 | h2 <;> rw [h2]
  · cases l with
    | nil => exact matchDirs_wsp_none ds _ [] candsWs_nil
    | cons c t =>
      exact matchDirs_wsp_none ds _ (c :: t)
        (candsWs_not c t (hl c rfl))
  · exact matchDirs_wsp_none ds _ (b :: l)
      (candsWs_not b l (isDigit_not_ws b hb))

/-- Character-class facts for zero-padded digit pairs, decided once. -/
theorem between19_digit : ∀ k, k ≤ 9 → 1 ≤ k →
    between '1' '9' (digitChar k) = true := by
  decide

/-- The zero digit is outside the one-to-nine class. -/
theorem between19_zero : between '1' '9' '0' = false := by decide

/-- Digits up to two lie in the zero-to-two class. -/
theorem between02_digit : ∀ k, k ≤ 2 → between '0' '2' (digitChar k) = true := by
  decide

/-- Digits up to one lie in the zero-to-one class. -/
theorem between01_digit : ∀ k, k ≤ 1 → between '0' '1' (digitChar k) = true := by
  decide

/-- Digits up to three lie in the zero-to-three class. -/
theorem between03_digit : ∀ k, k ≤ 3 → between '0' '3' (digitChar k) = true := by
  decide

/-- Digits up to five lie in the zero-to-five class. -/
theorem between05_digit : ∀ k, k ≤ 5 → between '0' '5' (digitChar k) = true := by
  decide

/-- Digits one and two lie in the one-to-two class. -/
theorem between12_digit : ∀ k, 1 ≤ k → k ≤ 2 →
    between '1' '2' (digitChar k) = true := by
  decide

/-- The year directive consumes exactly the four digits of a padded year. -/
theorem candsY_pad4 (y : Nat) (hy : y < 10000) (r : List Char) :
    candsY (pad4 y ++ r) = [(y, r)] := by
  rw [pad4_cons]
  show candsY (digitChar (y / 1000) :: digitChar (y / 100 % 10) ::
    digitChar (y / 10 % 10) :: digitChar (y % 10) :: r) = [(y, r)]
  rw [candsY]
  rw [if_pos ⟨digitChar_isDigit _ (by omega), digitChar_isDigit _ (by omega),
    digitChar_isDigit _ (by omega), digitChar_isDigit _ (by omega)⟩]
  rw [show digitChar (y / 1000) :: digitChar (y / 100 % 10) ::
    digitChar (y / 10 % 10) :: [digitChar (y % 10)] = pad4 y from rfl]
  rw [digitsToNat_pad4 y hy]

/-- The month directive on a padded month below ten: one candidate. -/
theorem candsM_pad2_low (m : Nat) (hm1 : 1 ≤ m) (hm9 : m ≤ 9)
    (r : List Char) : candsM (pad2 m ++ r) = [(m, r)] := by
  have e1 : m / 10 = 0 := by omega
  have e2 : m % 10 = m := by omega
  rw [show pad2 m ++ r =
    digitChar (m / 10) :: digitChar (m % 10) :: r from rfl, e1, e2]
  rw [candsM]
  rw [if_neg (by
    intro hcc
    exact absurd hcc.1 (by decide))]
  rw [if_pos ⟨by decide, between19_digit m hm9 hm1⟩]
  rw [if_neg (by
    intro hcc
    exact absurd hcc (by decide))]
  rw [digitV_digitChar m (by omega)]
  rfl

/-- The month directive on a padded month of ten to twelve: the two-digit
reading first, then the backtracking one-digit reading. -/
theorem candsM_pad2_high (m : Nat) (hm10 : 10 ≤ m) (hm12 : m ≤ 12)
    (r : List Char) :
    candsM (pad2 m ++ r) = [(m, r), (1, digitChar (m % 10) :: r)] := by
  have e1 : m / 10 = 1 := by omega
  rw [show pad2 m ++ r =
    digitChar (m / 10) :: digitChar (m % 10) :: r from rfl, e1]
  rw [candsM]
  rw [if_pos ⟨by decide, between02_digit (m % 10) (by omega)⟩]
  rw [if_neg (by
    intro hcc
    exact absurd hcc.1 (by decide))]
  rw [if_pos (by decide : between '1' '9' (digitChar 1) = true)]
  rw [digitV_digitChar (m % 10) (by omega),
    digitV_digitChar 1 (by omega)]
  rw [show 10 + m % 10 = m from by omega]
  rfl

/-- Digits one and two differ from the three digit. -/
theorem digit12_ne3 : ∀ k, k ≤ 2 → 1 ≤ k → ¬(digitChar k = '3') := by
  decide

/-- Digits up to one differ from the two digit. -/
theorem digit01_ne2 : ∀ k, k ≤ 1 → ¬(digitChar k = '2') := by
  decide

/-- Digits up to five differ from the six digit. -/
theorem digit05_ne6 : ∀ k, k ≤ 5 → ¬(digitChar k = '6') := by
  decide

/-- The day directive reads a padded in-range day first as its two-digit
value. -/
theorem candsD_pad2_head (d : Nat) (hd1 : 1 ≤ d) (hd31 : d ≤ 31)
    (r : List Char) : (candsD (pad2 d ++ r)).head? = some (d, r) := by
  rw [show pad2 d ++ r =
    digitChar (d / 10) :: digitChar (d % 10) :: r from rfl]
  rw [candsD]
  by_cases h9 : d ≤ 9
  · have e1 : d / 10 = 0 := by omega
    have e2 : d % 10 = d := by omega
    rw [e1, e2]
    rw [if_neg (fun hcc => absurd hcc.1 (by decide))]
    rw [if_neg (fun hcc => absurd hcc.1 (by decide))]
    rw [if_pos ⟨by decide, between19_digit d h9 hd1⟩]
    simp [digitV_digitChar d (by omega)]
  · by_cases h29 : d ≤ 29
    · have e1a : 1 ≤ d / 10 := by omega
      have e1b : d / 10 ≤ 2 := by omega
      rw [if_neg (fun hcc => absurd hcc.1 (digit12_ne3 (d / 10) e1b e1a))]
      rw [if_pos ⟨between12_digit (d / 10) e1a e1b,
        digitChar_isDigit (d % 10) (by omega)⟩]
      simp [digitV_digitChar (d / 10) (by omega),
        digitV_digitChar (d % 10) (by omega)]
      omega
    · have e1 : d / 10 = 3 := by omega
      rw [e1]
      rw [if_pos ⟨by decide, between01_digit (d % 10) (by omega)⟩]
      simp [digitV_digitChar (d % 10) (by omega)]
      omega

/-- The hour directive reads a padded in-range hour first as its two-digit
value. -/
theorem candsH_pad2_head (h : Nat) (hh : h ≤ 23) (r : List Char) :
    (candsH (pad2 h ++ r)).head? = some (h, r) := by
  rw [show pad2 h ++ r =
    digitChar (h / 10) :: digitChar (h % 10) :: r from rfl]
  rw [candsH]
  by_cases h19 : h ≤ 19
  · have e1b : h / 10 ≤ 1 := by omega
    rw [if_neg (fun hcc => absurd hcc.1 (digit01_ne2 (h / 10) e1b))]
    rw [if_pos ⟨between01_digit (h / 10) e1b,
      digitChar_isDigit (h % 10) (by omega)⟩]
    simp [digitV_digitChar (h / 10) (by omega),
      digitV_digitChar (h % 10) (by omega)]
    omega
  · have e1 : h / 10 = 2 := by omega
    rw [e1]
    rw [if_pos ⟨by decide, between03_digit (h % 10) (by omega)⟩]
    simp [digitV_digitChar (h % 10) (by omega)]
    omega

/-- The minute directive reads a padded in-range minute first as its
two-digit value. -/
theorem candsMin_pad2_head (mi : Nat) (hmi : mi ≤ 59) (r : List Char) :
    (candsMin (pad2 mi ++ r)).head? = some (mi, r) := by
  rw [show pad2 mi ++ r =
    digitChar (mi / 10) :: digitChar (mi % 10) :: r from rfl]
  rw [candsMin]
  rw [if_pos ⟨between05_digit (mi / 10) (by omega),
    digitChar_isDigit (mi % 10) (by omega)⟩]
  simp [digitV_digitChar (mi / 10) (by omega),
    digitV_digitChar (mi % 10) (by omega)]
  omega

/-- The second directive reads a padded in-range second first as its
two-digit value. -/
theorem candsS_pad2_head (s : Nat) (hs : s ≤ 59) (r : List Char) :
    (candsS (pad2 s ++ r)).head? = some (s, r) := by
  rw [show pad2 s ++ r =
    digitChar (s / 10) :: digitChar (s % 10) :: r from rfl]
  rw [candsS]
  rw [if_neg (fun hcc => absurd hcc.1 (digit05_ne6 (s / 10) (by omega)))]
  rw [if_pos ⟨between05_digit (s / 10) (by omega),
    digitChar_isDigit (s % 10) (by omega)⟩]
  simp [digitV_digitChar (s / 10) (by omega),
    digitV_digitChar (s % 10) (by omega)]
  omega

/-- No weekday-name alternative matches at a digit character. -/
theorem candsAlt_day_digit (k : Nat) (hk : k < 10) (t : List Char) :
    candsAlt strptimeDayAbbrs (digitChar k :: t) = [] := by
  have h2 : digitChar k ≠ 'm' ∧ digitChar k ≠ 't' ∧ digitChar k ≠ 'w' ∧
      digitChar k ≠ 'f' ∧ digitChar k ≠ 's' := by
    revert hk
    revert k
    decide
  have h1 : lowerChar (digitChar k) = digitChar k := lowerChar_digitChar k hk
  unfold candsAlt
  rw [List.filterMap_eq_nil_iff]
  intro p hp
  have hp2 : p = (0, ("mon").toList) ∨ p = (1, ("tue").toList) ∨
      p = (2, ("wed").toList) ∨ p = (3, ("thu").toList) ∨
      p = (4, ("fri").toList) ∨ p = (5, ("sat").toList) ∨
      p = (6, ("sun").toList) := by
    simpa [strptimeDayAbbrs, List.enum] using hp
  rcases hp2 with rfl | rfl | rfl | rfl | rfl | rfl | rfl <;>
    simp [matchCI, h1, h2.1, h2.2.1, h2.2.2.1, h2.2.2.2.1, h2.2.2.2.2]

/-- The weekday directive fails on a digit head. -/
theorem matchDirs_wkA_digit (k : Nat) (hk : k < 10) (ds : List Dir)
    (acc : StrpAcc) (t : List Char) :
    matchDirs (.wkA :: ds) acc (digitChar k :: t) = none := by
  apply matchDirs_no_cands
  simp [dirCands, candsAlt_day_digit k hk]

/-- The month directive reads a padded in-range month first as its full
value. -/
theorem candsM_pad2_head (m : Nat) (hm1 : 1 ≤ m) (hm12 : m ≤ 12)
    (r : List Char) : (candsM (pad2 m ++ r)).head? = some (m, r) := by
  by_cases h9 : m ≤ 9
  · rw [candsM_pad2_low m hm1 h9 r]
    rfl
  · rw [candsM_pad2_high m (by omega) hm12 r]
    rfl

/-- The first explicit template matches its rendered string, capturing the
three calendar fields. -/
theorem matchDirs_fmtSlash_render1 (y m d : Nat) (hy : y < 10000)
    (hm1 : 1 ≤ m) (hm12 : m ≤ 12) (hd1 : 1 ≤ d) (hd31 : d ≤ 31) :
    matchDirs fmtSlash ⟨none, none, none, none, none, none, none⟩
      (render1 y m d) =
      some ⟨some y, some m, some d, none, none, none, none⟩ := by
  have hr : render1 y m d =
      pad4 y ++ ('/' :: (pad2 m ++ ('/' :: pad2 d))) := by
    simp [render1, List.append_assoc]
  rw [hr]
  have hcd : (candsD (pad2 d)).head? = some (d, []) := by
    have hc := candsD_pad2_head d hd1 hd31 []
    rwa [List.append_nil] at hc
  have h5 : matchDirs [] ⟨some y, some m, some d, none, none, none, none⟩
      [] = some ⟨some y, some m, some d, none, none, none, none⟩ := rfl
  have h4 : matchDirs [.day2]
      ⟨some y, some m, none, none, none, none, none⟩ (pad2 d) =
      some ⟨some y, some m, some d, none, none, none, none⟩ :=
    matchDirs_head .day2 [] _ (pad2 d)
      ((⟨some y, some m, some d, none, none, none, none⟩ : StrpAcc), []) _
      (by simp [dirCands, hcd]) h5
  have h3 : matchDirs [.lit '/', .day2]
      ⟨some y, some m, none, none, none, none, none⟩ ('/' :: pad2 d) =
      some ⟨some y, some m, some d, none, none, none, none⟩ :=
    matchDirs_head (.lit '/') [.day2] _ ('/' :: pad2 d)
      ((⟨some y, some m, none, none, none, none, none⟩ : StrpAcc), pad2 d) _
      (by simp [dirCands]) h4
  have h2 : matchDirs [.mon2, .lit '/', .day2]
      ⟨some y, none, none, none, none, none, none⟩
      (pad2 m ++ ('/' :: pad2 d)) =
      some ⟨some y, some m, some d, none, none, none, none⟩ :=
    matchDirs_head .mon2 [.lit '/', .day2] _ (pad2 m ++ ('/' :: pad2 d))
      ((⟨some y, some m, none, none, none, none, none⟩ : StrpAcc),
        '/' :: pad2 d) _
      (by simp [dirCands, candsM_pad2_head m hm1 hm12]) h3
  have h1 : matchDirs [.lit '/', .mon2, .lit '/', .day2]
      ⟨some y, none, none, none, none, none, none⟩
      ('/' :: (pad2 m ++ ('/' :: pad2 d))) =
      some ⟨some y, some m, some d, none, none, none, none⟩ :=
    matchDirs_head (.lit '/') [.mon2, .lit '/', .day2] _
      ('/' :: (pad2 m ++ ('/' :: pad2 d)))
      ((⟨some y, none, none, none, none, none, none⟩ : StrpAcc),
        pad2 m ++ ('/' :: pad2 d)) _
      (by simp [dirCands]) h2
  exact matchDirs_head .yr4 [.lit '/', .mon2, .lit '/', .day2] _
    (pad4 y ++ ('/' :: (pad2 m ++ ('/' :: pad2 d))))
    ((⟨some y, none, none, none, none, none, none⟩ : StrpAcc),
      '/' :: (pad2 m ++ ('/' :: pad2 d))) _
    (by simp [dirCands, candsY_pad4 y hy]) h1

/-- The sixth explicit template matches its rendered string, capturing the
three calendar fields. -/
theorem matchDirs_fmtIso_render6 (y m d : Nat) (hy : y < 10000)
    (hm1 : 1 ≤ m) (hm12 : m ≤ 12) (hd1 : 1 ≤ d) (hd31 : d ≤ 31) :
    matchDirs fmtIso ⟨none, none, none, none, none, none, none⟩
      (render6 y m d) =
      some ⟨some y, some m, some d, none, none, none, none⟩ := by
  have hr : render6 y m d =
      pad4 y ++ ('-' :: (pad2 m ++ ('-' :: pad2 d))) := by
    simp [render6, List.append_assoc]
  rw [hr]
  have hcd : (candsD (pad2 d)).head? = some (d, []) := by
    have hc := candsD_pad2_head d hd1 hd31 []
    rwa [List.append_nil] at hc
  have h5 : matchDirs [] ⟨some y, some m, some d, none, none, none, none⟩
      [] = some ⟨some y, some m, some d, none, none, none, none⟩ := rfl
  have h4 : matchDirs [.day2]
      ⟨some y, some m, none, none, none, none, none⟩ (pad2 d) =
      some ⟨some y, some m, some d, none, none, none, none⟩ :=
    matchDirs_head .day2 [] _ (pad2 d)
      ((⟨some y, some m, some d, none, none, none, none⟩ : StrpAcc), []) _
      (by simp [dirCands, hcd]) h5
  have h3 : matchDirs [.lit '-', .day2]
      ⟨some y, some m, none, none, none, none, none⟩ ('-' :: pad2 d) =
      some ⟨some y, some m, some d, none, none, none, none⟩ :=
    matchDirs_head (.lit '-') [.day2] _ ('-' :: pad2 d)
      ((⟨some y, some m, none, none, none, none, none⟩ : StrpAcc), pad2 d) _
      (by simp [dirCands]) h4
  have h2 : matchDirs [.mon2, .lit '-', .day2]
      ⟨some y, none, none, none, none, none, none⟩
      (pad2 m ++ ('-' :: pad2 d)) =
      some ⟨some y, some m, some d, none, none, none, none⟩ :=
    matchDirs_head .mon2 [.lit '-', .day2] _ (pad2 m ++ ('-' :: pad2 d))
      ((⟨some y, some m, none, none, none, none, none⟩ : StrpAcc),
        '-' :: pad2 d) _
      (by simp [dirCands, candsM_pad2_head m hm1 hm12]) h3
  have h1 : matchDirs [.lit '-', .mon2, .lit '-', .day2]
      ⟨some y, none, none, none, none, none, none⟩
      ('-' :: (pad2 m ++ ('-' :: pad2 d))) =
      some ⟨some y, some m, some d, none, none, none, none⟩ :=
    matchDirs_head (.lit '-') [.mon2, .lit '-', .day2] _
      ('-' :: (pad2 m ++ ('-' :: pad2 d)))
      ((⟨some y, none, none, none, none, none, none⟩ : StrpAcc),
        pad2 m ++ ('-' :: pad2 d)) _
      (by simp [dirCands]) h2
  exact matchDirs_head .yr4 [.lit '-', .mon2, .lit '-', .day2] _
    (pad4 y ++ ('-' :: (pad2 m ++ ('-' :: pad2 d))))
    ((⟨some y, none, none, none, none, none, none⟩ : StrpAcc),
      '-' :: (pad2 m ++ ('-' :: pad2 d))) _
    (by simp [dirCands, candsY_pad4 y hy]) h1

/-- The fifth explicit template matches its rendered string, capturing all
six calendar fields. -/
theorem matchDirs_fmtIsoSec_render5 (y m d h mi s : Nat) (hy : y < 10000)
    (hm1 : 1 ≤ m) (hm12 : m ≤ 12) (hd1 : 1 ≤ d) (hd31 : d ≤ 31)
    (hh : h ≤ 23) (hmi : mi ≤ 59) (hs : s ≤ 59) :
    matchDirs fmtIsoSec ⟨none, none, none, none, none, none, none⟩
      (render5 y m d h mi s) =
      some ⟨some y, some m, some d, some h, some mi, some s, none⟩ := by
  have hr : render5 y m d h mi s =
      pad4 y ++ ('-' :: (pad2 m ++ ('-' :: (pad2 d ++ (' ' ::
        (pad2 h ++ (':' :: (pad2 mi ++ (':' :: pad2 s))))))))) := by
    simp [render5, renderTime, List.append_assoc]
  rw [hr]
  have hws : candsWs (' ' :: (pad2 h ++ (':' :: (pad2 mi ++
      (':' :: pad2 s))))) =
      [pad2 h ++ (':' :: (pad2 mi ++ (':' :: pad2 s)))] := by
    rw [show pad2 h ++ (':' :: (pad2 mi ++ (':' :: pad2 s))) =
      digitChar (h / 10) :: (digitChar (h % 10) :: (':' :: (pad2 mi ++
        (':' :: pad2 s)))) from rfl]
    exact candsWs_space _ _ (digitChar_not_ws (h / 10) (by omega))
  have hcs : (candsS (pad2 s)).head? = some (s, []) := by
    have hc := candsS_pad2_head s hs []
    rwa [List.append_nil] at hc
  have t11 : matchDirs []
      ⟨some y, some m, some d, some h, some mi, some s, none⟩ [] =
      some ⟨some y, some m, some d, some h, some mi, some s, none⟩ := rfl
  have t10 : matchDirs [.sec2]
      ⟨some y, some m, some d, some h, some mi, none, none⟩ (pad2 s) =
      some ⟨some y, some m, some d, some h, some mi, some s, none⟩ :=
    matchDirs_head .sec2 [] _ (pad2 s)
      ((⟨some y, some m, some d, some h, some mi, some s, none⟩ : StrpAcc),
        []) _ (by simp [dirCands, hcs]) t11
  have t9 : matchDirs [.lit ':', .sec2]
      ⟨some y, some m, some d, some h, some mi, none, none⟩
      (':' :: pad2 s) =
      some ⟨some y, some m, some d, some h, some mi, some s, none⟩ :=
    matchDirs_head (.lit ':') [.sec2] _ (':' :: pad2 s)
      ((⟨some y, some m, some d, some h, some mi, none, none⟩ : StrpAcc),
        pad2 s) _ (by simp [dirCands]) t10
  have t8 : matchDirs [.min2, .lit ':', .sec2]
      ⟨some y, some m, some d, some h, none, none, none⟩
      (pad2 mi ++ (':' :: pad2 s)) =
      some ⟨some y, some m, some d, some h, some mi, some s, none⟩ :=
    matchDirs_head .min2 [.lit ':', .sec2] _ (pad2 mi ++ (':' :: pad2 s))
      ((⟨some y, some m, some d, some h, some mi, none, none⟩ : StrpAcc),
        ':' :: pad2 s) _
      (by simp [dirCands, candsMin_pad2_head mi hmi]) t9
  have t7 : matchDirs [.lit ':', .min2, .lit ':', .sec2]
      ⟨some y, some m, some d, some h, none, none, none⟩
      (':' :: (pad2 mi ++ (':' :: pad2 s))) =
      some ⟨some y, some m, some d, some h, some mi, some s, none⟩ :=
    matchDirs_head (.lit ':') [.min2, .lit ':', .sec2] _
      (':' :: (pad2 mi ++ (':' :: pad2 s)))
      ((⟨some y, some m, some d, some h, none, none, none⟩ : StrpAcc),
        pad2 mi ++ (':' :: pad2 s)) _ (by simp [dirCands]) t8
  have t6 : matchDirs [.hr2, .lit ':', .min2, .lit ':', .sec2]
      ⟨some y, some m, some d, none, none, none, none⟩
      (pad2 h ++ (':' :: (pad2 mi ++ (':' :: pad2 s)))) =
      some ⟨some y, some m, some d, some h, some mi, some s, none⟩ :=
    matchDirs_head .hr2 [.lit ':', .min2, .lit ':', .sec2] _
      (pad2 h ++ (':' :: (pad2 mi ++ (':' :: pad2 s))))
      ((⟨some y, some m, some d, some h, none, none, none⟩ : StrpAcc),
        ':' :: (pad2 mi ++ (':' :: pad2 s))) _
      (by simp [dirCands, candsH_pad2_head h hh]) t7
  have t5 : matchDirs [.wsp, .hr2, .lit ':', .min2, .lit ':', .sec2]
      ⟨some y, some m, some d, none, none, none, none⟩
      (' ' :: (pad2 h ++ (':' :: (pad2 mi ++ (':' :: pad2 s))))) =
      some ⟨some y, some m, some d, some h, some mi, some s, none⟩ :=
    matchDirs_head .wsp [.hr2, .lit ':', .min2, .lit ':', .sec2] _
      (' ' :: (pad2 h ++ (':' :: (pad2 mi ++ (':' :: pad2 s)))))
      ((⟨some y, some m, some d, none, none, none, none⟩ : StrpAcc),
        pad2 h ++ (':' :: (pad2 mi ++ (':' :: pad2 s)))) _
      (by simp [dirCands, hws]) t6
  have t4 : matchDirs [.day2, .wsp, .hr2, .lit ':', .min2, .lit ':', .sec2]
      ⟨some y, some m, none, none, none, none, none⟩
      (pad2 d ++ (' ' :: (pad2 h ++ (':' :: (pad2 mi ++
        (':' :: pad2 s)))))) =
      some ⟨some y, some m, some d, some h, some mi, some s, none⟩ :=
    matchDirs_head .day2 [.wsp, .hr2, .lit ':', .min2, .lit ':', .sec2] _
      (pad2 d ++ (' ' :: (pad2 h ++ (':' :: (pad2 mi ++ (':' :: pad2 s))))))
      ((⟨some y, some m, some d, none, none, none, none⟩ : StrpAcc),
        ' ' :: (pad2 h ++ (':' :: (pad2 mi ++ (':' :: pad2 s))))) _
      (by simp [dirCands, candsD_pad2_head d hd1 hd31]) t5
  have t3 : matchDirs
      [.lit '-', .day2, .wsp, .hr2, .lit ':', .min2, .lit ':', .sec2]
      ⟨some y, some m, none, none, none, none, none⟩
      ('-' :: (pad2 d ++ (' ' :: (pad2 h ++ (':' :: (pad2 mi ++
        (':' :: pad2 s))))))) =
      some ⟨some y, some m, some d, some h, some mi, some s, none⟩ :=
    matchDirs_head (.lit '-')
      [.day2, .wsp, .hr2, .lit ':', .min2, .lit ':', .sec2] _
      ('-' :: (pad2 d ++ (' ' :: (pad2 h ++ (':' :: (pad2 mi ++
        (':' :: pad2 s)))))))
      ((⟨some y, some m, none, none, none, none, none⟩ : StrpAcc),
        pad2 d ++ (' ' :: (pad2 h ++ (':' :: (pad2 mi ++
          (':' :: pad2 s)))))) _ (by simp [dirCands]) t4
  have t2 : matchDirs
      [.mon2, .lit '-', .day2, .wsp, .hr2, .lit ':', .min2, .lit ':', .sec2]
      ⟨some y, none, none, none, none, none, none⟩
      (pad2 m ++ ('-' :: (pad2 d ++ (' ' :: (pad2 h ++ (':' ::
        (pad2 mi ++ (':' :: pad2 s)))))))) =
      some ⟨some y, some m, some d, some h, some mi, some s, none⟩ :=
    matchDirs_head .mon2
      [.lit '-', .day2, .wsp, .hr2, .lit ':', .min2, .lit ':', .sec2] _
      (pad2 m ++ ('-' :: (pad2 d ++ (' ' :: (pad2 h ++ (':' ::
        (pad2 mi ++ (':' :: pad2 s))))))))
      ((⟨some y, some m, none, none, none, none, none⟩ : StrpAcc),
        '-' :: (pad2 d ++ (' ' :: (pad2 h ++ (':' :: (pad2 mi ++
          (':' :: pad2 s))))))) _
      (by simp [dirCands, candsM_pad2_head m hm1 hm12]) t3
  have t1 : matchDirs
      [.lit '-', .mon2, .lit '-', .day2, .wsp, .hr2, .lit ':', .min2,
        .lit ':', .sec2]
      ⟨some y, none, none, none, none, none, none⟩
      ('-' :: (pad2 m ++ ('-' :: (pad2 d ++ (' ' :: (pad2 h ++ (':' ::
        (pad2 mi ++ (':' :: pad2 s))))))))) =
      some ⟨some y, some m, some d, some h, some mi, some s, none⟩ :=
    matchDirs_head (.lit '-')
      [.mon2, .lit '-', .day2, .wsp, .hr2, .lit ':', .min2, .lit ':', .sec2]
      _ ('-' :: (pad2 m ++ ('-' :: (pad2 d ++ (' ' :: (pad2 h ++ (':' ::
        (pad2 mi ++ (':' :: pad2 s)))))))))
      ((⟨some y, none, none, none, none, none, none⟩ : StrpAcc),
        pad2 m ++ ('-' :: (pad2 d ++ (' ' :: (pad2 h ++ (':' ::
          (pad2 mi ++ (':' :: pad2 s)))))))) _ (by simp [dirCands]) t2
  exact matchDirs_head .yr4
    [.lit '-', .mon2, .lit '-', .day2, .wsp, .hr2, .lit ':', .min2,
      .lit ':', .sec2] _
    (pad4 y ++ ('-' :: (pad2 m ++ ('-' :: (pad2 d ++ (' ' :: (pad2 h ++
      (':' :: (pad2 mi ++ (':' :: pad2 s))))))))))
    ((⟨some y, none, none, none, none, none, none⟩ : StrpAcc),
      '-' :: (pad2 m ++ ('-' :: (pad2 d ++ (' ' :: (pad2 h ++ (':' ::
        (pad2 mi ++ (':' :: pad2 s))))))))) _
    (by simp [dirCands, candsY_pad4 y hy]) t1

/-- A directive with exactly one candidate steps to its continuation. -/
theorem matchDirs_single (dir : Dir) (ds : List Dir) (acc : StrpAcc)
    (input : List Char) (p : StrpAcc × List Char)
    (h : dirCands dir acc input = [p]) :
    matchDirs (dir :: ds) acc input = matchDirs ds p.1 p.2 := by
  rw [matchDirs, h, List.map_cons, List.map_nil, firstSome_singleton]

/-- The first template fails on a year followed by a dash: its literal
slash does not match. -/
theorem matchDirs_fmtSlash_dash (y : Nat) (hy : y < 10000) (acc : StrpAcc)
    (rest : List Char) :
    matchDirs fmtSlash acc (pad4 y ++ '-' :: rest) = none := by
  unfold fmtSlash
  rw [matchDirs_single .yr4 _ acc _ ({ acc with y := some y }, '-' :: rest)
    (by simp [dirCands, candsY_pad4 y hy])]
  exact matchDirs_lit_ne '/' '-' _ _ rest (by decide)

/-- The third template fails on four leading digits: after any day reading
the required whitespace meets a digit. -/
theorem matchDirs_fmtDmyOff_pad4 (y : Nat) (hy : y < 10000) (acc : StrpAcc)
    (rest : List Char) :
    matchDirs fmtDmyOff acc (pad4 y ++ rest) = none := by
  unfold fmtDmyOff
  rw [show pad4 y ++ rest = digitChar (y / 1000) :: digitChar (y / 100 % 10)
    :: (digitChar (y / 10 % 10) :: digitChar (y % 10) :: rest) from rfl]
  exact matchDirs_day2_wsp _ _ _ _ _ (digitChar_isDigit _ (by omega))
    (digitChar_isDigit _ (by omega))
    (fun c hc => by
      rw [List.head?_cons, Option.some.injEq] at hc
      rw [← hc]
      exact digitChar_not_ws _ (by omega))

/-- The fifth template fails on a rendered sixth-template string: every
backtracking path ends at the whitespace directive with no input left or a
digit ahead. -/
theorem matchDirs_fmtIsoSec_render6 (y m d : Nat) (hy : y < 10000)
    (hm1 : 1 ≤ m) (hm12 : m ≤ 12) (hd : d < 100) (acc : StrpAcc) :
    matchDirs fmtIsoSec acc (render6 y m d) = none := by
  have hr : render6 y m d =
      pad4 y ++ ('-' :: (pad2 m ++ ('-' :: pad2 d))) := by
    simp [render6, List.append_assoc]
  rw [hr]
  unfold fmtIsoSec
  rw [matchDirs_single .yr4 _ acc _
    ({ acc with y := some y }, '-' :: (pad2 m ++ ('-' :: pad2 d)))
    (by simp [dirCands, candsY_pad4 y hy])]
  rw [matchDirs_single (.lit '-') _ _ _
    ({ acc with y := some y }, pad2 m ++ ('-' :: pad2 d))
    (by simp [dirCands])]
  rw [matchDirs]
  apply firstSome_all_none
  intro x hx
  obtain ⟨p, hp, rfl⟩ := List.mem_map.mp hx
  have hp1 : p ∈ (candsM (pad2 m ++ ('-' :: pad2 d))).map
      (fun q => (({ { acc with y := some y } with mo := some q.1 } : StrpAcc),
        q.2)) := by
    simpa [dirCands] using hp
  obtain ⟨q, hq, rfl⟩ := List.mem_map.mp hp1
  have hq2 : q = (m, '-' :: pad2 d) ∨ q = (1, digitChar (m % 10) ::
      ('-' :: pad2 d)) := by
    by_cases h9 : m ≤ 9
    · rw [candsM_pad2_low m hm1 h9] at hq
      simp at hq
      exact Or.inl hq
    · rw [candsM_pad2_high m (by omega) hm12] at hq
      simp at hq
      rcases hq with hq | hq
      · exact Or.inl hq
      · exact Or.inr hq
  rcases hq2 with rfl | rfl
  · rw [matchDirs_single (.lit '-') _ _ _
      ((⟨some y, some m, acc.d, acc.h, acc.mi, acc.s, acc.z⟩ : StrpAcc),
        pad2 d) (by simp [dirCands])]
    rw [show pad2 d = digitChar (d / 10) :: digitChar (d % 10) :: []
      from rfl]
    exact matchDirs_day2_wsp _ _ _ _ _ (digitChar_isDigit _ (by omega))
      (digitChar_isDigit _ (by omega)) (fun c hc => by cases hc)
  · exact matchDirs_lit_ne '-' (digitChar (m % 10)) _ _ _
      ((digitChar_ne_special (m % 10) (by omega)).2.1)

/-- A rendered first-template string needs no stripping. -/
theorem pystrip_render1 (y m d : Nat) (hy : y < 10000) (hd : d < 100) :
    pystrip (render1 y m d) = render1 y m d := by
  apply pystrip_of_ends
  · intro c hc
    rw [render1_shape, List.head?_cons, Option.some.injEq] at hc
    rw [← hc]
    exact digitChar_not_ws _ (by omega)
  · intro c hc
    have hsh : (render1 y m d).getLast? = (pad2 d).getLast? := by
      unfold render1
      rw [List.getLast?_append, pad2_getLast]
      rfl
    rw [hsh, pad2_getLast, Option.some.injEq] at hc
    rw [← hc]
    exact digitChar_not_ws _ (by omega)

/-- A rendered sixth-template string needs no stripping. -/
theorem pystrip_render6 (y m d : Nat) (hy : y < 10000) (hd : d < 100) :
    pystrip (render6 y m d) = render6 y m d := by
  apply pystrip_of_ends
  · intro c hc
    rw [render6_shape, List.head?_cons, Option.some.injEq] at hc
    rw [← hc]
    exact digitChar_not_ws _ (by omega)
  · intro c hc
    have hsh : (render6 y m d).getLast? = (pad2 d).getLast? := by
      unfold render6
      rw [List.getLast?_append, pad2_getLast]
      rfl
    rw [hsh, pad2_getLast, Option.some.injEq] at hc
    rw [← hc]
    exact digitChar_not_ws _ (by omega)

/-- A rendered fifth-template string needs no stripping. -/
theorem pystrip_render5 (y m d h mi s : Nat) (hy : y < 10000)
    (hs : s < 100) :
    pystrip (render5 y m d h mi s) = render5 y m d h mi s := by
  apply pystrip_of_ends
  · intro c hc
    rw [show render5 y m d h mi s = digitChar (y / 1000) ::
      ([digitChar (y / 100 % 10), digitChar (y / 10 % 10),
        digitChar (y % 10)] ++ ['-'] ++ pad2 m ++ ['-'] ++ pad2 d ++
        [' '] ++ renderTime h mi s) from by
        simp [render5, pad4, List.append_assoc]] at hc
    rw [List.head?_cons, Option.some.injEq] at hc
    rw [← hc]
    exact digitChar_not_ws _ (by omega)
  · intro c hc
    have hsh : (render5 y m d h mi s).getLast? = (pad2 s).getLast? := by
      unfold render5 renderTime
      rw [List.getLast?_append, List.getLast?_append, pad2_getLast]
      rfl
    rw [hsh, pad2_getLast, Option.some.injEq] at hc
    rw [← hc]
    exact digitChar_not_ws _ (by omega)

/-- The first template strategy parses its rendered string, assigning UTC
to the naive result. -/
theorem strptimeUTC_fmtSlash_render1 (y m d : Nat) (hWd : WFdate y m d) :
    strptimeUTC (render1 y m d) fmtSlash =
      some ⟨y, m, d, 0, 0, 0, some 0⟩ := by
  obtain ⟨hy1, hy2, hm1, hm2, hd1, hd2⟩ := hWd
  have hd31 : d ≤ 31 := le_trans hd2 (daysInMonth_le y m)
  unfold strptimeUTC pyStrptime
  rw [pystrip_render1 y m d (by omega) (by omega)]
  rw [matchDirs_fmtSlash_render1 y m d (by omega) hm1 hm2 hd1 hd31]
  simp only [Option.getD_some, Option.getD_none]
  rw [mkPyDateTime_nat y m d 0 0 0 none (by omega) hy2 hm1 hm2 hd1 hd2
    (by omega) (by omega) (by omega) rfl]
  rfl

/-- The sixth template strategy parses its rendered string, assigning UTC
to the naive result. -/
theorem strptimeUTC_fmtIso_render6 (y m d : Nat) (hWd : WFdate y m d) :
    strptimeUTC (render6 y m d) fmtIso =
      some ⟨y, m, d, 0, 0, 0, some 0⟩ := by
  obtain ⟨hy1, hy2, hm1, hm2, hd1, hd2⟩ := hWd
  have hd31 : d ≤ 31 := le_trans hd2 (daysInMonth_le y m)
  unfold strptimeUTC pyStrptime
  rw [pystrip_render6 y m d (by omega) (by omega)]
  rw [matchDirs_fmtIso_render6 y m d (by omega) hm1 hm2 hd1 hd31]
  simp only [Option.getD_some, Option.getD_none]
  rw [mkPyDateTime_nat y m d 0 0 0 none (by omega) hy2 hm1 hm2 hd1 hd2
    (by omega) (by omega) (by omega) rfl]
  rfl

/-- The fifth template strategy parses its rendered string, assigning UTC
to the naive result. -/
theorem strptimeUTC_fmtIsoSec_render5 (y m d h mi s : Nat)
    (hWd : WFdate y m d) (hWt : WFtime h mi s) :
    strptimeUTC (render5 y m d h mi s) fmtIsoSec =
      some ⟨y, m, d, h, mi, s, some 0⟩ := by
  obtain ⟨hy1, hy2, hm1, hm2, hd1, hd2⟩ := hWd
  obtain ⟨hh, hmi, hs⟩ := hWt
  have hd31 : d ≤ 31 := le_trans hd2 (daysInMonth_le y m)
  unfold strptimeUTC pyStrptime
  rw [pystrip_render5 y m d h mi s (by omega) (by omega)]
  rw [matchDirs_fmtIsoSec_render5 y m d h mi s (by omega) hm1 hm2 hd1 hd31
    hh hmi hs]
  simp only [Option.getD_some, Option.getD_none]
  rw [mkPyDateTime_nat y m d h mi s none (by omega) hy2 hm1 hm2 hd1 hd2
    hh hmi hs rfl]
  rfl

/-- The date interpreter on a well-formed first-template string: the mail
parser rejects it, the first explicit template accepts it, UTC is
assigned. -/
theorem parse_date_render1 (y m d : Nat) (hWd : WFdate y m d) :
    parse_date (some (render1 y m d)) = some ⟨y, m, d, 0, 0, 0, some 0⟩ := by
  obtain ⟨hy1, hy2, hm1, hm2, hd1, hd2⟩ := hWd
  unfold parse_date
  dsimp only
  rw [if_neg (by simp [render1, pad4])]
  rw [parsedate_render1_email y m d (by omega) (by omega)
    (by
      have hd31 := le_trans hd2 (daysInMonth_le y m)
      omega)]
  simp only [formatsList, List.map_cons, List.map_nil]
  rw [strptimeUTC_fmtSlash_render1 y m d ⟨hy1, hy2, hm1, hm2, hd1, hd2⟩]
  rfl

/-- The date interpreter on a well-formed fifth-template string: the mail
parser and the first four explicit templates reject it, the fifth accepts
it, UTC is assigned. -/
theorem parse_date_render5 (y m d h mi s : Nat) (hWd : WFdate y m d)
    (hWt : WFtime h mi s) :
    parse_date (some (render5 y m d h mi s)) =
      some ⟨y, m, d, h, mi, s, some 0⟩ := by
  obtain ⟨hy1, hy2, hm1, hm2, hd1, hd2⟩ := hWd
  obtain ⟨hh, hmi, hs⟩ := hWt
  have hd31 : d ≤ 31 := le_trans hd2 (daysInMonth_le y m)
  have hshape : render5 y m d h mi s = pad4 y ++ '-' :: (pad2 m ++
      ('-' :: (pad2 d ++ (' ' :: renderTime h mi s)))) := by
    simp [render5, List.append_assoc]
  have hcons : render5 y m d h mi s = digitChar (y / 1000) ::
      ([digitChar (y / 100 % 10), digitChar (y / 10 % 10),
        digitChar (y % 10)] ++ ['-'] ++ pad2 m ++ ['-'] ++ pad2 d ++
        [' '] ++ renderTime h mi s) := by
    simp [render5, pad4, List.append_assoc]
  have hf1 : strptimeUTC (render5 y m d h mi s) fmtSlash = none := by
    unfold strptimeUTC pyStrptime
    rw [pystrip_render5 y m d h mi s (by omega) (by omega), hshape,
      matchDirs_fmtSlash_dash y (by omega)]
  have hf2 : strptimeUTC (render5 y m d h mi s) fmtWdOff = none := by
    unfold strptimeUTC pyStrptime fmtWdOff
    rw [pystrip_render5 y m d h mi s (by omega) (by omega), hcons,
      matchDirs_wkA_digit (y / 1000) (by omega)]
  have hf3 : strptimeUTC (render5 y m d h mi s) fmtDmyOff = none := by
    unfold strptimeUTC pyStrptime
    rw [pystrip_render5 y m d h mi s (by omega) (by omega), hshape,
      matchDirs_fmtDmyOff_pad4 y (by omega)]
  have hf4 : strptimeUTC (render5 y m d h mi s) fmtCtime = none := by
    unfold strptimeUTC pyStrptime fmtCtime
    rw [pystrip_render5 y m d h mi s (by omega) (by omega), hcons,
      matchDirs_wkA_digit (y / 1000) (by omega)]
  unfold parse_date
  dsimp only
  rw [if_neg (by simp [render5, pad4])]
  rw [parsedate_render5_email y m d h mi s (by omega) (by omega) (by omega)
    (by omega) (by omega) (by omega)]
  simp only [formatsList, List.map_cons, List.map_nil]
  rw [hf1, hf2, hf3, hf4,
    strptimeUTC_fmtIsoSec_render5 y m d h mi s
      ⟨hy1, hy2, hm1, hm2, hd1, hd2⟩ ⟨hh, hmi, hs⟩]
  rfl

/-- The date interpreter on a well-formed sixth-template string: the mail
parser and the first five explicit templates reject it, the last accepts
it, UTC is assigned. -/
theorem parse_date_render6 (y m d : Nat) (hWd : WFdate y m d) :
    parse_date (some (render6 y m d)) = some ⟨y, m, d, 0, 0, 0, some 0⟩ := by
  obtain ⟨hy1, hy2, hm1, hm2, hd1, hd2⟩ := hWd
  have hd31 : d ≤ 31 := le_trans hd2 (daysInMonth_le y m)
  have hshape : render6 y m d = pad4 y ++ '-' :: (pad2 m ++
      ('-' :: pad2 d)) := by
    simp [render6, List.append_assoc]
  have hf1 : strptimeUTC (render6 y m d) fmtSlash = none := by
    unfold strptimeUTC pyStrptime
    rw [pystrip_render6 y m d (by omega) (by omega), hshape,
      matchDirs_fmtSlash_dash y (by omega)]
  have hf2 : strptimeUTC (render6 y m d) fmtWdOff = none := by
    unfold strptimeUTC pyStrptime fmtWdOff
    rw [pystrip_render6 y m d (by omega) (by omega), render6_shape,
      matchDirs_wkA_digit (y / 1000) (by omega)]
  have hf3 : strptimeUTC (render6 y m d) fmtDmyOff = none := by
    unfold strptimeUTC pyStrptime
    rw [pystrip_render6 y m d (by omega) (by omega), hshape,
      matchDirs_fmtDmyOff_pad4 y (by omega)]
  have hf4 : strptimeUTC (render6 y m d) fmtCtime = none := by
    unfold strptimeUTC pyStrptime fmtCtime
    rw [pystrip_render6 y m d (by omega) (by omega), render6_shape,
      matchDirs_wkA_digit (y / 1000) (by omega)]
  have hf5 : strptimeUTC (render6 y m d) fmtIsoSec = none := by
    unfold strptimeUTC pyStrptime
    rw [pystrip_render6 y m d (by omega) (by omega),
      matchDirs_fmtIsoSec_render6 y m d (by omega) hm1 hm2 (by omega)]
  unfold parse_date
  dsimp only
  rw [if_neg (by simp [render6, pad4])]
  rw [parsedate_render6_email y m d (by omega) (by omega) (by omega)]
  simp only [formatsList, List.map_cons, List.map_nil]
  rw [hf1, hf2, hf3, hf4, hf5,
    strptimeUTC_fmtIso_render6 y m d ⟨hy1, hy2, hm1, hm2, hd1, hd2⟩]
  rfl

/-- The date interpreter on a well-formed second-template string: the mail
parser accepts it with the rendered offset. -/
theorem parse_date_render2 (w : Fin 7) (d : Nat) (i : Fin 12)
    (y h mi s : Nat) (sgn : Bool) (oh om : Nat)
    (hWd : WFdate y (i.val + 1) d) (hWt : WFtime h mi s)
    (hWo : WFoff sgn oh om) :
    parse_date (some (render2 w d i y h mi s sgn oh om)) =
      some ⟨y, i.val + 1, d, h, mi, s, some (tzSec sgn oh om)⟩ := by
  unfold parse_date
  dsimp only
  rw [if_neg (by
    intro hcc
    have hlen := congrArg List.length hcc
    simp [render2] at hlen)]
  rw [parsedate_render2 w d i y h mi s sgn oh om hWd hWt hWo]

/-- The date interpreter on a well-formed third-template string: the mail
parser accepts it with the rendered offset. -/
theorem parse_date_render3 (d : Nat) (i : Fin 12) (y h mi s : Nat)
    (sgn : Bool) (oh om : Nat)
    (hWd : WFdate y (i.val + 1) d) (hWt : WFtime h mi s)
    (hWo : WFoff sgn oh om) :
    parse_date (some (render3 d i y h mi s sgn oh om)) =
      some ⟨y, i.val + 1, d, h, mi, s, some (tzSec sgn oh om)⟩ := by
  unfold parse_date
  dsimp only
  rw [if_neg (by
    intro hcc
    have hlen := congrArg List.length hcc
    simp [render3, pad2] at hlen)]
  rw [parsedate_render3 d i y h mi s sgn oh om hWd hWt hWo]

/-- The date interpreter on a well-formed fourth-template (ctime-style)
string: the mail parser accepts it but leaves the result naive, so no UTC
offset is assigned even though the template carries no zone. -/
theorem parse_date_render4 (w : Fin 7) (i : Fin 12) (d h mi s y : Nat)
    (hWd : WFdate y (i.val + 1) d) (hWt : WFtime h mi s) :
    parse_date (some (render4 w i d h mi s y)) =
      some ⟨y, i.val + 1, d, h, mi, s, none⟩ := by
  unfold parse_date
  dsimp only
  rw [if_neg (by
    intro hcc
    have hlen := congrArg List.length hcc
    simp [render4, pad2] at hlen)]
  rw [parsedate_render4 w i d h mi s y hWd hWt]

/-- C5 (amended): for each of the six explicit format templates, every
well-formed rendered date string is parsed by the date interpreter to the
direct calendar-field interpretation of the string; templates two and three
carry their rendered offset, templates one, five and six are assigned UTC,
but the ctime-style fourth template, though it carries no timezone
information, is intercepted by the standards-based mail parser and yields a
naive timestamp with no UTC offset assigned. -/
theorem c5_templates_field_interpretation :
    (∀ y m d : Nat, WFdate y m d →
      parse_date (some (render1 y m d)) =
        some ⟨y, m, d, 0, 0, 0, some 0⟩) ∧
    (∀ (w : Fin 7) (i : Fin 12) (y d h mi s : Nat) (sgn : Bool)
      (oh om : Nat), WFdate y (i.val + 1) d → WFtime h mi s →
      WFoff sgn oh om →
      parse_date (some (render2 w d i y h mi s sgn oh om)) =
        some ⟨y, i.val + 1, d, h, mi, s, some (tzSec sgn oh om)⟩) ∧
    (∀ (i : Fin 12) (y d h mi s : Nat) (sgn : Bool) (oh om : Nat),
      WFdate y (i.val + 1) d → WFtime h mi s → WFoff sgn oh om →
      parse_date (some (render3 d i y h mi s sgn oh om)) =
        some ⟨y, i.val + 1, d, h, mi, s, some (tzSec sgn oh om)⟩) ∧
    (∀ (w : Fin 7) (i : Fin 12) (y d h mi s : Nat),
      WFdate y (i.val + 1) d → WFtime h mi s →
      parse_date (some (render4 w i d h mi s y)) =
        some ⟨y, i.val + 1, d, h, mi, s, none⟩) ∧
    (∀ y m d h mi s : Nat, WFdate y m d → WFtime h mi s →
      parse_date (some (render5 y m d h mi s)) =
        some ⟨y, m, d, h, mi, s, some 0⟩) ∧
    (∀ y m d : Nat, WFdate y m d →
      parse_date (some (render6 y m d)) =
        some ⟨y, m, d, 0, 0, 0, some 0⟩) :=
  ⟨fun y m d hWd => parse_date_render1 y m d hWd,
   fun w i y d h mi s sgn oh om hWd hWt hWo =>
     parse_date_render2 w d i y h mi s sgn oh om hWd hWt hWo,
   fun i y d h mi s sgn oh om hWd hWt hWo =>
     parse_date_render3 d i y h mi s sgn oh om hWd hWt hWo,
   fun w i y d h mi s hWd hWt => parse_date_render4 w i d h mi s y hWd hWt,
   fun y m d h mi s hWd hWt => parse_date_render5 y m d h mi s hWd hWt,
   fun y m d hWd => parse_date_render6 y m d hWd⟩

/-- C5 counterexample to the original claim: the well-formed ctime-style
string Thu May 21 05:33:29 1998 of the fourth template (which carries no
timezone information) parses to a naive timestamp whose offset is not UTC:
the standards-based mail parser intercepts it before the explicit-template
loop that would have assigned UTC. -/
theorem c5_ctime_counterexample :
    parse_date (some (("Thu May 21 05:33:29 1998").toList)) =
      some ⟨1998, 5, 21, 5, 33, 29, none⟩ ∧
    (⟨1998, 5, 21, 5, 33, 29, none⟩ : PyDateTime).tzOffset ≠ some 0 := by
  constructor
  · rfl
  · decide

/-- Witness for the amended C5 theorem at concrete well-formed strings of
the second and fourth templates. -/
theorem c5_templates_field_interpretation_witness :
    parse_date (some (render2 ⟨3, by decide⟩ 21 ⟨4, by decide⟩ 1998 5 33 29
        true 5 0)) =
      some ⟨1998, 5, 21, 5, 33, 29, some (tzSec true 5 0)⟩ ∧
    parse_date (some (render4 ⟨3, by decide⟩ ⟨4, by decide⟩ 21 5 33 29
        1998)) =
      some ⟨1998, 5, 21, 5, 33, 29, none⟩ :=
  ⟨c5_templates_field_interpretation.2.1 ⟨3, by decide⟩ ⟨4, by decide⟩
      1998 21 5 33 29 true 5 0
      ⟨by decide, by decide, by decide, by decide, by decide, by decide⟩
      ⟨by decide, by decide, by decide⟩
      ⟨by decide, by decide, fun hcc => Bool.noConfusion hcc⟩,
   c5_templates_field_interpretation.2.2.2.1 ⟨3, by decide⟩ ⟨4, by decide⟩
      1998 21 5 33 29
      ⟨by decide, by decide, by decide, by decide, by decide, by decide⟩
      ⟨by decide, by decide, by decide⟩⟩
